import Mathlib

/-!
# RayCaster: a shallow embedding of `src/c++/raytrace.hpp`

The source computes in `GLdouble`.  The embedding is written over an arbitrary
linearly ordered field `α`, and the two libm functions the source calls, `sqrt`
and `pow`, are passed in as arguments.  Theorems that do not depend on square
roots are stated for every `α` and every `sqrt`; the others instantiate `α`
with `ℝ`, `sqrt` with `Real.sqrt` and `pow` with `Real.rpow`.

One double value has no counterpart in an ordered field: `sqrt` of a negative
number is NaN.  The only place of the source where that can happen on real
inputs is `Sphere::intersect` (the discriminant `delta`), and it is modelled
there explicitly, see `Probe`.

`RayTracer::shade` recurses without a depth counter; its model takes a budget
of nested calls.  The OpenGL and GLU calls of the renderer are outside the
repository: `gluUnProject` with the stored matrices is a field of the renderer
state, and drawing (`plot`) leaves the state unchanged.
-/

namespace RayTrace

variable {α : Type} [LinearOrderedField α]

/-- Source: `const GLdouble PRECISION = 0.0000001;` -/
def PRECISION : α := 1 / 10000000

/-- Source: `struct Color`. -/
@[ext]
structure Color (α : Type) where
  red : α
  green : α
  blue : α
  deriving DecidableEq

/-- Source: `const Color black;` (the default constructor: all channels zero). -/
def black : Color α := ⟨0, 0, 0⟩

/-- Source: `struct Point`. -/
@[ext]
structure Point (α : Type) where
  x : α
  y : α
  z : α
  deriving DecidableEq

namespace Color

/-- Source: `operator+(Color, Color)` and `operator+=`. -/
def add (a b : Color α) : Color α := ⟨a.red + b.red, a.green + b.green, a.blue + b.blue⟩

/-- Source: `operator*(Color, Color)`: channel-wise product. -/
def mul (a b : Color α) : Color α := ⟨a.red * b.red, a.green * b.green, a.blue * b.blue⟩

/-- Source: `operator*(GLdouble, Color)`: `b.red *= a; ...`. -/
def scale (a : α) (b : Color α) : Color α := ⟨b.red * a, b.green * a, b.blue * a⟩

/-- Source: `operator*(Color, GLdouble)` and `operator*=`: `a.red *= b; ...`. -/
def times (a : Color α) (b : α) : Color α := ⟨a.red * b, a.green * b, a.blue * b⟩

end Color

namespace Point

/-- Source: `Point()`: the default constructor. -/
def zero : Point α := ⟨0, 0, 0⟩

/-- Source: `operator*(Point, Point)`: dot product. -/
def dot (a b : Point α) : α := a.x * b.x + a.y * b.y + a.z * b.z

/-- Source: `operator*(GLdouble, Point)`: `b.x *= a; ...`. -/
def scale (a : α) (b : Point α) : Point α := ⟨b.x * a, b.y * a, b.z * a⟩

/-- Source: `operator*(Point, GLdouble)`: `a.x *= b; ...`. -/
def times (a : Point α) (b : α) : Point α := ⟨a.x * b, a.y * b, a.z * b⟩

/-- Source: `operator/(Point, GLdouble)`. -/
def divide (a : Point α) (b : α) : Point α := ⟨a.x / b, a.y / b, a.z / b⟩

/-- Source: `operator%(Point, Point)`: cross product. -/
def cross (a b : Point α) : Point α :=
  ⟨a.y * b.z - a.z * b.y, a.z * b.x - a.x * b.z, a.x * b.y - a.y * b.x⟩

/-- Source: `operator+(Point, Point)`. -/
def add (a b : Point α) : Point α := ⟨a.x + b.x, a.y + b.y, a.z + b.z⟩

/-- Source: `operator-(Point, Point)`. -/
def sub (a b : Point α) : Point α := ⟨a.x - b.x, a.y - b.y, a.z - b.z⟩

/-- Source: `operator==(Point, Point)`: equality up to PRECISION on every coordinate. -/
def eq (a b : Point α) : Prop :=
  |a.x - b.x| < PRECISION ∧ |a.y - b.y| < PRECISION ∧ |a.z - b.z| < PRECISION

instance (a b : Point α) : Decidable (Point.eq a b) := by
  unfold Point.eq; exact inferInstance

/-- Source: `Point::length`: `sqrt(*this * *this)`. -/
def length (sqrt : α → α) (p : Point α) : α := sqrt (dot p p)

/-- Source: `Point::unitary`: `*this / length()`. -/
def unitary (sqrt : α → α) (p : Point α) : Point α := divide p (length sqrt p)

end Point

/-- Source: `struct Ray`. -/
structure Ray (α : Type) where
  origin : Point α
  direction : Point α
  strength : α

/-- Source: `struct Line`. -/
structure Line (α : Type) where
  origin : Point α
  destiny : Point α

namespace Line

/-- Source: `Line::toPoint`: `origin - destiny`. -/
def toPoint (l : Line α) : Point α := l.origin.sub l.destiny

/-- Source: `Line::length`: `toPoint().length()`. -/
def length (sqrt : α → α) (l : Line α) : α := l.toPoint.length sqrt

/-- Source: `Line::direction`: `(destiny-origin).unitary()`. -/
def direction (sqrt : α → α) (l : Line α) : Point α := (l.destiny.sub l.origin).unitary sqrt

/-- Source: `Line::toRay(GLdouble strength)`. -/
def toRay (sqrt : α → α) (l : Line α) (strength : α) : Ray α :=
  ⟨l.origin, l.direction sqrt, strength⟩

end Line

/-- Source: `struct Intersection`; the field `where` of the source is `where_` here. -/
@[ext]
structure Intersection (α : Type) where
  where_ : Point α
  normal : Point α
  length : α
  index : Int

/-- Source: `Intersection()`: `length(-1), index(-1)`, both points default-constructed. -/
def Intersection.new : Intersection α := ⟨Point.zero, Point.zero, -1, -1⟩

/-- Source: `struct Light`. -/
structure Light (α : Type) where
  position : Point α
  color : Color α
  intensity : α

/-- Source: `struct Material`. -/
structure Material (α : Type) where
  reflection : α
  specular : α
  shinny : α
  diffuse : α
  ambient : α
  color : Color α
  deriving DecidableEq

/-- Source: `Material::operator==`: the source compares reflection, specular, shinny,
diffuse and color (with the exact `operator==(Color, Color)`); `ambient` is not
among the compared fields. -/
def Material.eq (a m : Material α) : Prop :=
  a.reflection = m.reflection ∧ a.specular = m.specular ∧
  a.shinny = m.shinny ∧ a.diffuse = m.diffuse ∧
  (a.color.red = m.color.red ∧ a.color.green = m.color.green ∧ a.color.blue = m.color.blue)

instance (a m : Material α) : Decidable (Material.eq a m) := by
  unfold Material.eq; exact inferInstance

/-- Source: `struct Cube : Object`. -/
structure Cube (α : Type) where
  position : Point α
  up : Point α
  material : Int
  side : α

/-- Source: `struct Sphere : Object`. -/
structure Sphere (α : Type) where
  position : Point α
  up : Point α
  material : Int
  radius : α

/-- Source: `Cube(pos, up, side)`: the constructor sets the material index to 0. -/
def Cube.new (pos up : Point α) (side : α) : Cube α := ⟨pos, up, 0, side⟩

/-- Source: `Sphere(pos, up, radius)`: the constructor sets the material index to 0. -/
def Sphere.new (pos up : Point α) (radius : α) : Sphere α := ⟨pos, up, 0, radius⟩

/-- What a primitive's `intersect` hands back.  `real i` is an Intersection
whose fields are real numbers.  `nan` is the Intersection the double code
produces when it takes `sqrt` of a negative number: its `where`, `normal` and
`length` are all NaN, and every comparison with them is false. -/
inductive Probe (α : Type) where
  | real (i : Intersection α)
  | nan

/-- Source: `Cube::intersectPlane`: `i` is the in/out parameter, the updated value is
returned. -/
def Cube.intersectPlane (sqrt : α → α) (c : Cube α) (pivot a b : Point α) (ray : Ray α)
    (i : Intersection α) : Intersection α :=
  let n := Point.cross (Line.direction sqrt ⟨pivot, a⟩) (Line.direction sqrt ⟨pivot, b⟩)
  let denominator := Point.dot ray.direction n
  if denominator ≠ 0 then
    let numerator := Point.dot (pivot.sub ray.origin) n / denominator
    if numerator < PRECISION then i
    else
      let p := ray.origin.add (Point.scale numerator ray.direction)
      let q := p.sub c.position
      let x := |q.x| - c.side / 2
      let y := |q.y| - c.side / 2
      let z := |q.z| - c.side / 2
      if x > PRECISION ∨ y > PRECISION ∨ z > PRECISION then i
      else
        let len := Line.length sqrt ⟨p, ray.origin⟩
        if i.length = -1 ∨ len - i.length < 0 then
          { i with where_ := p, normal := n, length := len }
        else i
  else i

/-- The array entry `vertices[k]` of `Cube::intersect`. -/
def Cube.vertices (c : Cube α) (k : Fin 8) : Point α :=
  let h := c.side / 2
  match k with
  | 0 => c.position.add ⟨h, h, -h⟩
  | 1 => c.position.add ⟨h, h, h⟩
  | 2 => c.position.add ⟨-h, h, -h⟩
  | 3 => c.position.add ⟨-h, h, h⟩
  | 4 => c.position.add ⟨-h, -h, h⟩
  | 5 => c.position.add ⟨h, -h, h⟩
  | 6 => c.position.add ⟨h, -h, -h⟩
  | 7 => c.position.add ⟨-h, -h, -h⟩

/-- Source: `Cube::intersect`: six calls of `intersectPlane` on the same `ret`, in the
order top, bottom, front, back, right, left. -/
def Cube.intersect (sqrt : α → α) (c : Cube α) (ray : Ray α) : Intersection α :=
  let v := c.vertices
  let ret : Intersection α := { (Intersection.new : Intersection α) with length := -1 }
  let ret := c.intersectPlane sqrt (v 3) (v 1) (v 2) ray ret
  let ret := c.intersectPlane sqrt (v 6) (v 5) (v 7) ray ret
  let ret := c.intersectPlane sqrt (v 1) (v 3) (v 5) ray ret
  let ret := c.intersectPlane sqrt (v 7) (v 2) (v 6) ray ret
  let ret := c.intersectPlane sqrt (v 0) (v 1) (v 6) ray ret
  let ret := c.intersectPlane sqrt (v 4) (v 3) (v 7) ray ret
  ret

/-- The six faces of a cube, named as in the comments of `Cube::intersect`
and listed in the order of its calls of `intersectPlane`. -/
inductive Face where
  | top
  | bottom
  | front
  | back
  | right
  | left
  deriving DecidableEq

/-- The faces in the order `Cube::intersect` visits them. -/
def Face.all : List Face := [Face.top, Face.bottom, Face.front, Face.back, Face.right, Face.left]

/-- The outward unit normal of a face of an axis-aligned cube. -/
def Face.normal : Face → Point α
  | Face.top => ⟨0, 1, 0⟩
  | Face.bottom => ⟨0, -1, 0⟩
  | Face.front => ⟨0, 0, 1⟩
  | Face.back => ⟨0, 0, -1⟩
  | Face.right => ⟨1, 0, 0⟩
  | Face.left => ⟨-1, 0, 0⟩

/-- The first vertex (`pivot`) `Cube::intersect` passes for a face. -/
def Cube.pivot (c : Cube α) : Face → Point α
  | Face.top => c.vertices 3
  | Face.bottom => c.vertices 6
  | Face.front => c.vertices 1
  | Face.back => c.vertices 7
  | Face.right => c.vertices 0
  | Face.left => c.vertices 4

/-- The second vertex (`a`) `Cube::intersect` passes for a face. -/
def Cube.edgeA (c : Cube α) : Face → Point α
  | Face.top => c.vertices 1
  | Face.bottom => c.vertices 5
  | Face.front => c.vertices 3
  | Face.back => c.vertices 2
  | Face.right => c.vertices 1
  | Face.left => c.vertices 3

/-- The third vertex (`b`) `Cube::intersect` passes for a face. -/
def Cube.edgeB (c : Cube α) : Face → Point α
  | Face.top => c.vertices 2
  | Face.bottom => c.vertices 7
  | Face.front => c.vertices 5
  | Face.back => c.vertices 6
  | Face.right => c.vertices 6
  | Face.left => c.vertices 7

/-- Reference, in the words of the specification: the plane parameter
`t = ((pivot - origin)·n)/(direction·n)` of a face, `n` its outward normal. -/
def Cube.planeParam (c : Cube α) (ray : Ray α) (f : Face) : α :=
  Point.dot ((c.pivot f).sub ray.origin) (Face.normal f) / Point.dot ray.direction (Face.normal f)

/-- Reference: the candidate point `p = origin + t*direction` of a face. -/
def Cube.candidate (c : Cube α) (ray : Ray α) (f : Face) : Point α :=
  ray.origin.add (Point.scale (c.planeParam ray f) ray.direction)

/-- Reference: a face candidate is accepted when the ray is not parallel to
the face plane, `t ≥ PRECISION`, and `|p - center| ≤ side/2 + PRECISION` on
each of the three axes. -/
def Cube.Accepted (c : Cube α) (ray : Ray α) (f : Face) : Prop :=
  Point.dot ray.direction (Face.normal f) ≠ 0 ∧
  PRECISION ≤ c.planeParam ray f ∧
  |(c.candidate ray f).x - c.position.x| ≤ c.side / 2 + PRECISION ∧
  |(c.candidate ray f).y - c.position.y| ≤ c.side / 2 + PRECISION ∧
  |(c.candidate ray f).z - c.position.z| ≤ c.side / 2 + PRECISION

instance (c : Cube α) (ray : Ray α) (f : Face) : Decidable (c.Accepted ray f) := by
  unfold Cube.Accepted; exact inferInstance

/-- Reference: the distance `|p - origin|` of a face candidate from the ray
origin. -/
def Cube.distance (sqrt : α → α) (c : Cube α) (ray : Ray α) (f : Face) : α :=
  Line.length sqrt ⟨c.candidate ray f, ray.origin⟩

/-- Reference: one step of the "nearest accepted face hit" search: an accepted
candidate replaces the current value when none is stored yet (length -1) or
when it is strictly nearer. -/
def Cube.faceStep (sqrt : α → α) (c : Cube α) (ray : Ray α) (f : Face)
    (i : Intersection α) : Intersection α :=
  if c.Accepted ray f then
    if i.length = -1 ∨ c.distance sqrt ray f - i.length < 0 then
      { i with where_ := c.candidate ray f, normal := Face.normal f,
               length := c.distance sqrt ray f }
    else i
  else i

/-- Reference: what the search knows after the faces in `done`: either nothing
is stored and no face of `done` is accepted, or the stored value is an
accepted candidate of `done` of least distance. -/
def Cube.Nearest (sqrt : α → α) (c : Cube α) (ray : Ray α) (done : List Face)
    (i : Intersection α) : Prop :=
  (i.length = -1 ∧ ∀ f ∈ done, ¬ c.Accepted ray f) ∨
  (∃ f ∈ done, c.Accepted ray f ∧ i.where_ = c.candidate ray f ∧
    i.normal = Face.normal f ∧ i.length = c.distance sqrt ray f ∧
    ∀ g ∈ done, c.Accepted ray g → c.distance sqrt ray f ≤ c.distance sqrt ray g)

/-- Source: `Sphere::intersect`.  When `delta < -PRECISION` the source evaluates
`sqrt(delta)` on a negative double: both roots, both solutions and both lengths
are NaN, the tests `fabs(roots[0]) < PRECISION` and `lengths[1] < lengths[0]`
are false, `i` stays 0 and the NaN values are stored: that is `Probe.nan`. -/
def Sphere.intersect (sqrt : α → α) (s : Sphere α) (ray : Ray α) : Probe α :=
  let oc := ray.origin.sub s.position
  let b := Point.dot ray.direction oc
  let c := Point.dot oc oc
  let delta := b * b - c + s.radius * s.radius
  let ret : Intersection α := { (Intersection.new : Intersection α) with length := -1 }
  if |delta| > PRECISION then
    if delta < 0 then Probe.nan
    else
      let roots0 := -b + sqrt delta
      let roots1 := -b - sqrt delta
      let solutions0 := ray.origin.add (Point.scale roots0 ray.direction)
      let solutions1 := ray.origin.add (Point.scale roots1 ray.direction)
      let lengths0 := Line.length sqrt ⟨ray.origin, solutions0⟩
      let lengths1 := Line.length sqrt ⟨ray.origin, solutions1⟩
      let pick (i : Fin 2) : Probe α :=
        let solution := if i = 0 then solutions0 else solutions1
        let len := if i = 0 then lengths0 else lengths1
        Probe.real { ret with where_ := solution, length := len,
                              normal := (solution.sub s.position).divide s.radius }
      if |roots0| < PRECISION then
        if |roots1| < PRECISION then Probe.real ret
        else pick 1
      else if lengths1 < lengths0 then pick 1
      else pick 0
  else Probe.real ret

/-- The value `b` of `Sphere::intersect`: `ray.direction * oc` with `oc = ray.origin - position`. -/
def Sphere.b (s : Sphere α) (ray : Ray α) : α :=
  Point.dot ray.direction (ray.origin.sub s.position)

/-- The value `delta` of `Sphere::intersect`: `b*b - c + radius*radius` with `c = oc * oc`. -/
def Sphere.delta (s : Sphere α) (ray : Ray α) : α :=
  s.b ray * s.b ray - Point.dot (ray.origin.sub s.position) (ray.origin.sub s.position)
    + s.radius * s.radius

/-- The Intersection `Sphere::intersect` fills in for the root `t` of the
quadratic when it stores the length `len`: the point `origin + t*direction`,
the normal `(point - position)/radius`, and the index `-1` of `Intersection()`. -/
def Sphere.hitAt (s : Sphere α) (ray : Ray α) (t len : α) : Intersection α :=
  { where_ := ray.origin.add (Point.scale t ray.direction),
    normal := ((ray.origin.add (Point.scale t ray.direction)).sub s.position).divide s.radius,
    length := len,
    index := -1 }

/-- The `Object*` elements of `World::objects`: the two subclasses of the
abstract `struct Object`. -/
inductive Object (α : Type) where
  | cube (c : Cube α)
  | sphere (s : Sphere α)

namespace Object

/-- The field `Object::material`. -/
def material : Object α → Int
  | cube c => c.material
  | sphere s => s.material

/-- The assignment `obj->material = k`. -/
def setMaterial (k : Int) : Object α → Object α
  | cube c => cube { c with material := k }
  | sphere s => sphere { s with material := k }

/-- The virtual `Object::intersect`. -/
def intersect (sqrt : α → α) (o : Object α) (ray : Ray α) : Probe α :=
  match o with
  | cube c => Probe.real (c.intersect sqrt ray)
  | sphere s => s.intersect sqrt ray

end Object

/-- Source: `struct World`. -/
structure World (α : Type) where
  objects : List (Object α)
  materials : List (Material α)
  lights : List (Light α)
  ambientIntensity : α

namespace World

/-- Source: `World(GLdouble light)`: an empty scene. -/
def new (light : α) : World α := ⟨[], [], [], light⟩

/-- Source: `World::add(Light const&)`. -/
def addLight (w : World α) (l : Light α) : World α := { w with lights := w.lights ++ [l] }

/-- The `for` loop of `World::add(Object*, Material)`: the first index `i`
(counted from `i`) with `materials[i] == m`, if any. -/
def scan (m : Material α) : List (Material α) → Nat → Option Nat
  | [], _ => none
  | x :: xs, i => if Material.eq x m then some i else scan m xs (i + 1)

/-- Source: `World::add(Object* const&, Material const&)`. -/
def add (w : World α) (obj : Object α) (m : Material α) : World α :=
  match scan m w.materials 0 with
  | some i => { w with objects := w.objects ++ [obj.setMaterial i] }
  | none =>
    { w with objects := w.objects ++ [obj.setMaterial ((w.materials ++ [m]).length - 1 : Nat)],
             materials := w.materials ++ [m] }

/-- The `for` loop of `World::intersect`, from object number `i` on, with the
loop state `distance`, `ret`.  (`ret.index = i` stores the `GLuint` counter in
a `GLint`; the embedding keeps the index as an integer without wrap-around.) -/
def intersectLoop (sqrt : α → α) (ray : Ray α) :
    List (Object α) → Nat → α → Intersection α → Intersection α
  | [], _, _, ret => ret
  | o :: os, i, distance, ret =>
    match o.intersect sqrt ray with
    | Probe.real tmp =>
      if tmp.length ≥ 0 then
        if tmp.length < distance then
          intersectLoop sqrt ray os (i + 1) tmp.length { tmp with index := (i : Int) }
        else intersectLoop sqrt ray os (i + 1) distance ret
      else intersectLoop sqrt ray os (i + 1) distance ret
    | Probe.nan => intersectLoop sqrt ray os (i + 1) distance ret

/-- Source: `World::intersect`. -/
def intersect (sqrt : α → α) (w : World α) (ray : Ray α) : Intersection α :=
  let ret : Intersection α := { (Intersection.new : Intersection α) with index := -1 }
  intersectLoop sqrt ray w.objects 0 ray.strength ret

end World

/-- The ways the model of `RayTracer::shade` can fail to produce a colour:
the recursion budget of the model is used up, or a vector is indexed out of
range (`world.objects[result.index]`, `world.materials[...]`). -/
inductive ShadeError where
  | outOfFuel
  | badIndex
  deriving DecidableEq

namespace RayTracer

/-- The lookup `world.materials[world.objects[result.index]->material]` of
`shade`; `none` when one of the two indices is out of range. -/
def materialOf (w : World α) (result : Intersection α) : Option (Material α) :=
  if result.index < 0 then none
  else
    match w.objects[result.index.toNat]? with
    | none => none
    | some o => if o.material < 0 then none else w.materials[o.material.toNat]?

/-- The ray `reflected` of `shade`, as built by `l.toRay(ray.strength)`:
`Point origin = ray.origin.unitary();`
`Line l = Line(result.where, result.where + ray.strength *
  ((2*(result.normal*origin)) * result.normal - origin));`. -/
def reflectedRay (sqrt : α → α) (ray : Ray α) (result : Intersection α) : Ray α :=
  let origin := ray.origin.unitary sqrt
  let l : Line α :=
    ⟨result.where_,
     result.where_.add (Point.scale ray.strength
       ((Point.scale (2 * Point.dot result.normal origin) result.normal).sub origin))⟩
  l.toRay sqrt ray.strength

/-- The body of the `for` loop over the lights in `shade`: the colour `tmp`
that one light adds to `ret`. -/
def lightTerm (sqrt : α → α) (pow : α → α → α) (w : World α) (ray : Ray α)
    (result : Intersection α) (material : Material α) (li : Light α) : Color α :=
  let tmp : Color α := black
  let light := li.position.sub result.where_
  let shadow := (Line.mk li.position result.where_).toRay sqrt li.intensity
  let isShadow := w.intersect sqrt shadow
  if Point.eq isShadow.where_ result.where_ then
    let iLight := li.intensity / (light.length sqrt * light.length sqrt)
    let light := light.unitary sqrt
    let NL := Point.dot result.normal light
    let reflectedLight := (Point.scale (2 * NL) result.normal).sub light
    let phi := Point.dot reflectedLight ray.origin /
      (reflectedLight.length sqrt * ray.origin.length sqrt)
    let tmp :=
      if phi > 0 then
        tmp.add (Color.scale (material.specular * pow phi material.shinny * iLight) li.color)
      else tmp
    let tmp :=
      if material.reflection < 1 then
        let str := material.diffuse * (1 - material.reflection) * NL * iLight
        let str := if str < 0 then 0 else str
        tmp.add (Color.mul material.color (Color.scale str li.color))
      else tmp
    tmp
  else tmp

/-- The `for` loop over the lights in `shade`: `ret += tmp` for each light in
order. -/
def addLights (sqrt : α → α) (pow : α → α → α) (w : World α) (ray : Ray α)
    (result : Intersection α) (material : Material α) :
    List (Light α) → Color α → Color α
  | [], ret => ret
  | li :: ls, ret =>
    addLights sqrt pow w ray result material ls
      (ret.add (lightTerm sqrt pow w ray result material li))

/-- The ray handed to the recursive call of `shade`: `reflected` after
`reflected.strength -= reflection.length; reflected.strength *= material.reflection;`. -/
def bounce (sqrt : α → α) (w : World α) (ray : Ray α) (result : Intersection α)
    (material : Material α) : Ray α :=
  let reflected := reflectedRay sqrt ray result
  let reflection := w.intersect sqrt reflected
  { reflected with strength := (reflected.strength - reflection.length) * material.reflection }

/-- Source: `RayTracer::shade`.  The source recurses without a depth counter; the
model takes a recursion budget `fuel` (the number of nested calls allowed) and
fails with `outOfFuel` when it is used up. -/
def shade (sqrt : α → α) (pow : α → α → α) (w : World α) :
    Nat → Ray α → Intersection α → Except ShadeError (Color α)
  | 0, _, _ => Except.error ShadeError.outOfFuel
  | fuel + 1, ray, result =>
    match materialOf w result with
    | none => Except.error ShadeError.badIndex
    | some material =>
      let ret := (material.color.times w.ambientIntensity).times material.ambient
      let blended : Except ShadeError (Color α) :=
        if material.reflection > 0 then
          let reflected := reflectedRay sqrt ray result
          let reflection := w.intersect sqrt reflected
          let ret := ret.times (1 - material.reflection)
          if reflection.index ≥ 0 then
            if ¬ Point.eq reflection.where_ result.where_ then
              match shade sqrt pow w fuel (bounce sqrt w ray result material) reflection with
              | Except.ok c => Except.ok (ret.add (Color.scale material.reflection c))
              | Except.error e => Except.error e
            else Except.ok ret
          else Except.ok ret
        else Except.ok ret
      match blended with
      | Except.ok ret => Except.ok (addLights sqrt pow w ray result material w.lights ret)
      | Except.error e => Except.error e

/-- One call of `RayTracer::shade` with its recursive call handed in as
`recurse`: the body of `shade`, used to reason about the recursion. -/
def shadeStep (sqrt : α → α) (pow : α → α → α) (w : World α)
    (recurse : Ray α → Intersection α → Except ShadeError (Color α))
    (ray : Ray α) (result : Intersection α) : Except ShadeError (Color α) :=
  match materialOf w result with
  | none => Except.error ShadeError.badIndex
  | some material =>
    let ret := (material.color.times w.ambientIntensity).times material.ambient
    let blended : Except ShadeError (Color α) :=
      if material.reflection > 0 then
        let reflected := reflectedRay sqrt ray result
        let reflection := w.intersect sqrt reflected
        let ret := ret.times (1 - material.reflection)
        if reflection.index ≥ 0 then
          if ¬ Point.eq reflection.where_ result.where_ then
            match recurse (bounce sqrt w ray result material) reflection with
            | Except.ok c => Except.ok (ret.add (Color.scale material.reflection c))
            | Except.error e => Except.error e
          else Except.ok ret
        else Except.ok ret
      else Except.ok ret
    match blended with
    | Except.ok ret => Except.ok (addLights sqrt pow w ray result material w.lights ret)
    | Except.error e => Except.error e

end RayTracer

/-! ## The renderer state -/

/-- Source: `Line::toRay()`, the overload without argument: the strength is the
length of the line. -/
def Line.toRayLength (sqrt : α → α) (l : Line α) : Ray α :=
  ⟨l.origin, l.direction sqrt, l.length sqrt⟩

/-- Source: `struct Camera`. -/
structure Camera (α : Type) where
  lookAt : Point α
  lookFrom : Point α
  up : Point α
  near : α
  far : α
  fovY : α

namespace Sampling

/-- Source: `enum format`. -/
inductive format where
  | square
  | circle
  | hexagon
  deriving DecidableEq

/-- Source: `const GLdouble square_x[]`. -/
def square_x : List α := [-(1 / 2), 1 / 2, 1 / 2, -(1 / 2), 0, 1 / 2, 0, -(1 / 2)]

/-- Source: `const GLdouble square_y[]`. -/
def square_y : List α := [1 / 2, 1 / 2, -(1 / 2), -(1 / 2), 1 / 2, 0, -(1 / 2), 0]

/-- Source: `const GLdouble circle_x[]`; 0.3535533906 is written as a fraction. -/
def circle_x : List α :=
  [-(3535533906 / 10000000000), 3535533906 / 10000000000, 3535533906 / 10000000000,
    -(3535533906 / 10000000000), 0, 1 / 2, 0, -(1 / 2)]

/-- Source: `const GLdouble circle_y[]`. -/
def circle_y : List α :=
  [3535533906 / 10000000000, 3535533906 / 10000000000, -(3535533906 / 10000000000),
    -(3535533906 / 10000000000), 1 / 2, 0, -(1 / 2), 0]

/-- Source: `const GLdouble hexagon_x[]`; 0.4330127019 is written as a fraction. -/
def hexagon_x : List α :=
  [-(4330127019 / 10000000000), 4330127019 / 10000000000, 4330127019 / 10000000000,
    -(4330127019 / 10000000000), 0, 0]

/-- Source: `const GLdouble hexagon_y[]`. -/
def hexagon_y : List α := [1 / 4, 1 / 4, -(1 / 4), -(1 / 4), 1 / 2, -(1 / 2)]

/-- The table of x offsets that `prerender` reads for a format. -/
def xs : format → List α
  | format.square => square_x
  | format.circle => circle_x
  | format.hexagon => hexagon_x

/-- The table of y offsets that `prerender` reads for a format. -/
def ys : format → List α
  | format.square => square_y
  | format.circle => circle_y
  | format.hexagon => hexagon_y

end Sampling

/-- Source: `struct RayTracer`.  `width` and `height` are `viewport[2]` and
`viewport[3]`.  The matrices `modelview` and `projection` are only ever passed
to `gluUnProject`, a function of the GLU library that is not part of the
repository: the field `unProject` stands for
`gluUnProject(x, y, z, modelview, projection, viewport, ...)` with the stored
matrices, returning the unprojected point. -/
structure RayTracer (α : Type) where
  width : Nat
  height : Nat
  unProject : α → α → α → Point α
  camera : Camera α
  format : Sampling.format
  sampling : Int
  buffer : List (List (Color α))
  changed : Bool

/-- The loops `for (i = start; i < start + count; i++)` of `prerender`, collecting
the values computed for each index; the first failure ends the loop. -/
def forEach {ε β : Type} (f : Nat → Except ε β) : Nat → Nat → Except ε (List β)
  | 0, _ => Except.ok []
  | count + 1, start =>
    match f start with
    | Except.ok b =>
      match forEach f count (start + 1) with
      | Except.ok bs => Except.ok (b :: bs)
      | Except.error e => Except.error e
    | Except.error e => Except.error e

namespace RayTracer

/-- Source: `RayTracer::getRay`. -/
def getRay (sqrt : α → α) (rt : RayTracer α) (x y : α) : Ray α :=
  let dY := (rt.height : α) - (y + 1)
  let end_ := rt.unProject x dY 1
  let ret := (Line.mk rt.camera.lookFrom end_).toRayLength sqrt
  { ret with strength := rt.camera.far }

/-- The loop `for (k ...; k < sampling; k++)` of `prerender` for the pixel
`(i, j)`: `count` samples to go from sample `k` on, `acc` is `buffer[i][j]`.
Reading a table past its end is a failure (`badIndex`). -/
def sampleLoop (sqrt : α → α) (pow : α → α → α) (fuel : Nat) (rt : RayTracer α)
    (world : World α) (xs ys : List α) (i j : Nat) :
    Nat → Nat → Color α → Except ShadeError (Color α)
  | 0, _, acc => Except.ok acc
  | count + 1, k, acc =>
    match xs[k]?, ys[k]? with
    | some dx, some dy =>
      let ray := getRay sqrt rt ((i : α) + dx) ((j : α) + dy)
      let intersected := world.intersect sqrt ray
      if intersected.index ≥ 0 then
        match shade sqrt pow world fuel ray intersected with
        | Except.ok c => sampleLoop sqrt pow fuel rt world xs ys i j count (k + 1) (acc.add c)
        | Except.error e => Except.error e
      else sampleLoop sqrt pow fuel rt world xs ys i j count (k + 1) acc
    | _, _ => Except.error ShadeError.badIndex

/-- The body of the pixel loops of `prerender`: `buffer[i][j] = black`, the
sample loop, and `buffer[i][j] *= compensation` with
`compensation = 1/sampling`. -/
def pixel (sqrt : α → α) (pow : α → α → α) (fuel : Nat) (rt : RayTracer α)
    (world : World α) (xs ys : List α) (i j : Nat) : Except ShadeError (Color α) :=
  let compensation : α := 1 / (rt.sampling : α)
  match sampleLoop sqrt pow fuel rt world xs ys i j rt.sampling.toNat 0 black with
  | Except.ok c => Except.ok (c.times compensation)
  | Except.error e => Except.error e

/-- One `case` of the `switch` of `prerender`, with its offset tables, followed
by `changed = false`. -/
def prerenderWith (sqrt : α → α) (pow : α → α → α) (fuel : Nat) (rt : RayTracer α)
    (world : World α) (xs ys : List α) : Except ShadeError (RayTracer α) :=
  match forEach (fun i => forEach (fun j => pixel sqrt pow fuel rt world xs ys i j)
      rt.height 0) rt.width 0 with
  | Except.ok rows => Except.ok { rt with buffer := rows, changed := false }
  | Except.error e => Except.error e

/-- Source: `RayTracer::prerender`; `fuel` is the budget of each call of `shade`. -/
def prerender (sqrt : α → α) (pow : α → α → α) (fuel : Nat) (rt : RayTracer α)
    (world : World α) : Except ShadeError (RayTracer α) :=
  match rt.format with
  | Sampling.format.circle =>
    prerenderWith sqrt pow fuel rt world Sampling.circle_x Sampling.circle_y
  | Sampling.format.square =>
    prerenderWith sqrt pow fuel rt world Sampling.square_x Sampling.square_y
  | Sampling.format.hexagon =>
    prerenderWith sqrt pow fuel rt world Sampling.hexagon_x Sampling.hexagon_y

/-- Source: `RayTracer::render`: the state after the call.  The calls of `plot`
and of OpenGL only draw the buffer and leave the state as it is. -/
def render (sqrt : α → α) (pow : α → α → α) (fuel : Nat) (rt : RayTracer α)
    (world : World α) : Except ShadeError (RayTracer α) :=
  if rt.changed then prerender sqrt pow fuel rt world else Except.ok rt

/-- Source: `RayTracer::refreshCamera`: `changed = true`, and the matrices are
read anew from OpenGL (`unProject` is what `gluUnProject` does with them). -/
def refreshCamera (unProject : α → α → α → Point α) (rt : RayTracer α) : RayTracer α :=
  { rt with changed := true, unProject := unProject }

/-- Source: `RayTracer::changeCamera`. -/
def changeCamera (c : Camera α) (unProject : α → α → α → Point α) (rt : RayTracer α) :
    RayTracer α :=
  refreshCamera unProject { rt with camera := c }

/-- Source: `RayTracer::init`: the viewport is read from OpenGL (`width`, `height`),
`refreshCamera()`, and a new buffer of default-constructed colours. -/
def init (width height : Nat) (unProject : α → α → α → Point α) (rt : RayTracer α) :
    RayTracer α :=
  { refreshCamera unProject { rt with width := width, height := height } with
    buffer := List.replicate width (List.replicate height black) }

/-- Source: `RayTracer::refresh`: the buffer is deleted and `init()` runs. -/
def refresh (width height : Nat) (unProject : α → α → α → Point α) (rt : RayTracer α) :
    RayTracer α :=
  init width height unProject rt

/-- Reference, in the words of the specification: the colour `c_k` of sample
`k` of pixel `(i, j)`: `shade(ray_k, hit_k)` if the ray through
`(i + dx_k, j + dy_k)` has a scene intersection, black otherwise. -/
def sampleColor (sqrt : α → α) (pow : α → α → α) (fuel : Nat) (rt : RayTracer α)
    (world : World α) (xs ys : List α) (i j k : Nat) : Color α :=
  let ray := getRay sqrt rt ((i : α) + xs.getD k 0) ((j : α) + ys.getD k 0)
  let hit := world.intersect sqrt ray
  if hit.index ≥ 0 then
    match shade sqrt pow world fuel ray hit with
    | Except.ok c => c
    | Except.error _ => black
  else black

/-- Reference: the arithmetic mean `(1/n) × Σ_{k<n} c_k` of the sample colours
of pixel `(i, j)`, channel by channel. -/
def sampleMean (sqrt : α → α) (pow : α → α → α) (fuel : Nat) (rt : RayTracer α)
    (world : World α) (xs ys : List α) (n i j : Nat) : Color α :=
  ⟨1 / (n : α) * Finset.sum (Finset.range n)
      (fun k => (sampleColor sqrt pow fuel rt world xs ys i j k).red),
   1 / (n : α) * Finset.sum (Finset.range n)
      (fun k => (sampleColor sqrt pow fuel rt world xs ys i j k).green),
   1 / (n : α) * Finset.sum (Finset.range n)
      (fun k => (sampleColor sqrt pow fuel rt world xs ys i j k).blue)⟩

end RayTracer

/-! ## Building a scene -/

/-- One construction call on a scene: `World::add(Light const&)` or
`World::add(Object* const&, Material const&)`.  The object is carried by value,
so every call adds a primitive of its own (the source stores the pointer it is
given; a pointer added twice would be one primitive listed twice). -/
inductive Op (α : Type) where
  | light (l : Light α)
  | object (obj : Object α) (m : Material α)

/-- The effect of one construction call. -/
def World.apply (w : World α) : Op α → World α
  | Op.light l => w.addLight l
  | Op.object obj m => w.add obj m

/-- The scene reached from the empty scene `World(light)` by a sequence of
construction calls. -/
def World.build (light : α) (ops : List (Op α)) : World α :=
  ops.foldl World.apply (World.new light)

/-- Well-formedness of a scene: every primitive carries a valid index of the
material list, and no two stored materials compare equal under
`Material::operator==`. -/
def World.WellFormed (w : World α) : Prop :=
  (∀ o ∈ w.objects, 0 ≤ o.material ∧ o.material < (w.materials.length : Int)) ∧
  w.materials.Pairwise (fun x y => ¬ Material.eq x y)

/-! ## A concrete scene

Two cubes of side 2, a reflective one at the world origin and a matt one above
it at (0,0,6), and one light below and beside them at (12,0,-4).  The scene is
used to evaluate `shade` on explicit inputs. -/

namespace Scene

/-- The reflective cube, material index 0. -/
def mirror : Cube α := ⟨⟨0, 0, 0⟩, ⟨0, 1, 0⟩, 0, 2⟩

/-- The matt cube, material index 1. -/
def block : Cube α := ⟨⟨0, 0, 6⟩, ⟨0, 1, 0⟩, 1, 2⟩

/-- The material of `mirror`: reflection 1/2, no specular term. -/
def mirrorMaterial : Material α := ⟨1 / 2, 0, 1, 1, 1, ⟨1, 1, 1⟩⟩

/-- The material of `block`: no reflection, no specular term. -/
def blockMaterial : Material α := ⟨0, 0, 1, 1, 1, ⟨1, 1, 1⟩⟩

/-- The light. -/
def lamp : Light α := ⟨⟨12, 0, -4⟩, ⟨1, 1, 1⟩, 100⟩

/-- The scene without its light. -/
def dark : World α :=
  ⟨[Object.cube mirror, Object.cube block], [mirrorMaterial, blockMaterial], [], 1⟩

/-- The scene. -/
def lit : World α :=
  ⟨[Object.cube mirror, Object.cube block], [mirrorMaterial, blockMaterial], [lamp], 1⟩

/-- The scene with the light, both cubes matt. -/
def matt : World α :=
  ⟨[Object.cube mirror, Object.cube block], [blockMaterial, blockMaterial], [lamp], 1⟩

/-- A cube of side 2 whose front face passes through the world origin. -/
def slab : Cube α := ⟨⟨0, 0, -1⟩, ⟨0, 1, 0⟩, 0, 2⟩

/-- A light of intensity 5 at distance 10 above the world origin. -/
def farLamp : Light α := ⟨⟨0, 0, 10⟩, ⟨1, 1, 1⟩, 5⟩

/-- The scene of `slab` and `farLamp`. -/
def faint : World α := ⟨[Object.cube slab], [blockMaterial], [farLamp], 1⟩

/-- A renderer state on a viewport of one pixel, with 2 samples of the square
pattern, and the identity in place of `gluUnProject`. -/
def tracer : RayTracer α :=
  { width := 1, height := 1, unProject := fun x y z => ⟨x, y, z⟩,
    camera := ⟨⟨0, 0, 0⟩, ⟨0, 0, 3⟩, ⟨0, 1, 0⟩, 1, 10, 2⟩,
    format := Sampling.format.square, sampling := 2,
    buffer := [[⟨0, 0, 0⟩]], changed := true }

/-- A non-reflective material of colour (1, 1/2, 0) and ambient coefficient 1/2. -/
def tint : Material α := ⟨0, 0, 1, 1, 1 / 2, ⟨1, 1 / 2, 0⟩⟩

/-- The two cubes without a light, the second one with the material `tint`. -/
def tinted : World α :=
  ⟨[Object.cube mirror, Object.cube block], [mirrorMaterial, tint], [], 1⟩

/-- A cube of side 2 centred at (-1,0,0), material index 0. -/
def aside : Cube α := ⟨⟨-1, 0, 0⟩, ⟨0, 1, 0⟩, 0, 2⟩

/-- The scene of the cube `aside` with the material `tint`, without lights. -/
def half : World α := ⟨[Object.cube aside], [tint], [], 1⟩

/-- A renderer state on a viewport of one pixel, with 2 samples of the square
pattern, looking from (0,0,5/4), and the identity in place of `gluUnProject`. -/
def eye : RayTracer α :=
  { width := 1, height := 1, unProject := fun x y z => ⟨x, y, z⟩,
    camera := ⟨⟨0, 0, 0⟩, ⟨0, 0, 5 / 4⟩, ⟨0, 1, 0⟩, 1, 10, 2⟩,
    format := Sampling.format.square, sampling := 2,
    buffer := [[⟨0, 0, 0⟩]], changed := true }

end Scene

/-! ## World.intersect is the nearest-hit search -/

namespace World

/-- Object `o`, probed with `ray`, reports a real length `L` with
`0 ≤ L < d`. -/
def Qualifies (sqrt : α → α) (ray : Ray α) (d : α) (o : Object α) (tmp : Intersection α) : Prop :=
  o.intersect sqrt ray = Probe.real tmp ∧ 0 ≤ tmp.length ∧ tmp.length < d

theorem intersectLoop_spec (sqrt : α → α) (ray : Ray α) (os : List (Object α)) :
    ∀ (i : Nat) (d : α) (ret : Intersection α),
      (intersectLoop sqrt ray os i d ret = ret ∧
        ∀ (j : Nat) o tmp, os[j]? = some o → ¬ Qualifies sqrt ray d o tmp) ∨
      (∃ (j : Nat) (o : Object α) (tmp : Intersection α), os[j]? = some o ∧ Qualifies sqrt ray d o tmp ∧
        intersectLoop sqrt ray os i d ret = { tmp with index := ((i + j : Nat) : Int) } ∧
        ∀ (k : Nat) o2 tmp2, os[k]? = some o2 → Qualifies sqrt ray d o2 tmp2 →
          tmp.length ≤ tmp2.length ∧ (tmp2.length = tmp.length → j ≤ k)) := by
  induction os with
  | nil => intro i d ret; left; simp [intersectLoop]
  | cons o os ih =>
    intro i d ret
    -- the loop state after object `o`
    have skip : ∀ (hno : ∀ tmp, ¬ Qualifies sqrt ray d o tmp),
        intersectLoop sqrt ray (o :: os) i d ret = intersectLoop sqrt ray os (i + 1) d ret := by
      intro hno
      cases h : o.intersect sqrt ray with
      | nan => simp [intersectLoop, h]
      | real tmp =>
        by_cases h1 : tmp.length ≥ 0
        · by_cases h2 : tmp.length < d
          · exact absurd ⟨h, h1, h2⟩ (hno tmp)
          · simp [intersectLoop, h, h1, h2]
        · simp [intersectLoop, h, h1]
    by_cases hq : ∃ tmp, Qualifies sqrt ray d o tmp
    · obtain ⟨tmp, hint, h0, hd⟩ := hq
      have step : intersectLoop sqrt ray (o :: os) i d ret =
          intersectLoop sqrt ray os (i + 1) tmp.length { tmp with index := (i : Int) } := by
        rw [intersectLoop, hint]
        have h0' : tmp.length ≥ 0 := h0
        simp [h0', hd]
      rcases ih (i + 1) tmp.length { tmp with index := (i : Int) } with ⟨hr, hnone⟩ | ⟨j, o1, t1, hj, hq1, hr, hmin⟩
      · right
        refine ⟨0, o, tmp, by simp, ⟨hint, h0, hd⟩, ?_, ?_⟩
        · rw [step, hr]; simp
        · intro k o2 tmp2 hk hq2
          cases k with
          | zero =>
            simp at hk; subst hk
            have : tmp2 = tmp := by
              have := hq2.1; rw [hint] at this; injection this with this; exact this.symm
            subst this; simp
          | succ k =>
            simp at hk
            have hn := hnone k o2 tmp2 hk
            have hge : tmp.length ≤ tmp2.length := by
              by_contra hlt
              exact hn ⟨hq2.1, hq2.2.1, not_le.mp hlt⟩
            exact ⟨hge, fun _ => Nat.zero_le _⟩
      · right
        refine ⟨j + 1, o1, t1, by simpa using hj, ⟨hq1.1, hq1.2.1, lt_trans hq1.2.2 hd⟩, ?_, ?_⟩
        · rw [step, hr]
          have : i + 1 + j = i + (j + 1) := by omega
          rw [this]
        · intro k o2 tmp2 hk hq2
          cases k with
          | zero =>
            simp at hk; subst hk
            have : tmp2 = tmp := by
              have := hq2.1; rw [hint] at this; injection this with this; exact this.symm
            subst this
            refine ⟨le_of_lt hq1.2.2, fun he => ?_⟩
            exact absurd he (ne_of_gt hq1.2.2)
          | succ k =>
            simp at hk
            by_cases hlt : tmp2.length < tmp.length
            · have := hmin k o2 tmp2 hk ⟨hq2.1, hq2.2.1, hlt⟩
              exact ⟨this.1, fun he => Nat.succ_le_succ (this.2 he)⟩
            · have hge : tmp.length ≤ tmp2.length := not_lt.mp hlt
              refine ⟨le_trans (le_of_lt hq1.2.2) hge, fun he => ?_⟩
              exact absurd (he ▸ hq1.2.2) hlt
    · have hno : ∀ tmp, ¬ Qualifies sqrt ray d o tmp := fun tmp h => hq ⟨tmp, h⟩
      rw [skip hno]
      rcases ih (i + 1) d ret with ⟨hr, hnone⟩ | ⟨j, o1, t1, hj, hq1, hr, hmin⟩
      · left
        refine ⟨hr, ?_⟩
        intro k o2 tmp2 hk
        cases k with
        | zero => simp at hk; subst hk; exact hno tmp2
        | succ k => simp at hk; exact hnone k o2 tmp2 hk
      · right
        refine ⟨j + 1, o1, t1, by simpa using hj, hq1, ?_, ?_⟩
        · rw [hr]
          have : i + 1 + j = i + (j + 1) := by omega
          rw [this]
        · intro k o2 tmp2 hk hq2
          cases k with
          | zero => simp at hk; subst hk; exact absurd hq2 (hno tmp2)
          | succ k =>
            simp at hk
            have := hmin k o2 tmp2 hk hq2
            exact ⟨this.1, fun he => Nat.succ_le_succ (this.2 he)⟩

/-- C1: `World.intersect` is the nearest-hit search.  If no primitive reports
a real length `L` with `0 ≤ L < ray.strength`, the result has index `-1`.
Otherwise the result has an index `i` below the number of objects, its where,
normal and length are those of `objects[i].intersect(ray)`, its length is in
`[0, ray.strength)`, every qualifying length of any primitive is at least it,
and a primitive tied with it does not come before `i`. -/
theorem intersect_is_nearest_hit (sqrt : α → α) (w : World α) (ray : Ray α) :
    ((∀ (j : Nat) (o : Object α) (tmp : Intersection α), w.objects[j]? = some o →
        o.intersect sqrt ray = Probe.real tmp → ¬ (0 ≤ tmp.length ∧ tmp.length < ray.strength)) →
      (w.intersect sqrt ray).index = -1) ∧
    ((∃ (j : Nat) (o : Object α) (tmp : Intersection α), w.objects[j]? = some o ∧
        o.intersect sqrt ray = Probe.real tmp ∧ 0 ≤ tmp.length ∧ tmp.length < ray.strength) →
      ∃ (i : Nat) (o : Object α) (tmp : Intersection α),
        (w.intersect sqrt ray).index = (i : Int) ∧ i < w.objects.length ∧
        w.objects[i]? = some o ∧ o.intersect sqrt ray = Probe.real tmp ∧
        (w.intersect sqrt ray).where_ = tmp.where_ ∧
        (w.intersect sqrt ray).normal = tmp.normal ∧
        (w.intersect sqrt ray).length = tmp.length ∧
        0 ≤ (w.intersect sqrt ray).length ∧ (w.intersect sqrt ray).length < ray.strength ∧
        ∀ (k : Nat) (o2 : Object α) (tmp2 : Intersection α), w.objects[k]? = some o2 →
          o2.intersect sqrt ray = Probe.real tmp2 → 0 ≤ tmp2.length →
          tmp2.length < ray.strength →
          (w.intersect sqrt ray).length ≤ tmp2.length ∧
          (tmp2.length = (w.intersect sqrt ray).length → i ≤ k)) := by
  have key := intersectLoop_spec sqrt ray w.objects 0 ray.strength
    { (Intersection.new : Intersection α) with index := -1 }
  constructor
  · intro hnone
    rcases key with ⟨hr, _⟩ | ⟨j, o, tmp, hj, hq, _, _⟩
    · unfold intersect; rw [hr]
    · exact absurd ⟨hq.2.1, hq.2.2⟩ (hnone j o tmp hj hq.1)
  · rintro ⟨j, o, tmp, hj, hint, h0, hd⟩
    rcases key with ⟨_, hnone⟩ | ⟨i, o1, t1, hi, hq, hr, hmin⟩
    · exact absurd ⟨hint, h0, hd⟩ (hnone j o tmp hj)
    · have hres : w.intersect sqrt ray = { t1 with index := ((0 + i : Nat) : Int) } := hr
      have hlen : i < w.objects.length := by
        by_contra hge
        rw [List.getElem?_eq_none (not_lt.mp hge)] at hi
        exact absurd hi (by simp)
      refine ⟨i, o1, t1, ?_, hlen, hi, hq.1, ?_, ?_, ?_, ?_, ?_, ?_⟩
      · rw [hres]; simp
      · rw [hres]
      · rw [hres]
      · rw [hres]
      · rw [hres]; exact hq.2.1
      · rw [hres]; exact hq.2.2
      · intro k o2 tmp2 hk hint2 h02 hd2
        rw [hres]
        exact hmin k o2 tmp2 hk ⟨hint2, h02, hd2⟩

/-! ## World.add and the material list -/

omit [LinearOrderedField α] in
theorem Material_eq_refl (m : Material α) : Material.eq m m := by
  simp [Material.eq]

theorem scan_bounds (m : Material α) (xs : List (Material α)) :
    ∀ (i k : Nat), scan m xs i = some k → i ≤ k ∧ k < i + xs.length := by
  induction xs with
  | nil => intro i k h; simp [scan] at h
  | cons x xs ih =>
    intro i k h
    by_cases hx : Material.eq x m
    · simp [scan, hx] at h; subst h; simp
    · simp [scan, hx] at h
      have := ih (i + 1) k h
      simp only [List.length_cons]
      omega

theorem scan_append_self (m : Material α) (xs : List (Material α)) :
    ∀ (i : Nat), scan m xs i = none → scan m (xs ++ [m]) i = some (i + xs.length) := by
  induction xs with
  | nil => intro i _; simp [scan, Material_eq_refl]
  | cons x xs ih =>
    intro i h
    by_cases hx : Material.eq x m
    · simp [scan, hx] at h
    · simp [scan, hx] at h
      have := ih (i + 1) h
      rw [List.cons_append, scan, if_neg hx, this, List.length_cons]
      exact congrArg some (by omega)

/-- C7, evaluated on the code: `Material::operator==` does not look at
`ambient`.  In a scene that stores a material with ambient 1/10, adding a
sphere with a material that differs only in its ambient (8/10) stores nothing
new and gives the sphere index 0, whose material has the other ambient. -/
theorem add_ignores_ambient :
    Material.eq (⟨0, 1/2, 50, 1/2, 1/10, ⟨1, 1, 1⟩⟩ : Material ℝ) ⟨0, 1/2, 50, 1/2, 8/10, ⟨1, 1, 1⟩⟩ ∧
    (((World.new 1 : World ℝ).add (Object.sphere (Sphere.new ⟨0, 0, 0⟩ ⟨0, 1, 0⟩ 1))
        ⟨0, 1/2, 50, 1/2, 1/10, ⟨1, 1, 1⟩⟩).add
        (Object.sphere (Sphere.new ⟨5, 0, 0⟩ ⟨0, 1, 0⟩ 1))
        ⟨0, 1/2, 50, 1/2, 8/10, ⟨1, 1, 1⟩⟩) =
      ⟨[Object.sphere ⟨⟨0, 0, 0⟩, ⟨0, 1, 0⟩, 0, 1⟩, Object.sphere ⟨⟨5, 0, 0⟩, ⟨0, 1, 0⟩, 0, 1⟩],
       [⟨0, 1/2, 50, 1/2, 1/10, ⟨1, 1, 1⟩⟩], [], 1⟩ ∧
    (⟨0, 1/2, 50, 1/2, 1/10, ⟨1, 1, 1⟩⟩ : Material ℝ).ambient ≠
      (⟨0, 1/2, 50, 1/2, 8/10, ⟨1, 1, 1⟩⟩ : Material ℝ).ambient := by
  refine ⟨?_, ?_, ?_⟩
  · simp [Material.eq]
  · simp [add, World.new, scan, Material.eq, Object.setMaterial, Sphere.new]
  · norm_num

end World

/-! ## Sphere.intersect -/

theorem Line_length_along (o d : Point ℝ) (t : ℝ) :
    Line.length Real.sqrt ⟨o, o.add (Point.scale t d)⟩ = |t| * Point.length Real.sqrt d := by
  unfold Line.length Line.toPoint Point.length
  have h : Point.dot (o.sub (o.add (Point.scale t d))) (o.sub (o.add (Point.scale t d)))
      = t ^ 2 * Point.dot d d := by
    simp only [Point.dot, Point.sub, Point.add, Point.scale]; ring
  rw [h, Real.sqrt_mul (sq_nonneg t), Real.sqrt_sq_eq_abs]

theorem Line_length_along_rev (o d : Point ℝ) (t : ℝ) :
    Line.length Real.sqrt ⟨o.add (Point.scale t d), o⟩ = |t| * Point.length Real.sqrt d := by
  unfold Line.length Line.toPoint Point.length
  have h : Point.dot ((o.add (Point.scale t d)).sub o) ((o.add (Point.scale t d)).sub o)
      = t ^ 2 * Point.dot d d := by
    simp only [Point.dot, Point.sub, Point.add, Point.scale]; ring
  rw [h, Real.sqrt_mul (sq_nonneg t), Real.sqrt_sq_eq_abs]

/-- The result of `Sphere::intersect` on a ray with unit direction and a discriminant above
PRECISION, in terms of the two roots `-b ± sqrt(delta)`: the stored length of
a root `t` is `|t|`. -/
theorem Sphere.intersect_of_delta_pos (s : Sphere ℝ) (ray : Ray ℝ)
    (hdir : Point.dot ray.direction ray.direction = 1) (hdelta : PRECISION < s.delta ray) :
    s.intersect Real.sqrt ray =
      if |-(s.b ray) + Real.sqrt (s.delta ray)| < PRECISION then
        if |-(s.b ray) - Real.sqrt (s.delta ray)| < PRECISION then
          Probe.real { (Intersection.new : Intersection ℝ) with length := -1 }
        else Probe.real (s.hitAt ray (-(s.b ray) - Real.sqrt (s.delta ray))
          |-(s.b ray) - Real.sqrt (s.delta ray)|)
      else if |-(s.b ray) - Real.sqrt (s.delta ray)| < |-(s.b ray) + Real.sqrt (s.delta ray)| then
        Probe.real (s.hitAt ray (-(s.b ray) - Real.sqrt (s.delta ray))
          |-(s.b ray) - Real.sqrt (s.delta ray)|)
      else Probe.real (s.hitAt ray (-(s.b ray) + Real.sqrt (s.delta ray))
          |-(s.b ray) + Real.sqrt (s.delta ray)|) := by
  have hP : (0 : ℝ) < PRECISION := by unfold PRECISION; norm_num
  have hpos : 0 < s.delta ray := lt_trans hP hdelta
  have habs : |s.delta ray| > PRECISION := by rw [abs_of_pos hpos]; exact hdelta
  have hlen : Point.length Real.sqrt ray.direction = 1 := by
    unfold Point.length; rw [hdir, Real.sqrt_one]
  unfold Sphere.intersect
  simp only [Line_length_along, hlen, mul_one]
  have habs' : |Point.dot ray.direction (ray.origin.sub s.position) *
      Point.dot ray.direction (ray.origin.sub s.position) -
      Point.dot (ray.origin.sub s.position) (ray.origin.sub s.position) +
      s.radius * s.radius| > PRECISION := habs
  have hnn : ¬ (Point.dot ray.direction (ray.origin.sub s.position) *
      Point.dot ray.direction (ray.origin.sub s.position) -
      Point.dot (ray.origin.sub s.position) (ray.origin.sub s.position) +
      s.radius * s.radius < 0) := not_lt.mpr (le_of_lt hpos)
  rw [if_pos habs', if_neg hnn]
  simp [Sphere.hitAt, Sphere.b, Sphere.delta, Intersection.new]

theorem PRECISION_pos : (0 : ℝ) < PRECISION := by unfold PRECISION; norm_num

theorem Point.dot_self_nonneg (p : Point ℝ) : 0 ≤ Point.dot p p := by
  unfold Point.dot
  nlinarith [mul_self_nonneg p.x, mul_self_nonneg p.y, mul_self_nonneg p.z]

/-- C2 (amended): a sphere of radius `r > 0` with `r² > PRECISION`, centred at
the origin, probed by a ray that starts outside it at distance `D > r` from
the centre and points along the unit vector from its origin to the centre,
reports the hit of length `D - r` at `origin + (D - r) * direction`, with the
normal `-direction`. -/
theorem Sphere.intersect_aimed_at_center (s : Sphere ℝ) (ray : Ray ℝ)
    (hc : s.position = ⟨0, 0, 0⟩) (hr : 0 < s.radius)
    (hbig : PRECISION < s.radius * s.radius)
    (hD : s.radius < Line.length Real.sqrt ⟨ray.origin, s.position⟩)
    (hdir : ray.direction = Line.direction Real.sqrt ⟨ray.origin, s.position⟩) :
    ∃ i : Intersection ℝ, s.intersect Real.sqrt ray = Probe.real i ∧
      i.length = Line.length Real.sqrt ⟨ray.origin, s.position⟩ - s.radius ∧
      i.where_ = ray.origin.add
        (Point.scale (Line.length Real.sqrt ⟨ray.origin, s.position⟩ - s.radius) ray.direction) ∧
      i.normal = Point.scale (-1) ray.direction := by
  obtain ⟨o, d, S⟩ := ray
  obtain ⟨pos, up, mat, r⟩ := s
  simp only at hc hr hbig hD hdir ⊢
  subst hc
  have hLD : Line.length Real.sqrt ⟨o, (⟨0, 0, 0⟩ : Point ℝ)⟩ = Real.sqrt (Point.dot o o) := by
    simp [Line.length, Line.toPoint, Point.length, Point.sub]
  rw [hLD] at hD ⊢
  set D := Real.sqrt (Point.dot o o) with hDdef
  have hDpos : 0 < D := lt_trans hr hD
  have hnn : 0 ≤ Point.dot o o := Point.dot_self_nonneg o
  have hD2 : D * D = Point.dot o o := Real.mul_self_sqrt hnn
  have hd : d = ⟨-o.x / D, -o.y / D, -o.z / D⟩ := by
    rw [hdir]
    have : Point.dot (⟨-o.x, -o.y, -o.z⟩ : Point ℝ) ⟨-o.x, -o.y, -o.z⟩ = Point.dot o o := by
      simp [Point.dot]
    simp only [Line.direction, Point.unitary, Point.length, Point.divide, Point.sub, zero_sub,
      this, ← hDdef]
  have hne : D ≠ 0 := ne_of_gt hDpos
  have hdd : Point.dot d d = 1 := by
    rw [hd]; simp only [Point.dot] at hD2 ⊢
    field_simp
    linarith
  have hb : Sphere.b ⟨(⟨0, 0, 0⟩ : Point ℝ), up, mat, r⟩ ⟨o, d, S⟩ = -D := by
    rw [hd]; simp only [Sphere.b, Point.dot, Point.sub, sub_zero] at hD2 ⊢
    have : -o.x / D * o.x + -o.y / D * o.y + -o.z / D * o.z = -(D * D) / D := by
      rw [hD2]; ring
    rw [this]; field_simp
  have hdelta : Sphere.delta ⟨(⟨0, 0, 0⟩ : Point ℝ), up, mat, r⟩ ⟨o, d, S⟩ = r * r := by
    unfold Sphere.delta
    rw [hb]
    have : Point.dot (o.sub (⟨0, 0, 0⟩ : Point ℝ)) (o.sub (⟨0, 0, 0⟩ : Point ℝ)) = Point.dot o o := by
      simp [Point.dot, Point.sub]
    simp only [this]
    rw [← hD2]; ring
  have hs : Real.sqrt (r * r) = r := Real.sqrt_mul_self hr.le
  have hrP : PRECISION < r := by
    by_contra h
    have h1 : r ≤ PRECISION := not_lt.mp h
    have h2 : (PRECISION : ℝ) < 1 := by unfold PRECISION; norm_num
    nlinarith
  rw [Sphere.intersect_of_delta_pos _ _ hdd (by rw [hdelta]; exact hbig), hb, hdelta, hs]
  have e0 : |-(-D) + r| = D + r := by rw [neg_neg]; exact abs_of_pos (by linarith)
  have e1 : |-(-D) - r| = D - r := by rw [neg_neg]; exact abs_of_pos (by linarith)
  rw [e0, e1, if_neg (by linarith), if_pos (by linarith)]
  refine ⟨_, rfl, ?_, ?_, ?_⟩
  · simp [Sphere.hitAt]
  · simp [Sphere.hitAt]
  · rw [hd]
    simp only [Sphere.hitAt, Point.scale, Point.add, Point.sub, Point.divide, neg_neg]
    have hr0 : r ≠ 0 := ne_of_gt hr
    ext <;> simp only <;> field_simp <;> ring

theorem Line_length_unit_x : Line.length Real.sqrt ⟨(⟨1, 0, 0⟩ : Point ℝ), ⟨0, 0, 0⟩⟩ = 1 := by
  simp [Line.length, Line.toPoint, Point.length, Point.sub, Point.dot]

theorem Line_direction_unit_x :
    Line.direction Real.sqrt ⟨(⟨1, 0, 0⟩ : Point ℝ), ⟨0, 0, 0⟩⟩ = ⟨-1, 0, 0⟩ := by
  simp [Line.direction, Point.unitary, Point.divide, Point.length, Point.sub, Point.dot]

/-- C2 at a concrete input: the sphere of radius 1/2 at the origin, probed
from (1,0,0) along (-1,0,0). -/
theorem Sphere.intersect_aimed_at_center_witness :
    ∃ i : Intersection ℝ,
      (⟨⟨0, 0, 0⟩, ⟨0, 1, 0⟩, 0, 1/2⟩ : Sphere ℝ).intersect Real.sqrt ⟨⟨1, 0, 0⟩, ⟨-1, 0, 0⟩, 10⟩
        = Probe.real i ∧
      i.length = Line.length Real.sqrt ⟨(⟨1, 0, 0⟩ : Point ℝ), ⟨0, 0, 0⟩⟩ - 1/2 ∧
      i.where_ = (⟨1, 0, 0⟩ : Point ℝ).add
        (Point.scale (Line.length Real.sqrt ⟨(⟨1, 0, 0⟩ : Point ℝ), ⟨0, 0, 0⟩⟩ - 1/2) ⟨-1, 0, 0⟩) ∧
      i.normal = Point.scale (-1) ⟨-1, 0, 0⟩ :=
  Sphere.intersect_aimed_at_center ⟨⟨0, 0, 0⟩, ⟨0, 1, 0⟩, 0, 1/2⟩ ⟨⟨1, 0, 0⟩, ⟨-1, 0, 0⟩, 10⟩ rfl
    (by norm_num) (by unfold PRECISION; norm_num)
    (by rw [Line_length_unit_x]; norm_num) Line_direction_unit_x.symm

/-- C2 as stated fails for a small sphere: radius 1/10000 at the origin,
probed from (1,0,0) (distance 1 from the centre) along the unit vector
(-1,0,0) toward the centre.  Here `delta = r² = 1e-8 ≤ PRECISION`, and
`Sphere::intersect` returns the no-hit Intersection (length -1), not a hit of
length `1 - 1/10000`. -/
theorem Sphere.intersect_small_radius_miss :
    (0 : ℝ) < 1/10000 ∧
    (1/10000 : ℝ) < Line.length Real.sqrt ⟨(⟨1, 0, 0⟩ : Point ℝ), ⟨0, 0, 0⟩⟩ ∧
    (⟨-1, 0, 0⟩ : Point ℝ) = Line.direction Real.sqrt ⟨(⟨1, 0, 0⟩ : Point ℝ), ⟨0, 0, 0⟩⟩ ∧
    (⟨⟨0, 0, 0⟩, ⟨0, 1, 0⟩, 0, 1/10000⟩ : Sphere ℝ).intersect Real.sqrt ⟨⟨1, 0, 0⟩, ⟨-1, 0, 0⟩, 10⟩
      = Probe.real ⟨⟨0, 0, 0⟩, ⟨0, 0, 0⟩, -1, -1⟩ ∧
    ¬ ∃ i : Intersection ℝ,
      (⟨⟨0, 0, 0⟩, ⟨0, 1, 0⟩, 0, 1/10000⟩ : Sphere ℝ).intersect Real.sqrt
        ⟨⟨1, 0, 0⟩, ⟨-1, 0, 0⟩, 10⟩ = Probe.real i ∧
      i.length = Line.length Real.sqrt ⟨(⟨1, 0, 0⟩ : Point ℝ), ⟨0, 0, 0⟩⟩ - 1/10000 := by
  have hmiss : (⟨⟨0, 0, 0⟩, ⟨0, 1, 0⟩, 0, 1/10000⟩ : Sphere ℝ).intersect Real.sqrt
      ⟨⟨1, 0, 0⟩, ⟨-1, 0, 0⟩, 10⟩ = Probe.real ⟨⟨0, 0, 0⟩, ⟨0, 0, 0⟩, -1, -1⟩ := by
    have hd : ¬ (|(-1 : ℝ) * (1 - 0) * (-1 * (1 - 0)) - (1 - 0) * (1 - 0) + 1/10000 * (1/10000)|
        > PRECISION) := by
      unfold PRECISION
      rw [abs_of_pos (by norm_num)]; norm_num
    simp only [Sphere.intersect, Point.dot, Point.sub, Intersection.new, Point.zero,
      mul_zero, add_zero, sub_zero, zero_mul]
    simp only [sub_zero, mul_zero, add_zero] at hd
    rw [if_neg hd]
  refine ⟨by norm_num, by rw [Line_length_unit_x]; norm_num, Line_direction_unit_x.symm, hmiss, ?_⟩
  rintro ⟨i, hi, hlen⟩
  rw [hmiss] at hi
  injection hi with hi
  rw [← hi, Line_length_unit_x] at hlen
  norm_num at hlen

/-- C3, evaluated on the code: the unit sphere centred at (0,0,-5) lies
entirely behind the ray that starts at (0,0,0) and travels along (0,0,1).
Both roots are negative (-4 and -6); `Sphere::intersect` compares the lengths
`|root|` only and reports the hit at (0,0,-4) with length 4, a point that is
`origin + t * direction` for no `t > 0`. -/
theorem Sphere.intersect_reports_sphere_behind :
    (⟨⟨0, 0, -5⟩, ⟨0, 1, 0⟩, 0, 1⟩ : Sphere ℝ).intersect Real.sqrt ⟨⟨0, 0, 0⟩, ⟨0, 0, 1⟩, 100⟩
      = Probe.real ⟨⟨0, 0, -4⟩, ⟨0, 0, 1⟩, 4, -1⟩ ∧
    ¬ ∃ t : ℝ, 0 < t ∧
      (⟨0, 0, -4⟩ : Point ℝ) = (⟨0, 0, 0⟩ : Point ℝ).add (Point.scale t ⟨0, 0, 1⟩) := by
  constructor
  · have hb : Sphere.b (⟨⟨0, 0, -5⟩, ⟨0, 1, 0⟩, 0, 1⟩ : Sphere ℝ) ⟨⟨0, 0, 0⟩, ⟨0, 0, 1⟩, 100⟩ = 5 := by
      simp [Sphere.b, Point.dot, Point.sub]
    have hdelta : Sphere.delta (⟨⟨0, 0, -5⟩, ⟨0, 1, 0⟩, 0, 1⟩ : Sphere ℝ)
        ⟨⟨0, 0, 0⟩, ⟨0, 0, 1⟩, 100⟩ = 1 := by
      simp [Sphere.delta, Sphere.b, Point.dot, Point.sub]
    rw [Sphere.intersect_of_delta_pos _ _ (by simp [Point.dot])
      (by rw [hdelta]; unfold PRECISION; norm_num), hb, hdelta, Real.sqrt_one]
    have e0 : |(-5 : ℝ) + 1| = 4 := by rw [abs_of_neg (by norm_num)]; norm_num
    have e1 : |(-5 : ℝ) - 1| = 6 := by rw [abs_of_neg (by norm_num)]; norm_num
    rw [e0, e1, if_neg (by unfold PRECISION; norm_num), if_neg (by norm_num)]
    simp only [Sphere.hitAt, Point.add, Point.scale, Point.sub, Point.divide]
    norm_num
  · rintro ⟨t, ht, h⟩
    have hz := congrArg Point.z h
    simp only [Point.add, Point.scale] at hz
    linarith

/-! ## Cube.intersect -/

theorem Cube.intersect_eq_foldl (sqrt : α → α) (c : Cube α) (ray : Ray α) :
    c.intersect sqrt ray =
      Face.all.foldl
        (fun i f => c.intersectPlane sqrt (c.pivot f) (c.edgeA f) (c.edgeB f) ray i)
        { (Intersection.new : Intersection α) with length := -1 } := rfl

theorem Point.unitary_scale (s : ℝ) (hs : 0 < s) (e : Point ℝ) (he : Point.dot e e = 1) :
    Point.unitary Real.sqrt (Point.scale s e) = e := by
  have h : Point.dot (Point.scale s e) (Point.scale s e) = s * s := by
    have : Point.dot (Point.scale s e) (Point.scale s e) = s * s * Point.dot e e := by
      simp only [Point.dot, Point.scale]; ring
    rw [this, he, mul_one]
  have hne : s ≠ 0 := ne_of_gt hs
  unfold Point.unitary Point.length
  rw [h, Real.sqrt_mul_self hs.le]
  simp only [Point.divide, Point.scale]
  ext <;> simp only <;> field_simp

/-- The cross product `Cube::intersectPlane` computes from the three vertices
of a face is the outward unit normal of that face. -/
theorem Cube.computed_normal (c : Cube ℝ) (hside : 0 < c.side) (f : Face) :
    Point.cross (Line.direction Real.sqrt ⟨c.pivot f, c.edgeA f⟩)
      (Line.direction Real.sqrt ⟨c.pivot f, c.edgeB f⟩) = Face.normal f := by
  have hx : ∀ u v : Point ℝ, ∀ e : Point ℝ, Point.dot e e = 1 → v.sub u = Point.scale c.side e →
      Line.direction Real.sqrt ⟨u, v⟩ = e := by
    intro u v e he huv
    unfold Line.direction
    simp only [huv]
    exact Point.unitary_scale c.side hside e he
  cases f
  all_goals
    simp only [Cube.pivot, Cube.edgeA, Cube.edgeB, Face.normal]
  · rw [hx _ _ ⟨1, 0, 0⟩ (by simp [Point.dot])
        (by simp only [Cube.vertices, Point.sub, Point.add, Point.scale]; ext <;> simp only <;> ring),
      hx _ _ ⟨0, 0, -1⟩ (by simp [Point.dot])
        (by simp only [Cube.vertices, Point.sub, Point.add, Point.scale]; ext <;> simp only <;> ring)]
    simp [Point.cross]
  · rw [hx _ _ ⟨0, 0, 1⟩ (by simp [Point.dot])
        (by simp only [Cube.vertices, Point.sub, Point.add, Point.scale]; ext <;> simp only <;> ring),
      hx _ _ ⟨-1, 0, 0⟩ (by simp [Point.dot])
        (by simp only [Cube.vertices, Point.sub, Point.add, Point.scale]; ext <;> simp only <;> ring)]
    simp [Point.cross]
  · rw [hx _ _ ⟨-1, 0, 0⟩ (by simp [Point.dot])
        (by simp only [Cube.vertices, Point.sub, Point.add, Point.scale]; ext <;> simp only <;> ring),
      hx _ _ ⟨0, -1, 0⟩ (by simp [Point.dot])
        (by simp only [Cube.vertices, Point.sub, Point.add, Point.scale]; ext <;> simp only <;> ring)]
    simp [Point.cross]
  · rw [hx _ _ ⟨0, 1, 0⟩ (by simp [Point.dot])
        (by simp only [Cube.vertices, Point.sub, Point.add, Point.scale]; ext <;> simp only <;> ring),
      hx _ _ ⟨1, 0, 0⟩ (by simp [Point.dot])
        (by simp only [Cube.vertices, Point.sub, Point.add, Point.scale]; ext <;> simp only <;> ring)]
    simp [Point.cross]
  · rw [hx _ _ ⟨0, 0, 1⟩ (by simp [Point.dot])
        (by simp only [Cube.vertices, Point.sub, Point.add, Point.scale]; ext <;> simp only <;> ring),
      hx _ _ ⟨0, -1, 0⟩ (by simp [Point.dot])
        (by simp only [Cube.vertices, Point.sub, Point.add, Point.scale]; ext <;> simp only <;> ring)]
    simp [Point.cross]
  · rw [hx _ _ ⟨0, 1, 0⟩ (by simp [Point.dot])
        (by simp only [Cube.vertices, Point.sub, Point.add, Point.scale]; ext <;> simp only <;> ring),
      hx _ _ ⟨0, 0, -1⟩ (by simp [Point.dot])
        (by simp only [Cube.vertices, Point.sub, Point.add, Point.scale]; ext <;> simp only <;> ring)]
    simp [Point.cross]

theorem Point.sub_x (a b : Point ℝ) : (a.sub b).x = a.x - b.x := rfl

theorem Point.sub_y (a b : Point ℝ) : (a.sub b).y = a.y - b.y := rfl

theorem Point.sub_z (a b : Point ℝ) : (a.sub b).z = a.z - b.z := rfl

/-- On a cube with positive side, a call of `Cube::intersectPlane` with the
vertices of face `f` is one step of the reference search. -/
theorem Cube.intersectPlane_eq_faceStep (c : Cube ℝ) (hside : 0 < c.side) (ray : Ray ℝ)
    (f : Face) (i : Intersection ℝ) :
    c.intersectPlane Real.sqrt (c.pivot f) (c.edgeA f) (c.edgeB f) ray i
      = c.faceStep Real.sqrt ray f i := by
  unfold Cube.intersectPlane Cube.faceStep
  simp only [Cube.computed_normal c hside f]
  by_cases h1 : Point.dot ray.direction (Face.normal f) = 0
  · have hna : ¬ c.Accepted ray f := fun h => h.1 h1
    simp [h1, hna]
  · by_cases h2 : c.planeParam ray f < PRECISION
    · have hna : ¬ c.Accepted ray f := fun h => absurd h.2.1 (not_le.mpr h2)
      have h2' : Point.dot ((c.pivot f).sub ray.origin) (Face.normal f) /
          Point.dot ray.direction (Face.normal f) < PRECISION := h2
      simp [h1, h2', hna]
    · have h2' : ¬ (Point.dot ((c.pivot f).sub ray.origin) (Face.normal f) /
          Point.dot ray.direction (Face.normal f) < PRECISION) := h2
      by_cases h3 : |(c.candidate ray f).x - c.position.x| - c.side / 2 > PRECISION ∨
          |(c.candidate ray f).y - c.position.y| - c.side / 2 > PRECISION ∨
          |(c.candidate ray f).z - c.position.z| - c.side / 2 > PRECISION
      · have hna : ¬ c.Accepted ray f := by
          rintro ⟨_, _, hx, hy, hz⟩
          rcases h3 with h | h | h <;> linarith
        have h3' := h3
        simp only [Cube.candidate, Cube.planeParam] at h3'
        simp only [ne_eq, h1, not_false_eq_true, if_true, h2', if_false, Point.sub_x, Point.sub_y,
          Point.sub_z, h3', hna]
      · have ha : c.Accepted ray f := by
          refine ⟨h1, not_lt.mp h2, ?_, ?_, ?_⟩
          · by_contra h; exact h3 (Or.inl (by linarith [not_le.mp h]))
          · by_contra h; exact h3 (Or.inr (Or.inl (by linarith [not_le.mp h])))
          · by_contra h; exact h3 (Or.inr (Or.inr (by linarith [not_le.mp h])))
        have h3' := h3
        simp only [Cube.candidate, Cube.planeParam] at h3'
        simp only [ne_eq, h1, not_false_eq_true, if_true, h2', if_false, Point.sub_x, Point.sub_y,
          Point.sub_z, h3', ha, Cube.distance, Cube.candidate, Cube.planeParam]

theorem Cube.distance_nonneg (c : Cube ℝ) (ray : Ray ℝ) (f : Face) :
    0 ≤ c.distance Real.sqrt ray f := by
  unfold Cube.distance Line.length Point.length
  exact Real.sqrt_nonneg _

theorem Cube.faceStep_nearest (c : Cube ℝ) (ray : Ray ℝ) (done : List Face) (f : Face)
    (i : Intersection ℝ) (h : c.Nearest Real.sqrt ray done i) :
    c.Nearest Real.sqrt ray (done ++ [f]) (c.faceStep Real.sqrt ray f i) := by
  unfold Cube.faceStep
  by_cases ha : c.Accepted ray f
  · rw [if_pos ha]
    rcases h with ⟨hlen, hnone⟩ | ⟨f0, hf0, ha0, hw, hn, hl, hmin⟩
    · rw [if_pos (Or.inl hlen)]
      right
      refine ⟨f, by simp, ha, rfl, rfl, rfl, ?_⟩
      intro g hg hga
      rcases List.mem_append.mp hg with hg | hg
      · exact absurd hga (hnone g hg)
      · simp at hg; subst hg; exact le_refl _
    · have hne : i.length ≠ -1 := by
        rw [hl]; have := c.distance_nonneg ray f0; linarith
      by_cases hlt : c.distance Real.sqrt ray f - i.length < 0
      · rw [if_pos (Or.inr hlt)]
        right
        refine ⟨f, by simp, ha, rfl, rfl, rfl, ?_⟩
        intro g hg hga
        rcases List.mem_append.mp hg with hg | hg
        · have := hmin g hg hga
          rw [hl] at hlt; linarith
        · simp at hg; subst hg; exact le_refl _
      · rw [if_neg (by rintro (h | h); exact hne h; exact hlt h)]
        right
        refine ⟨f0, by simp [hf0], ha0, hw, hn, hl, ?_⟩
        intro g hg hga
        rcases List.mem_append.mp hg with hg | hg
        · exact hmin g hg hga
        · simp at hg; subst hg; rw [hl] at hlt; linarith
  · rw [if_neg ha]
    rcases h with ⟨hlen, hnone⟩ | ⟨f0, hf0, ha0, hw, hn, hl, hmin⟩
    · left
      refine ⟨hlen, ?_⟩
      intro g hg
      rcases List.mem_append.mp hg with hg | hg
      · exact hnone g hg
      · simp at hg; subst hg; exact ha
    · right
      refine ⟨f0, by simp [hf0], ha0, hw, hn, hl, ?_⟩
      intro g hg hga
      rcases List.mem_append.mp hg with hg | hg
      · exact hmin g hg hga
      · simp at hg; subst hg; exact absurd hga ha

theorem Cube.foldl_nearest (c : Cube ℝ) (ray : Ray ℝ) (fs : List Face) :
    ∀ (done : List Face) (i : Intersection ℝ), c.Nearest Real.sqrt ray done i →
      c.Nearest Real.sqrt ray (done ++ fs)
        (fs.foldl (fun i f => c.faceStep Real.sqrt ray f i) i) := by
  induction fs with
  | nil => intro done i h; simpa using h
  | cons f fs ih =>
    intro done i h
    have := ih (done ++ [f]) _ (c.faceStep_nearest ray done f i h)
    simpa using this

/-- On a cube with positive side, the result of `Cube::intersect` is the
nearest accepted face hit over all six faces. -/
theorem Cube.intersect_nearest_all (c : Cube ℝ) (hside : 0 < c.side) (ray : Ray ℝ) :
    c.Nearest Real.sqrt ray Face.all (c.intersect Real.sqrt ray) := by
  rw [Cube.intersect_eq_foldl]
  simp only [Cube.intersectPlane_eq_faceStep c hside ray]
  have h0 : c.Nearest Real.sqrt ray []
      { (Intersection.new : Intersection ℝ) with length := -1 } := by
    left; simp
  simpa using c.foldl_nearest ray Face.all [] _ h0

theorem Face.mem_all (f : Face) : f ∈ Face.all := by
  cases f <;> simp [Face.all]

/-- C5: on a cube with positive side, `Cube.intersect` is the nearest accepted
face hit.  The result has length -1 iff none of the six faces yields an
accepted candidate; otherwise its where is an accepted candidate whose distance
from the ray origin is least among the accepted candidates, and its length is
that distance. -/
theorem Cube.intersect_nearest_accepted (c : Cube ℝ) (hside : 0 < c.side) (ray : Ray ℝ) :
    ((c.intersect Real.sqrt ray).length = -1 ↔ ∀ f : Face, ¬ c.Accepted ray f) ∧
    ((∃ f : Face, c.Accepted ray f) →
      ∃ f : Face, c.Accepted ray f ∧
        (c.intersect Real.sqrt ray).where_ = c.candidate ray f ∧
        (c.intersect Real.sqrt ray).length = Line.length Real.sqrt ⟨c.candidate ray f, ray.origin⟩ ∧
        ∀ g : Face, c.Accepted ray g →
          Line.length Real.sqrt ⟨c.candidate ray f, ray.origin⟩
            ≤ Line.length Real.sqrt ⟨c.candidate ray g, ray.origin⟩) := by
  have key := c.intersect_nearest_all hside ray
  constructor
  · constructor
    · intro hlen f
      rcases key with ⟨_, hnone⟩ | ⟨f0, _, _, _, _, hl, _⟩
      · exact hnone f f.mem_all
      · have := c.distance_nonneg ray f0
        rw [hl] at hlen; linarith
    · intro hnone
      rcases key with ⟨hlen, _⟩ | ⟨f0, _, ha0, _⟩
      · exact hlen
      · exact absurd ha0 (hnone f0)
  · rintro ⟨f, ha⟩
    rcases key with ⟨_, hnone⟩ | ⟨f0, _, ha0, hw, _, hl, hmin⟩
    · exact absurd ha (hnone f f.mem_all)
    · exact ⟨f0, ha0, hw, hl, fun g hg => hmin g g.mem_all hg⟩

/-- C4 (amended): a ray that starts outside a cube of positive side at distance
`h ≥ PRECISION` from a face, on the outward normal through a point `p` of that
face, and travels along the unit inward normal, is reported to hit at `p` with
length `h` and with the outward normal of that face. -/
theorem Cube.intersect_perpendicular (c : Cube ℝ) (f : Face) (p : Point ℝ) (h S : ℝ)
    (hside : 0 < c.side)
    (hp : Point.dot (p.sub c.position) (Face.normal f) = c.side / 2)
    (hx : |p.x - c.position.x| ≤ c.side / 2) (hy : |p.y - c.position.y| ≤ c.side / 2)
    (hz : |p.z - c.position.z| ≤ c.side / 2) (hh : PRECISION ≤ h) :
    (c.intersect Real.sqrt
      ⟨p.add (Point.scale h (Face.normal f)), Point.scale (-1) (Face.normal f), S⟩).where_ = p ∧
    (c.intersect Real.sqrt
      ⟨p.add (Point.scale h (Face.normal f)), Point.scale (-1) (Face.normal f), S⟩).length = h ∧
    (c.intersect Real.sqrt
      ⟨p.add (Point.scale h (Face.normal f)), Point.scale (-1) (Face.normal f), S⟩).normal
      = Face.normal f := by
  have hP := PRECISION_pos
  have hh0 : 0 < h := lt_of_lt_of_le hP hh
  have key := c.intersect_nearest_all hside
    ⟨p.add (Point.scale h (Face.normal f)), Point.scale (-1) (Face.normal f), S⟩
  have hlen : Point.length Real.sqrt (Point.scale (-1) (Face.normal f : Point ℝ)) = 1 := by
    unfold Point.length
    have : Point.dot (Point.scale (-1) (Face.normal f : Point ℝ))
        (Point.scale (-1) (Face.normal f)) = 1 := by
      cases f <;> simp [Face.normal, Point.dot, Point.scale]
    rw [this, Real.sqrt_one]
  have hdist : ∀ g, c.distance Real.sqrt
      ⟨p.add (Point.scale h (Face.normal f)), Point.scale (-1) (Face.normal f), S⟩ g
      = |c.planeParam ⟨p.add (Point.scale h (Face.normal f)),
          Point.scale (-1) (Face.normal f), S⟩ g| := by
    intro g
    unfold Cube.distance Cube.candidate
    rw [Line_length_along_rev, hlen, mul_one]
  have ht : c.planeParam
      ⟨p.add (Point.scale h (Face.normal f)), Point.scale (-1) (Face.normal f), S⟩ f = h := by
    cases f <;>
      simp [Cube.planeParam, Cube.pivot, Cube.vertices, Face.normal, Point.dot, Point.sub,
        Point.add, Point.scale] at hp ⊢ <;>
      rw [div_neg, div_one] <;> linarith
  have hcand : c.candidate
      ⟨p.add (Point.scale h (Face.normal f)), Point.scale (-1) (Face.normal f), S⟩ f = p := by
    unfold Cube.candidate
    rw [ht]
    simp only [Point.add, Point.scale]
    ext <;> simp only <;> ring
  have hacc : c.Accepted
      ⟨p.add (Point.scale h (Face.normal f)), Point.scale (-1) (Face.normal f), S⟩ f := by
    refine ⟨?_, ?_, ?_, ?_, ?_⟩
    · cases f <;> simp [Face.normal, Point.dot, Point.scale]
    · rw [ht]; exact hh
    · rw [hcand]; linarith
    · rw [hcand]; linarith
    · rw [hcand]; linarith
  have hother : ∀ g, c.Accepted
      ⟨p.add (Point.scale h (Face.normal f)), Point.scale (-1) (Face.normal f), S⟩ g →
      g = f ∨ h < c.distance Real.sqrt
        ⟨p.add (Point.scale h (Face.normal f)), Point.scale (-1) (Face.normal f), S⟩ g := by
    intro g hg
    have hg1 := hg.1
    rw [hdist]
    cases f <;> cases g <;> simp [Face.normal, Point.dot, Point.scale] at hg1 <;>
      first
        | (left; rfl)
        | (right
           simp [Cube.planeParam, Cube.pivot, Cube.vertices, Face.normal, Point.dot, Point.sub,
             Point.add, Point.scale] at hp ⊢
           rw [lt_abs]
           left; linarith)
  rcases key with ⟨_, hnone⟩ | ⟨f0, _, ha0, hw, hn, hl, hmin⟩
  · exact absurd hacc (hnone f f.mem_all)
  · have h1 := hmin f f.mem_all hacc
    have h2 : c.distance Real.sqrt
        ⟨p.add (Point.scale h (Face.normal f)), Point.scale (-1) (Face.normal f), S⟩ f = h := by
      rw [hdist, ht, abs_of_pos hh0]
    have hf0 : f0 = f := by
      rcases hother f0 ha0 with h3 | h3
      · exact h3
      · rw [h2] at h1; linarith
    subst hf0
    exact ⟨by rw [hw, hcand], by rw [hl, h2], hn⟩

/-- C4 at a concrete input: the cube of side 2 at the origin, its top face,
the face point (0,1,0), and a ray starting one unit above it. -/
theorem Cube.intersect_perpendicular_witness :
    ((⟨⟨0, 0, 0⟩, ⟨0, 1, 0⟩, 0, 2⟩ : Cube ℝ).intersect Real.sqrt
      ⟨(⟨0, 1, 0⟩ : Point ℝ).add (Point.scale 1 (Face.normal Face.top)),
       Point.scale (-1) (Face.normal Face.top), 100⟩).where_ = ⟨0, 1, 0⟩ ∧
    ((⟨⟨0, 0, 0⟩, ⟨0, 1, 0⟩, 0, 2⟩ : Cube ℝ).intersect Real.sqrt
      ⟨(⟨0, 1, 0⟩ : Point ℝ).add (Point.scale 1 (Face.normal Face.top)),
       Point.scale (-1) (Face.normal Face.top), 100⟩).length = 1 ∧
    ((⟨⟨0, 0, 0⟩, ⟨0, 1, 0⟩, 0, 2⟩ : Cube ℝ).intersect Real.sqrt
      ⟨(⟨0, 1, 0⟩ : Point ℝ).add (Point.scale 1 (Face.normal Face.top)),
       Point.scale (-1) (Face.normal Face.top), 100⟩).normal = Face.normal Face.top :=
  Cube.intersect_perpendicular ⟨⟨0, 0, 0⟩, ⟨0, 1, 0⟩, 0, 2⟩ Face.top ⟨0, 1, 0⟩ 1 100
    (by norm_num) (by simp [Point.dot, Point.sub, Face.normal])
    (by norm_num) (by norm_num) (by norm_num) (by unfold PRECISION; norm_num)

/-- C4 as stated fails below PRECISION: the cube of side 2 at the origin and
the ray that starts at height `h = 1/20000000` above the point (0,1,0) of its
top face and travels along (0,-1,0).  The top face is rejected
(`numerator < PRECISION`) and `Cube::intersect` reports the bottom face: the
point (0,-1,0) at length `2 + h`. -/
theorem Cube.intersect_skips_near_face :
    (0 : ℝ) < 2 ∧ (0 : ℝ) < 1/20000000 ∧
    ((⟨⟨0, 0, 0⟩, ⟨0, 1, 0⟩, 0, 2⟩ : Cube ℝ).intersect Real.sqrt
      ⟨⟨0, 1 + 1/20000000, 0⟩, ⟨0, -1, 0⟩, 100⟩).where_ = ⟨0, -1, 0⟩ ∧
    ((⟨⟨0, 0, 0⟩, ⟨0, 1, 0⟩, 0, 2⟩ : Cube ℝ).intersect Real.sqrt
      ⟨⟨0, 1 + 1/20000000, 0⟩, ⟨0, -1, 0⟩, 100⟩).length = 2 + 1/20000000 ∧
    ((⟨⟨0, 0, 0⟩, ⟨0, 1, 0⟩, 0, 2⟩ : Cube ℝ).intersect Real.sqrt
      ⟨⟨0, 1 + 1/20000000, 0⟩, ⟨0, -1, 0⟩, 100⟩).where_ ≠ ⟨0, 1, 0⟩ := by
  have key := Cube.intersect_nearest_all (⟨⟨0, 0, 0⟩, ⟨0, 1, 0⟩, 0, 2⟩ : Cube ℝ) (by norm_num)
    ⟨⟨0, 1 + 1/20000000, 0⟩, ⟨0, -1, 0⟩, 100⟩
  have ht : Cube.planeParam (⟨⟨0, 0, 0⟩, ⟨0, 1, 0⟩, 0, 2⟩ : Cube ℝ)
      ⟨⟨0, 1 + 1/20000000, 0⟩, ⟨0, -1, 0⟩, 100⟩ Face.bottom = 2 + 1/20000000 := by
    norm_num [Cube.planeParam, Cube.pivot, Cube.vertices, Face.normal, Point.dot, Point.sub,
      Point.add]
  have hcand : Cube.candidate (⟨⟨0, 0, 0⟩, ⟨0, 1, 0⟩, 0, 2⟩ : Cube ℝ)
      ⟨⟨0, 1 + 1/20000000, 0⟩, ⟨0, -1, 0⟩, 100⟩ Face.bottom = ⟨0, -1, 0⟩ := by
    unfold Cube.candidate
    rw [ht]
    simp only [Point.add, Point.scale]
    ext <;> norm_num
  have hdist : Cube.distance Real.sqrt (⟨⟨0, 0, 0⟩, ⟨0, 1, 0⟩, 0, 2⟩ : Cube ℝ)
      ⟨⟨0, 1 + 1/20000000, 0⟩, ⟨0, -1, 0⟩, 100⟩ Face.bottom = 2 + 1/20000000 := by
    unfold Cube.distance Cube.candidate
    rw [Line_length_along_rev, ht]
    have : Point.length Real.sqrt (⟨0, -1, 0⟩ : Point ℝ) = 1 := by
      simp [Point.length, Point.dot]
    rw [this, abs_of_pos (by norm_num)]; norm_num
  have honly : ∀ g, Cube.Accepted (⟨⟨0, 0, 0⟩, ⟨0, 1, 0⟩, 0, 2⟩ : Cube ℝ)
      ⟨⟨0, 1 + 1/20000000, 0⟩, ⟨0, -1, 0⟩, 100⟩ g → g = Face.bottom := by
    intro g hg
    obtain ⟨h1, h2, -⟩ := hg
    cases g <;> first
      | rfl
      | (exfalso
         norm_num [Cube.planeParam, Cube.pivot, Cube.vertices, Face.normal, Point.dot, Point.sub,
           Point.add, PRECISION] at h1 h2)
  have hres : ((⟨⟨0, 0, 0⟩, ⟨0, 1, 0⟩, 0, 2⟩ : Cube ℝ).intersect Real.sqrt
        ⟨⟨0, 1 + 1/20000000, 0⟩, ⟨0, -1, 0⟩, 100⟩).where_ = ⟨0, -1, 0⟩ ∧
      ((⟨⟨0, 0, 0⟩, ⟨0, 1, 0⟩, 0, 2⟩ : Cube ℝ).intersect Real.sqrt
        ⟨⟨0, 1 + 1/20000000, 0⟩, ⟨0, -1, 0⟩, 100⟩).length = 2 + 1/20000000 := by
    rcases key with ⟨hlen, hnone⟩ | ⟨f0, _, ha0, hw, _, hl, _⟩
    · exfalso
      refine hnone Face.bottom (Face.mem_all _) ⟨?_, ?_, ?_, ?_, ?_⟩
      · norm_num [Face.normal, Point.dot]
      · rw [ht]; unfold PRECISION; norm_num
      · rw [hcand]; unfold PRECISION; norm_num
      · rw [hcand]; unfold PRECISION; norm_num
      · rw [hcand]; unfold PRECISION; norm_num
    · have := honly f0 ha0
      subst this
      exact ⟨by rw [hw, hcand], by rw [hl, hdist]⟩
  refine ⟨by norm_num, by norm_num, hres.1, hres.2, ?_⟩
  rw [hres.1]
  intro h
  have := congrArg Point.y h
  norm_num at this

/-- C5 at a concrete input: the cube of side 2 at the origin, probed from
(0,0,5) along (0,0,-1). -/
theorem Cube.intersect_nearest_accepted_witness :
    (0 : ℝ) < 2 ∧
    ((((⟨⟨0, 0, 0⟩, ⟨0, 1, 0⟩, 0, 2⟩ : Cube ℝ).intersect Real.sqrt
        ⟨⟨0, 0, 5⟩, ⟨0, 0, -1⟩, 100⟩).length = -1 ↔
      ∀ f : Face, ¬ (⟨⟨0, 0, 0⟩, ⟨0, 1, 0⟩, 0, 2⟩ : Cube ℝ).Accepted
        ⟨⟨0, 0, 5⟩, ⟨0, 0, -1⟩, 100⟩ f) ∧
    ((∃ f : Face, (⟨⟨0, 0, 0⟩, ⟨0, 1, 0⟩, 0, 2⟩ : Cube ℝ).Accepted
        ⟨⟨0, 0, 5⟩, ⟨0, 0, -1⟩, 100⟩ f) →
      ∃ f : Face, (⟨⟨0, 0, 0⟩, ⟨0, 1, 0⟩, 0, 2⟩ : Cube ℝ).Accepted
          ⟨⟨0, 0, 5⟩, ⟨0, 0, -1⟩, 100⟩ f ∧
        ((⟨⟨0, 0, 0⟩, ⟨0, 1, 0⟩, 0, 2⟩ : Cube ℝ).intersect Real.sqrt
          ⟨⟨0, 0, 5⟩, ⟨0, 0, -1⟩, 100⟩).where_ =
          (⟨⟨0, 0, 0⟩, ⟨0, 1, 0⟩, 0, 2⟩ : Cube ℝ).candidate ⟨⟨0, 0, 5⟩, ⟨0, 0, -1⟩, 100⟩ f ∧
        ((⟨⟨0, 0, 0⟩, ⟨0, 1, 0⟩, 0, 2⟩ : Cube ℝ).intersect Real.sqrt
          ⟨⟨0, 0, 5⟩, ⟨0, 0, -1⟩, 100⟩).length =
          Line.length Real.sqrt
            ⟨(⟨⟨0, 0, 0⟩, ⟨0, 1, 0⟩, 0, 2⟩ : Cube ℝ).candidate ⟨⟨0, 0, 5⟩, ⟨0, 0, -1⟩, 100⟩ f,
             ⟨0, 0, 5⟩⟩ ∧
        ∀ g : Face, (⟨⟨0, 0, 0⟩, ⟨0, 1, 0⟩, 0, 2⟩ : Cube ℝ).Accepted
            ⟨⟨0, 0, 5⟩, ⟨0, 0, -1⟩, 100⟩ g →
          Line.length Real.sqrt
            ⟨(⟨⟨0, 0, 0⟩, ⟨0, 1, 0⟩, 0, 2⟩ : Cube ℝ).candidate ⟨⟨0, 0, 5⟩, ⟨0, 0, -1⟩, 100⟩ f,
             ⟨0, 0, 5⟩⟩
            ≤ Line.length Real.sqrt
            ⟨(⟨⟨0, 0, 0⟩, ⟨0, 1, 0⟩, 0, 2⟩ : Cube ℝ).candidate ⟨⟨0, 0, 5⟩, ⟨0, 0, -1⟩, 100⟩ g,
             ⟨0, 0, 5⟩⟩)) :=
  ⟨by norm_num,
   Cube.intersect_nearest_accepted ⟨⟨0, 0, 0⟩, ⟨0, 1, 0⟩, 0, 2⟩ (by norm_num)
     ⟨⟨0, 0, 5⟩, ⟨0, 0, -1⟩, 100⟩⟩

/-! ## RayTracer.shade -/

namespace RayTracer

theorem Color_add_black (c : Color α) : c.add black = c := by
  simp [Color.add, black]

theorem addLights_skip_black (sqrt : α → α) (pow : α → α → α) (w : World α) (ray : Ray α)
    (result : Intersection α) (M : Material α) (li : Light α)
    (hblack : lightTerm sqrt pow w ray result M li = black) (l2 : List (Light α)) :
    ∀ (l1 : List (Light α)) (ret : Color α),
      addLights sqrt pow w ray result M (l1 ++ li :: l2) ret =
        addLights sqrt pow w ray result M (l1 ++ l2) ret := by
  intro l1
  induction l1 with
  | nil => intro ret; simp [addLights, hblack, Color_add_black]
  | cons x xs ih => intro ret; simp only [List.cons_append, addLights]; exact ih _

theorem addLights_other_lights (sqrt : α → α) (pow : α → α → α) (w : World α) (ray : Ray α)
    (result : Intersection α) (M : Material α) (ls' : List (Light α)) :
    ∀ (ls : List (Light α)) (ret : Color α),
      addLights sqrt pow { w with lights := ls' } ray result M ls ret =
        addLights sqrt pow w ray result M ls ret := by
  intro ls
  induction ls with
  | nil => intro ret; rfl
  | cons x xs ih =>
    intro ret
    simp only [addLights]
    rw [ih]
    rfl

/-- C10 (amended): when the nearest intersection of the shadow ray of a light
is a hit on a primitive at a point not equal to the shaded point `P`, the term
of that light in the sum over the lights is black, and `shade` returns the same
as in the scene with that light removed, provided that no recursive call for a
reflection is made or that the recursive call returns the same in both scenes. -/
theorem shade_shadowed_light (sqrt : α → α) (pow : α → α → α) (w : World α)
    (l1 l2 : List (Light α)) (li : Light α) (hl : w.lights = l1 ++ li :: l2)
    (ray : Ray α) (result : Intersection α) (M : Material α)
    (hM : materialOf w result = some M)
    (_hidx : 0 ≤ (w.intersect sqrt
      ((Line.mk li.position result.where_).toRay sqrt li.intensity)).index)
    (hne : ¬ Point.eq (w.intersect sqrt
      ((Line.mk li.position result.where_).toRay sqrt li.intensity)).where_ result.where_)
    (fuel : Nat)
    (hrec : ¬ (M.reflection > 0 ∧ (w.intersect sqrt (reflectedRay sqrt ray result)).index ≥ 0 ∧
        ¬ Point.eq (w.intersect sqrt (reflectedRay sqrt ray result)).where_ result.where_) ∨
      shade sqrt pow w fuel (bounce sqrt w ray result M)
          (w.intersect sqrt (reflectedRay sqrt ray result)) =
        shade sqrt pow { w with lights := l1 ++ l2 } fuel (bounce sqrt w ray result M)
          (w.intersect sqrt (reflectedRay sqrt ray result))) :
    lightTerm sqrt pow w ray result M li = black ∧
    shade sqrt pow w (fuel + 1) ray result =
      shade sqrt pow { w with lights := l1 ++ l2 } (fuel + 1) ray result := by
  have hblack : lightTerm sqrt pow w ray result M li = black := by
    unfold lightTerm
    simp only [hne, if_false]
  refine ⟨hblack, ?_⟩
  have hM2 : materialOf { w with lights := l1 ++ l2 } result = some M := hM
  have hsum : ∀ ret : Color α,
      addLights sqrt pow { w with lights := l1 ++ l2 } ray result M (l1 ++ l2) ret =
        addLights sqrt pow w ray result M w.lights ret := by
    intro ret
    rw [hl, addLights_skip_black sqrt pow w ray result M li hblack l2 l1 ret,
      addLights_other_lights]
  rw [shade, shade, hM, hM2]
  simp only [hsum]
  have hi2 : World.intersect sqrt { w with lights := l1 ++ l2 } (reflectedRay sqrt ray result)
      = World.intersect sqrt w (reflectedRay sqrt ray result) := rfl
  have hb2 : bounce sqrt { w with lights := l1 ++ l2 } ray result M = bounce sqrt w ray result M :=
    rfl
  rw [hi2, hb2]
  by_cases hc : M.reflection > 0
  · by_cases hi : (w.intersect sqrt (reflectedRay sqrt ray result)).index ≥ 0
    · by_cases he : Point.eq (w.intersect sqrt (reflectedRay sqrt ray result)).where_ result.where_
      · simp [hc, hi, he]
      · rcases hrec with h | h
        · exact absurd ⟨hc, hi, he⟩ h
        · simp only [hc, hi, he, if_true, not_false_eq_true]
          rw [h]
    · simp [hc, hi]
  · simp [hc]

end RayTracer

/-! ## Evaluating intersections and `shade` in the concrete scene -/

theorem Cube.intersect_miss (c : Cube ℝ) (hside : 0 < c.side) (ray : Ray ℝ)
    (hnone : ∀ g, ¬ c.Accepted ray g) : (c.intersect Real.sqrt ray).length = -1 := by
  rcases c.intersect_nearest_all hside ray with ⟨hlen, _⟩ | ⟨f0, _, ha0, _⟩
  · exact hlen
  · exact absurd ha0 (hnone f0)

theorem Cube.intersect_hit (c : Cube ℝ) (hside : 0 < c.side) (ray : Ray ℝ)
    (hunit : Point.dot ray.direction ray.direction = 1) (f : Face) (hf : c.Accepted ray f)
    (hmin : ∀ g, c.Accepted ray g → g = f ∨ c.planeParam ray f < c.planeParam ray g) :
    (c.intersect Real.sqrt ray).where_ = c.candidate ray f ∧
    (c.intersect Real.sqrt ray).normal = Face.normal f ∧
    (c.intersect Real.sqrt ray).length = c.planeParam ray f := by
  have hdist : ∀ g, c.Accepted ray g → c.distance Real.sqrt ray g = c.planeParam ray g := by
    intro g hg
    unfold Cube.distance Cube.candidate
    rw [Line_length_along_rev]
    unfold Point.length
    rw [hunit, Real.sqrt_one, mul_one, abs_of_pos (lt_of_lt_of_le PRECISION_pos hg.2.1)]
  rcases c.intersect_nearest_all hside ray with ⟨_, hnone⟩ | ⟨f0, _, ha0, hw, hn, hl, hle⟩
  · exact absurd hf (hnone f f.mem_all)
  · have h1 := hle f f.mem_all hf
    rw [hdist f0 ha0, hdist f hf] at h1
    have hf0 : f0 = f := by
      rcases hmin f0 ha0 with h | h
      · exact h
      · linarith
    subst hf0
    exact ⟨hw, hn, by rw [hl, hdist f0 ha0]⟩

theorem Scene.shadowP_mirror :
    ((Scene.mirror : Cube ℝ).intersect Real.sqrt ⟨⟨12, 0, -4⟩, ⟨-12/13, 0, 5/13⟩, 100⟩).where_
      = ⟨1, 0, 7/12⟩ ∧
    ((Scene.mirror : Cube ℝ).intersect Real.sqrt ⟨⟨12, 0, -4⟩, ⟨-12/13, 0, 5/13⟩, 100⟩).normal
      = ⟨1, 0, 0⟩ ∧
    ((Scene.mirror : Cube ℝ).intersect Real.sqrt ⟨⟨12, 0, -4⟩, ⟨-12/13, 0, 5/13⟩, 100⟩).length
      = 143/12 := by
  have h := Cube.intersect_hit (Scene.mirror : Cube ℝ) (by norm_num [Scene.mirror])
    ⟨⟨12, 0, -4⟩, ⟨-12/13, 0, 5/13⟩, 100⟩ (by norm_num [Point.dot]) Face.right
    (by
      norm_num [Cube.Accepted, Cube.planeParam, Cube.candidate, Cube.pivot, Cube.vertices,
        Face.normal, Point.dot, Point.sub, Point.add, Point.scale, PRECISION, abs_le,
        Scene.mirror])
    (by
      intro g hg
      cases g <;> first
        | (left; rfl)
        | (right
           norm_num [Cube.planeParam, Cube.pivot, Cube.vertices, Face.normal, Point.dot,
             Point.sub, Point.add, Scene.mirror]
           done)
        | (exfalso
           norm_num [Cube.Accepted, Cube.planeParam, Cube.candidate, Cube.pivot, Cube.vertices,
             Face.normal, Point.dot, Point.sub, Point.add, Point.scale, PRECISION, abs_le,
             Scene.mirror] at hg))
  refine ⟨?_, ?_, ?_⟩
  · rw [h.1]
    norm_num [Cube.planeParam, Cube.candidate, Cube.pivot, Cube.vertices,
        Face.normal, Point.dot, Point.sub, Point.add, Point.scale, Scene.mirror]
  · rw [h.2.1]; rfl
  · rw [h.2.2]
    norm_num [Cube.planeParam, Cube.candidate, Cube.pivot, Cube.vertices,
        Face.normal, Point.dot, Point.sub, Point.add, Point.scale, Scene.mirror]

theorem Scene.shadowP_block :
    ((Scene.block : Cube ℝ).intersect Real.sqrt ⟨⟨12, 0, -4⟩, ⟨-12/13, 0, 5/13⟩, 100⟩).length
      = -1 := by
  apply Cube.intersect_miss _ (by norm_num [Scene.block])
  intro g
  cases g <;>
    norm_num [Cube.Accepted, Cube.planeParam, Cube.candidate, Cube.pivot, Cube.vertices,
      Face.normal, Point.dot, Point.sub, Point.add, Point.scale, PRECISION, abs_le,
      Scene.block]

theorem Scene.shadowQ_mirror :
    ((Scene.mirror : Cube ℝ).intersect Real.sqrt ⟨⟨12, 0, -4⟩, ⟨-4/5, 0, 3/5⟩, 100⟩).length
      = -1 := by
  apply Cube.intersect_miss _ (by norm_num [Scene.mirror])
  intro g
  cases g <;>
    norm_num [Cube.Accepted, Cube.planeParam, Cube.candidate, Cube.pivot, Cube.vertices,
      Face.normal, Point.dot, Point.sub, Point.add, Point.scale, PRECISION, abs_le,
      Scene.mirror]

theorem Scene.shadowQ_block :
    ((Scene.block : Cube ℝ).intersect Real.sqrt ⟨⟨12, 0, -4⟩, ⟨-4/5, 0, 3/5⟩, 100⟩).where_
      = ⟨0, 0, 5⟩ ∧
    ((Scene.block : Cube ℝ).intersect Real.sqrt ⟨⟨12, 0, -4⟩, ⟨-4/5, 0, 3/5⟩, 100⟩).normal
      = ⟨0, 0, -1⟩ ∧
    ((Scene.block : Cube ℝ).intersect Real.sqrt ⟨⟨12, 0, -4⟩, ⟨-4/5, 0, 3/5⟩, 100⟩).length
      = 15 := by
  have h := Cube.intersect_hit (Scene.block : Cube ℝ) (by norm_num [Scene.block])
    ⟨⟨12, 0, -4⟩, ⟨-4/5, 0, 3/5⟩, 100⟩ (by norm_num [Point.dot]) Face.back
    (by
      norm_num [Cube.Accepted, Cube.planeParam, Cube.candidate, Cube.pivot, Cube.vertices,
        Face.normal, Point.dot, Point.sub, Point.add, Point.scale, PRECISION, abs_le,
        Scene.block])
    (by
      intro g hg
      cases g <;> first
        | (left; rfl)
        | (right
           norm_num [Cube.planeParam, Cube.pivot, Cube.vertices, Face.normal, Point.dot,
             Point.sub, Point.add, Scene.block]
           done)
        | (exfalso
           norm_num [Cube.Accepted, Cube.planeParam, Cube.candidate, Cube.pivot, Cube.vertices,
             Face.normal, Point.dot, Point.sub, Point.add, Point.scale, PRECISION, abs_le,
             Scene.block] at hg))
  refine ⟨?_, ?_, ?_⟩
  · rw [h.1]
    norm_num [Cube.planeParam, Cube.candidate, Cube.pivot, Cube.vertices,
        Face.normal, Point.dot, Point.sub, Point.add, Point.scale, Scene.block]
  · rw [h.2.1]; rfl
  · rw [h.2.2]
    norm_num [Cube.planeParam, Cube.candidate, Cube.pivot, Cube.vertices,
        Face.normal, Point.dot, Point.sub, Point.add, Point.scale, Scene.block]

theorem Scene.reflected_mirror :
    ((Scene.mirror : Cube ℝ).intersect Real.sqrt ⟨⟨0, 0, 1⟩, ⟨0, 0, 1⟩, 10⟩).length = -1 := by
  apply Cube.intersect_miss _ (by norm_num [Scene.mirror])
  intro g
  cases g <;>
    norm_num [Cube.Accepted, Cube.planeParam, Cube.candidate, Cube.pivot, Cube.vertices,
      Face.normal, Point.dot, Point.sub, Point.add, Point.scale, PRECISION, abs_le,
      Scene.mirror]

theorem Scene.reflected_block :
    ((Scene.block : Cube ℝ).intersect Real.sqrt ⟨⟨0, 0, 1⟩, ⟨0, 0, 1⟩, 10⟩).where_
      = ⟨0, 0, 5⟩ ∧
    ((Scene.block : Cube ℝ).intersect Real.sqrt ⟨⟨0, 0, 1⟩, ⟨0, 0, 1⟩, 10⟩).normal
      = ⟨0, 0, -1⟩ ∧
    ((Scene.block : Cube ℝ).intersect Real.sqrt ⟨⟨0, 0, 1⟩, ⟨0, 0, 1⟩, 10⟩).length = 4 := by
  have h := Cube.intersect_hit (Scene.block : Cube ℝ) (by norm_num [Scene.block])
    ⟨⟨0, 0, 1⟩, ⟨0, 0, 1⟩, 10⟩ (by norm_num [Point.dot]) Face.back
    (by
      norm_num [Cube.Accepted, Cube.planeParam, Cube.candidate, Cube.pivot, Cube.vertices,
        Face.normal, Point.dot, Point.sub, Point.add, Point.scale, PRECISION, abs_le,
        Scene.block])
    (by
      intro g hg
      cases g <;> first
        | (left; rfl)
        | (right
           norm_num [Cube.planeParam, Cube.pivot, Cube.vertices, Face.normal, Point.dot,
             Point.sub, Point.add, Scene.block]
           done)
        | (exfalso
           norm_num [Cube.Accepted, Cube.planeParam, Cube.candidate, Cube.pivot, Cube.vertices,
             Face.normal, Point.dot, Point.sub, Point.add, Point.scale, PRECISION, abs_le,
             Scene.block] at hg))
  refine ⟨?_, ?_, ?_⟩
  · rw [h.1]
    norm_num [Cube.planeParam, Cube.candidate, Cube.pivot, Cube.vertices,
        Face.normal, Point.dot, Point.sub, Point.add, Point.scale, Scene.block]
  · rw [h.2.1]; rfl
  · rw [h.2.2]
    norm_num [Cube.planeParam, Cube.candidate, Cube.pivot, Cube.vertices,
        Face.normal, Point.dot, Point.sub, Point.add, Point.scale, Scene.block]

/-- The nearest hit of the shadow ray from the light to P = (0,0,1): the right
face of the reflective cube. -/
theorem Scene.intersect_shadowP (w : World ℝ)
    (hobj : w.objects = [Object.cube Scene.mirror, Object.cube Scene.block]) :
    w.intersect Real.sqrt ⟨⟨12, 0, -4⟩, ⟨-12/13, 0, 5/13⟩, 100⟩
      = ⟨⟨1, 0, 7/12⟩, ⟨1, 0, 0⟩, 143/12, 0⟩ := by
  obtain ⟨h1, h2, h3⟩ := Scene.shadowP_mirror
  have h4 := Scene.shadowP_block
  unfold World.intersect
  rw [hobj]
  simp only [World.intersectLoop, Object.intersect, h1, h2, h3, h4]
  norm_num

/-- The nearest hit of the shadow ray from the light to Q = (0,0,5): Q itself,
on the back face of the matt cube. -/
theorem Scene.intersect_shadowQ (w : World ℝ)
    (hobj : w.objects = [Object.cube Scene.mirror, Object.cube Scene.block]) :
    w.intersect Real.sqrt ⟨⟨12, 0, -4⟩, ⟨-4/5, 0, 3/5⟩, 100⟩
      = ⟨⟨0, 0, 5⟩, ⟨0, 0, -1⟩, 15, 1⟩ := by
  obtain ⟨h1, h2, h3⟩ := Scene.shadowQ_block
  have h4 := Scene.shadowQ_mirror
  unfold World.intersect
  rw [hobj]
  simp only [World.intersectLoop, Object.intersect, h1, h2, h3, h4]
  norm_num

/-- The nearest hit of the ray reflected at P = (0,0,1): Q = (0,0,5). -/
theorem Scene.intersect_reflected (w : World ℝ)
    (hobj : w.objects = [Object.cube Scene.mirror, Object.cube Scene.block]) :
    w.intersect Real.sqrt ⟨⟨0, 0, 1⟩, ⟨0, 0, 1⟩, 10⟩
      = ⟨⟨0, 0, 5⟩, ⟨0, 0, -1⟩, 4, 1⟩ := by
  obtain ⟨h1, h2, h3⟩ := Scene.reflected_block
  have h4 := Scene.reflected_mirror
  unfold World.intersect
  rw [hobj]
  simp only [World.intersectLoop, Object.intersect, h1, h2, h3, h4]
  norm_num

theorem Point.unitary_of_length (p : Point ℝ) (d : ℝ) (hd : 0 ≤ d)
    (h : Point.dot p p = d * d) :
    Point.length Real.sqrt p = d ∧ Point.unitary Real.sqrt p = p.divide d := by
  have hl : Point.length Real.sqrt p = d := by
    unfold Point.length; rw [h, Real.sqrt_mul_self hd]
  exact ⟨hl, by unfold Point.unitary; rw [hl]⟩

namespace Scene

/-- The ray reflected at P = (0,0,1) for the ray from (0,0,3) along (0,0,-1). -/
theorem reflectedRay_at_P :
    RayTracer.reflectedRay Real.sqrt (⟨⟨0, 0, 3⟩, ⟨0, 0, -1⟩, 10⟩ : Ray ℝ)
      ⟨⟨0, 0, 1⟩, ⟨0, 0, 1⟩, 2, 0⟩ = ⟨⟨0, 0, 1⟩, ⟨0, 0, 1⟩, 10⟩ := by
  have h1 := (Point.unitary_of_length (⟨0, 0, 3⟩ : Point ℝ) 3 (by norm_num)
    (by norm_num [Point.dot])).2
  have h2 := (Point.unitary_of_length (⟨0, 0, 10⟩ : Point ℝ) 10 (by norm_num)
    (by norm_num [Point.dot])).2
  have h3 : ((⟨0, 0, 1⟩ : Point ℝ).add (Point.scale 10
      ((Point.scale (2 * Point.dot (⟨0, 0, 1⟩ : Point ℝ) ((⟨0, 0, 3⟩ : Point ℝ).divide 3))
        ⟨0, 0, 1⟩).sub ((⟨0, 0, 3⟩ : Point ℝ).divide 3)))).sub ⟨0, 0, 1⟩ = ⟨0, 0, 10⟩ := by
    simp only [Point.add, Point.scale, Point.sub, Point.dot, Point.divide]
    ext <;> norm_num
  simp only [RayTracer.reflectedRay, Line.toRay, Line.direction, h1, h3, h2]
  norm_num [Point.divide]

/-- The shadow ray from the light to P = (0,0,1). -/
theorem shadowRay_at_P :
    (Line.mk (lamp : Light ℝ).position ⟨0, 0, 1⟩).toRay Real.sqrt (lamp : Light ℝ).intensity
      = ⟨⟨12, 0, -4⟩, ⟨-12/13, 0, 5/13⟩, 100⟩ := by
  have h1 := (Point.unitary_of_length (⟨-12, 0, 5⟩ : Point ℝ) 13 (by norm_num)
    (by norm_num [Point.dot])).2
  have h2 : (⟨0, 0, 1⟩ : Point ℝ).sub ⟨12, 0, -4⟩ = ⟨-12, 0, 5⟩ := by
    simp only [Point.sub]; ext <;> norm_num
  simp only [Line.toRay, Line.direction, lamp, h2, h1]
  norm_num [Point.divide]

/-- The shadow ray from the light to Q = (0,0,5). -/
theorem shadowRay_at_Q :
    (Line.mk (lamp : Light ℝ).position ⟨0, 0, 5⟩).toRay Real.sqrt (lamp : Light ℝ).intensity
      = ⟨⟨12, 0, -4⟩, ⟨-4/5, 0, 3/5⟩, 100⟩ := by
  have h1 := (Point.unitary_of_length (⟨-12, 0, 9⟩ : Point ℝ) 15 (by norm_num)
    (by norm_num [Point.dot])).2
  have h2 : (⟨0, 0, 5⟩ : Point ℝ).sub ⟨12, 0, -4⟩ = ⟨-12, 0, 9⟩ := by
    simp only [Point.sub]; ext <;> norm_num
  simp only [Line.toRay, Line.direction, lamp, h2, h1]
  norm_num [Point.divide]

/-- At P = (0,0,1) the light is shadowed: its term is black. -/
theorem lightTerm_at_P (w : World ℝ)
    (hobj : w.objects = [Object.cube mirror, Object.cube block]) (ray : Ray ℝ)
    (M : Material ℝ) :
    RayTracer.lightTerm Real.sqrt Real.rpow w ray ⟨⟨0, 0, 1⟩, ⟨0, 0, 1⟩, 2, 0⟩ M lamp = black := by
  unfold RayTracer.lightTerm
  simp only [shadowRay_at_P, intersect_shadowP w hobj]
  rw [if_neg]
  norm_num [Point.eq, PRECISION]

/-- At Q = (0,0,5) the light is not shadowed: its diffuse term on the matt
cube is 4/15 per channel. -/
theorem lightTerm_at_Q (w : World ℝ)
    (hobj : w.objects = [Object.cube mirror, Object.cube block]) (S : ℝ) :
    RayTracer.lightTerm Real.sqrt Real.rpow w ⟨⟨0, 0, 1⟩, ⟨0, 0, 1⟩, S⟩
      ⟨⟨0, 0, 5⟩, ⟨0, 0, -1⟩, 4, 1⟩ blockMaterial lamp = ⟨4/15, 4/15, 4/15⟩ := by
  have hsub : (lamp : Light ℝ).position.sub ⟨0, 0, 5⟩ = ⟨12, 0, -9⟩ := by
    simp only [Point.sub, lamp]; ext <;> norm_num
  obtain ⟨hlen, huni⟩ := Point.unitary_of_length (⟨12, 0, -9⟩ : Point ℝ) 15 (by norm_num)
    (by norm_num [Point.dot])
  have hrl : (Point.scale (2 * Point.dot (⟨0, 0, -1⟩ : Point ℝ) ((⟨12, 0, -9⟩ : Point ℝ).divide 15))
      ⟨0, 0, -1⟩).sub ((⟨12, 0, -9⟩ : Point ℝ).divide 15) = ⟨-4/5, 0, -3/5⟩ := by
    simp only [Point.scale, Point.sub, Point.dot, Point.divide]
    ext <;> norm_num
  have hrlen := (Point.unitary_of_length (⟨-4/5, 0, -3/5⟩ : Point ℝ) 1 (by norm_num)
    (by norm_num [Point.dot])).1
  have holen := (Point.unitary_of_length (⟨0, 0, 1⟩ : Point ℝ) 1 (by norm_num)
    (by norm_num [Point.dot])).1
  unfold RayTracer.lightTerm
  simp only [shadowRay_at_Q, intersect_shadowQ w hobj, hsub, hlen, huni, hrl, hrlen, holen]
  rw [if_pos (by norm_num [Point.eq, PRECISION])]
  norm_num [Point.dot, Point.divide, blockMaterial, lamp, black, Color.add, Color.mul,
    Color.scale]

/-- The recursive call of `shade` at Q = (0,0,5) in the scene with the light. -/
theorem shade_lit_at_Q (fuel : Nat) :
    RayTracer.shade Real.sqrt Real.rpow (lit : World ℝ) (fuel + 1) ⟨⟨0, 0, 1⟩, ⟨0, 0, 1⟩, 3⟩
      ⟨⟨0, 0, 5⟩, ⟨0, 0, -1⟩, 4, 1⟩ = Except.ok ⟨19/15, 19/15, 19/15⟩ := by
  have hM : RayTracer.materialOf (lit : World ℝ) ⟨⟨0, 0, 5⟩, ⟨0, 0, -1⟩, 4, 1⟩
      = some blockMaterial := by
    simp [RayTracer.materialOf, lit, Object.material, block]
  rw [RayTracer.shade, hM]
  have hlights : (lit : World ℝ).lights = [lamp] := rfl
  simp only [hlights, RayTracer.addLights, lightTerm_at_Q lit rfl]
  norm_num [blockMaterial, lit, Color.times, Color.add]

/-- The recursive call of `shade` at Q = (0,0,5) in the scene without the light. -/
theorem shade_dark_at_Q (fuel : Nat) :
    RayTracer.shade Real.sqrt Real.rpow (dark : World ℝ) (fuel + 1) ⟨⟨0, 0, 1⟩, ⟨0, 0, 1⟩, 3⟩
      ⟨⟨0, 0, 5⟩, ⟨0, 0, -1⟩, 4, 1⟩ = Except.ok ⟨1, 1, 1⟩ := by
  have hM : RayTracer.materialOf (dark : World ℝ) ⟨⟨0, 0, 5⟩, ⟨0, 0, -1⟩, 4, 1⟩
      = some blockMaterial := by
    simp [RayTracer.materialOf, dark, Object.material, block]
  rw [RayTracer.shade, hM]
  have hlights : (dark : World ℝ).lights = [] := rfl
  simp only [hlights, RayTracer.addLights]
  norm_num [blockMaterial, dark, Color.times]

theorem bounce_at_P (w : World ℝ)
    (hobj : w.objects = [Object.cube mirror, Object.cube block]) :
    RayTracer.bounce Real.sqrt w ⟨⟨0, 0, 3⟩, ⟨0, 0, -1⟩, 10⟩ ⟨⟨0, 0, 1⟩, ⟨0, 0, 1⟩, 2, 0⟩
      mirrorMaterial = ⟨⟨0, 0, 1⟩, ⟨0, 0, 1⟩, 3⟩ := by
  unfold RayTracer.bounce
  simp only [reflectedRay_at_P, intersect_reflected w hobj]
  norm_num [mirrorMaterial]

/-- The value of `shade` at P = (0,0,1) in the scene with the light. -/
theorem shade_lit_at_P (fuel : Nat) :
    RayTracer.shade Real.sqrt Real.rpow (lit : World ℝ) (fuel + 2) ⟨⟨0, 0, 3⟩, ⟨0, 0, -1⟩, 10⟩
      ⟨⟨0, 0, 1⟩, ⟨0, 0, 1⟩, 2, 0⟩ = Except.ok ⟨17/15, 17/15, 17/15⟩ := by
  have hM : RayTracer.materialOf (lit : World ℝ) ⟨⟨0, 0, 1⟩, ⟨0, 0, 1⟩, 2, 0⟩
      = some mirrorMaterial := by
    simp [RayTracer.materialOf, lit, Object.material, mirror]
  rw [RayTracer.shade, hM]
  have hlights : (lit : World ℝ).lights = [lamp] := rfl
  simp only [hlights, RayTracer.addLights, lightTerm_at_P lit rfl, reflectedRay_at_P,
    intersect_reflected lit rfl, bounce_at_P lit rfl, shade_lit_at_Q]
  have hc : (mirrorMaterial : Material ℝ).reflection > 0 := by norm_num [mirrorMaterial]
  have hne : ¬ Point.eq (⟨0, 0, 5⟩ : Point ℝ) ⟨0, 0, 1⟩ := by norm_num [Point.eq, PRECISION]
  simp only [hc, hne, if_true, not_false_eq_true, ge_iff_le, Nat.one_pos, Int.one_nonneg,
    zero_le_one]
  norm_num [mirrorMaterial, lit, Color.times, Color.add, Color.scale, black]

/-- The value of `shade` at P = (0,0,1) in the scene without the light. -/
theorem shade_dark_at_P (fuel : Nat) :
    RayTracer.shade Real.sqrt Real.rpow (dark : World ℝ) (fuel + 2) ⟨⟨0, 0, 3⟩, ⟨0, 0, -1⟩, 10⟩
      ⟨⟨0, 0, 1⟩, ⟨0, 0, 1⟩, 2, 0⟩ = Except.ok ⟨1, 1, 1⟩ := by
  have hM : RayTracer.materialOf (dark : World ℝ) ⟨⟨0, 0, 1⟩, ⟨0, 0, 1⟩, 2, 0⟩
      = some mirrorMaterial := by
    simp [RayTracer.materialOf, dark, Object.material, mirror]
  rw [RayTracer.shade, hM]
  have hlights : (dark : World ℝ).lights = [] := rfl
  simp only [hlights, RayTracer.addLights, reflectedRay_at_P,
    intersect_reflected dark rfl, bounce_at_P dark rfl, shade_dark_at_Q]
  have hc : (mirrorMaterial : Material ℝ).reflection > 0 := by norm_num [mirrorMaterial]
  have hne : ¬ Point.eq (⟨0, 0, 5⟩ : Point ℝ) ⟨0, 0, 1⟩ := by norm_num [Point.eq, PRECISION]
  simp only [hc, hne, if_true, not_false_eq_true, ge_iff_le, Nat.one_pos, Int.one_nonneg,
    zero_le_one]
  norm_num [mirrorMaterial, dark, Color.times, Color.add, Color.scale]

/-- The scene is what the construction interface builds. -/
theorem lit_built :
    (((World.new 1 : World ℝ).add (Object.cube (Cube.new ⟨0, 0, 0⟩ ⟨0, 1, 0⟩ 2)) mirrorMaterial).add
      (Object.cube (Cube.new ⟨0, 0, 6⟩ ⟨0, 1, 0⟩ 2)) blockMaterial).addLight lamp = lit := by
  simp [World.add, World.new, World.addLight, World.scan, Material.eq, Object.setMaterial,
    Cube.new, mirrorMaterial, blockMaterial, lit, mirror, block]

theorem primary_mirror :
    ((mirror : Cube ℝ).intersect Real.sqrt ⟨⟨0, 0, 3⟩, ⟨0, 0, -1⟩, 10⟩).where_ = ⟨0, 0, 1⟩ ∧
    ((mirror : Cube ℝ).intersect Real.sqrt ⟨⟨0, 0, 3⟩, ⟨0, 0, -1⟩, 10⟩).normal = ⟨0, 0, 1⟩ ∧
    ((mirror : Cube ℝ).intersect Real.sqrt ⟨⟨0, 0, 3⟩, ⟨0, 0, -1⟩, 10⟩).length = 2 := by
  have h := Cube.intersect_hit (mirror : Cube ℝ) (by norm_num [mirror])
    ⟨⟨0, 0, 3⟩, ⟨0, 0, -1⟩, 10⟩ (by norm_num [Point.dot]) Face.front
    (by
      norm_num [Cube.Accepted, Cube.planeParam, Cube.candidate, Cube.pivot, Cube.vertices,
        Face.normal, Point.dot, Point.sub, Point.add, Point.scale, PRECISION, abs_le, mirror])
    (by
      intro g hg
      cases g <;> first
        | (left; rfl)
        | (right
           norm_num [Cube.planeParam, Cube.pivot, Cube.vertices, Face.normal, Point.dot,
             Point.sub, Point.add, mirror]
           done)
        | (exfalso
           norm_num [Cube.Accepted, Cube.planeParam, Cube.candidate, Cube.pivot, Cube.vertices,
             Face.normal, Point.dot, Point.sub, Point.add, Point.scale, PRECISION, abs_le,
             mirror] at hg))
  refine ⟨?_, ?_, ?_⟩
  · rw [h.1]
    norm_num [Cube.planeParam, Cube.candidate, Cube.pivot, Cube.vertices,
        Face.normal, Point.dot, Point.sub, Point.add, Point.scale, mirror]
  · rw [h.2.1]; rfl
  · rw [h.2.2]
    norm_num [Cube.planeParam, Cube.candidate, Cube.pivot, Cube.vertices,
        Face.normal, Point.dot, Point.sub, Point.add, Point.scale, mirror]

theorem primary_block :
    ((block : Cube ℝ).intersect Real.sqrt ⟨⟨0, 0, 3⟩, ⟨0, 0, -1⟩, 10⟩).length = -1 := by
  apply Cube.intersect_miss _ (by norm_num [block])
  intro g
  cases g <;>
    norm_num [Cube.Accepted, Cube.planeParam, Cube.candidate, Cube.pivot, Cube.vertices,
      Face.normal, Point.dot, Point.sub, Point.add, Point.scale, PRECISION, abs_le, block]

/-- The nearest hit of the ray from (0,0,3) along (0,0,-1): P = (0,0,1) on the
front face of the reflective cube. -/
theorem intersect_primary (w : World ℝ)
    (hobj : w.objects = [Object.cube mirror, Object.cube block]) :
    w.intersect Real.sqrt ⟨⟨0, 0, 3⟩, ⟨0, 0, -1⟩, 10⟩ = ⟨⟨0, 0, 1⟩, ⟨0, 0, 1⟩, 2, 0⟩ := by
  obtain ⟨h1, h2, h3⟩ := primary_mirror
  have h4 := primary_block
  unfold World.intersect
  rw [hobj]
  simp only [World.intersectLoop, Object.intersect, h1, h2, h3, h4]
  norm_num

end Scene

namespace RayTracer

/-- C10 at a concrete input: the scene `Scene.matt` and its light, shading the
point (0,0,1) of the first cube. -/
theorem shade_shadowed_light_witness :
    lightTerm Real.sqrt Real.rpow (Scene.matt : World ℝ) ⟨⟨0, 0, 3⟩, ⟨0, 0, -1⟩, 10⟩
      ⟨⟨0, 0, 1⟩, ⟨0, 0, 1⟩, 2, 0⟩ Scene.blockMaterial Scene.lamp = black ∧
    shade Real.sqrt Real.rpow (Scene.matt : World ℝ) (0 + 1) ⟨⟨0, 0, 3⟩, ⟨0, 0, -1⟩, 10⟩
      ⟨⟨0, 0, 1⟩, ⟨0, 0, 1⟩, 2, 0⟩ =
    shade Real.sqrt Real.rpow { (Scene.matt : World ℝ) with lights := [] ++ [] } (0 + 1)
      ⟨⟨0, 0, 3⟩, ⟨0, 0, -1⟩, 10⟩ ⟨⟨0, 0, 1⟩, ⟨0, 0, 1⟩, 2, 0⟩ :=
  shade_shadowed_light Real.sqrt Real.rpow Scene.matt [] [] Scene.lamp rfl
    ⟨⟨0, 0, 3⟩, ⟨0, 0, -1⟩, 10⟩ ⟨⟨0, 0, 1⟩, ⟨0, 0, 1⟩, 2, 0⟩ Scene.blockMaterial
    (by simp [materialOf, Scene.matt, Object.material, Scene.mirror])
    (by rw [Scene.shadowRay_at_P, Scene.intersect_shadowP Scene.matt rfl])
    (by rw [Scene.shadowRay_at_P, Scene.intersect_shadowP Scene.matt rfl]
        norm_num [Point.eq, PRECISION])
    0 (Or.inl (by norm_num [Scene.blockMaterial]))

/-- C10 as stated fails on a reflective surface.  In `Scene.lit` the ray from
(0,0,3) along (0,0,-1) hits the reflective cube at P = (0,0,1).  The shadow ray
of the light toward P is stopped by the right face of that cube at (1,0,7/12),
so the light is shadowed at P.  The reflection of P is Q = (0,0,5) on the matt
cube, which the light does reach, and `shade` at P returns 17/15 per channel
with the light and 1 per channel in the scene without it. -/
theorem shade_reflection_sees_shadowed_light :
    (Scene.lit : World ℝ).lights = [] ++ Scene.lamp :: [] ∧
    (Scene.dark : World ℝ) = { (Scene.lit : World ℝ) with lights := [] ++ [] } ∧
    (Scene.lit : World ℝ).intersect Real.sqrt ⟨⟨0, 0, 3⟩, ⟨0, 0, -1⟩, 10⟩
      = ⟨⟨0, 0, 1⟩, ⟨0, 0, 1⟩, 2, 0⟩ ∧
    0 ≤ ((Scene.lit : World ℝ).intersect Real.sqrt
      ((Line.mk (Scene.lamp : Light ℝ).position ⟨0, 0, 1⟩).toRay Real.sqrt
        (Scene.lamp : Light ℝ).intensity)).index ∧
    ¬ Point.eq ((Scene.lit : World ℝ).intersect Real.sqrt
      ((Line.mk (Scene.lamp : Light ℝ).position ⟨0, 0, 1⟩).toRay Real.sqrt
        (Scene.lamp : Light ℝ).intensity)).where_ ⟨0, 0, 1⟩ ∧
    shade Real.sqrt Real.rpow (Scene.lit : World ℝ) 2 ⟨⟨0, 0, 3⟩, ⟨0, 0, -1⟩, 10⟩
      ⟨⟨0, 0, 1⟩, ⟨0, 0, 1⟩, 2, 0⟩ = Except.ok ⟨17/15, 17/15, 17/15⟩ ∧
    shade Real.sqrt Real.rpow (Scene.dark : World ℝ) 2 ⟨⟨0, 0, 3⟩, ⟨0, 0, -1⟩, 10⟩
      ⟨⟨0, 0, 1⟩, ⟨0, 0, 1⟩, 2, 0⟩ = Except.ok ⟨1, 1, 1⟩ ∧
    shade Real.sqrt Real.rpow (Scene.lit : World ℝ) 2 ⟨⟨0, 0, 3⟩, ⟨0, 0, -1⟩, 10⟩
      ⟨⟨0, 0, 1⟩, ⟨0, 0, 1⟩, 2, 0⟩ ≠
    shade Real.sqrt Real.rpow (Scene.dark : World ℝ) 2 ⟨⟨0, 0, 3⟩, ⟨0, 0, -1⟩, 10⟩
      ⟨⟨0, 0, 1⟩, ⟨0, 0, 1⟩, 2, 0⟩ := by
  refine ⟨rfl, rfl, Scene.intersect_primary Scene.lit rfl, ?_, ?_,
    Scene.shade_lit_at_P 0, Scene.shade_dark_at_P 0, ?_⟩
  · rw [Scene.shadowRay_at_P, Scene.intersect_shadowP Scene.lit rfl]
  · rw [Scene.shadowRay_at_P, Scene.intersect_shadowP Scene.lit rfl]
    norm_num [Point.eq, PRECISION]
  · rw [Scene.shade_lit_at_P 0, Scene.shade_dark_at_P 0]
    intro h
    injection h with h
    have := congrArg Color.red h
    norm_num at this

theorem sqrt_25 : Real.sqrt 25 = 5 := by
  rw [show (25 : ℝ) = 5 * 5 by norm_num, Real.sqrt_mul_self (by norm_num)]

theorem sqrt_100 : Real.sqrt 100 = 10 := by
  rw [show (100 : ℝ) = 10 * 10 by norm_num, Real.sqrt_mul_self (by norm_num)]

/-- C9, evaluated on the code: in the scene of one cube of side 2 centred at
(3,0,0), the ray from (3,0,4) along (0,0,-1) hits the point (3,0,1) of the
front face, with normal (0,0,1).  The unit view direction (from the hit point
back to the ray origin) is (0,0,1), and its mirror image `2(N·I)N − I` is
(0,0,1).  The source takes `I = ray.origin.unitary()` = (3/5,0,4/5), the
direction of the ray origin seen from the world origin, and builds the
reflected ray with direction (-3/5,0,4/5). -/
theorem reflectedRay_uses_origin_position :
    (⟨[Object.cube ⟨⟨3, 0, 0⟩, ⟨0, 1, 0⟩, 0, 2⟩], [Scene.mirrorMaterial], [], 1⟩ : World ℝ).intersect
      Real.sqrt ⟨⟨3, 0, 4⟩, ⟨0, 0, -1⟩, 10⟩ = ⟨⟨3, 0, 1⟩, ⟨0, 0, 1⟩, 3, 0⟩ ∧
    reflectedRay Real.sqrt (⟨⟨3, 0, 4⟩, ⟨0, 0, -1⟩, 10⟩ : Ray ℝ) ⟨⟨3, 0, 1⟩, ⟨0, 0, 1⟩, 3, 0⟩
      = ⟨⟨3, 0, 1⟩, ⟨-3/5, 0, 4/5⟩, 10⟩ ∧
    Point.unitary Real.sqrt
      ((Point.scale (2 * Point.dot (⟨0, 0, 1⟩ : Point ℝ) (Point.scale (-1) ⟨0, 0, -1⟩)) ⟨0, 0, 1⟩).sub
        (Point.scale (-1) ⟨0, 0, -1⟩)) = ⟨0, 0, 1⟩ ∧
    (⟨-3/5, 0, 4/5⟩ : Point ℝ) ≠ ⟨0, 0, 1⟩ := by
  refine ⟨?_, ?_, ?_, ?_⟩
  · have h := Cube.intersect_hit (⟨⟨3, 0, 0⟩, ⟨0, 1, 0⟩, 0, 2⟩ : Cube ℝ) (by norm_num)
      ⟨⟨3, 0, 4⟩, ⟨0, 0, -1⟩, 10⟩ (by norm_num [Point.dot]) Face.front
      (by
        norm_num [Cube.Accepted, Cube.planeParam, Cube.candidate, Cube.pivot, Cube.vertices,
          Face.normal, Point.dot, Point.sub, Point.add, Point.scale, PRECISION, abs_le])
      (by
        intro g hg
        cases g <;> first
          | (left; rfl)
          | (right
             norm_num [Cube.planeParam, Cube.pivot, Cube.vertices, Face.normal, Point.dot,
               Point.sub, Point.add]
             done)
          | (exfalso
             norm_num [Cube.Accepted, Cube.planeParam, Cube.candidate, Cube.pivot,
               Cube.vertices, Face.normal, Point.dot, Point.sub, Point.add, Point.scale,
               PRECISION, abs_le] at hg))
    have hw : ((⟨⟨3, 0, 0⟩, ⟨0, 1, 0⟩, 0, 2⟩ : Cube ℝ).intersect Real.sqrt
        ⟨⟨3, 0, 4⟩, ⟨0, 0, -1⟩, 10⟩).where_ = ⟨3, 0, 1⟩ := by
      rw [h.1]
      norm_num [Cube.planeParam, Cube.candidate, Cube.pivot, Cube.vertices,
        Face.normal, Point.dot, Point.sub, Point.add, Point.scale]
    have hn : ((⟨⟨3, 0, 0⟩, ⟨0, 1, 0⟩, 0, 2⟩ : Cube ℝ).intersect Real.sqrt
        ⟨⟨3, 0, 4⟩, ⟨0, 0, -1⟩, 10⟩).normal = ⟨0, 0, 1⟩ := by
      rw [h.2.1]; rfl
    have hlen : ((⟨⟨3, 0, 0⟩, ⟨0, 1, 0⟩, 0, 2⟩ : Cube ℝ).intersect Real.sqrt
        ⟨⟨3, 0, 4⟩, ⟨0, 0, -1⟩, 10⟩).length = 3 := by
      rw [h.2.2]
      norm_num [Cube.planeParam, Cube.candidate, Cube.pivot, Cube.vertices,
        Face.normal, Point.dot, Point.sub, Point.add, Point.scale]
    unfold World.intersect
    simp only [World.intersectLoop, Object.intersect, hw, hn, hlen]
    norm_num
  · have h1 : Point.unitary Real.sqrt (⟨3, 0, 4⟩ : Point ℝ) = ⟨3/5, 0, 4/5⟩ := by
      have : Point.dot (⟨3, 0, 4⟩ : Point ℝ) ⟨3, 0, 4⟩ = 25 := by norm_num [Point.dot]
      simp only [Point.unitary, Point.length, this, sqrt_25, Point.divide]
      norm_num
    have h2 : Point.unitary Real.sqrt (⟨-6, 0, 8⟩ : Point ℝ) = ⟨-3/5, 0, 4/5⟩ := by
      have : Point.dot (⟨-6, 0, 8⟩ : Point ℝ) ⟨-6, 0, 8⟩ = 100 := by norm_num [Point.dot]
      simp only [Point.unitary, Point.length, this, sqrt_100, Point.divide]
      norm_num
    have h3 : ((⟨3, 0, 1⟩ : Point ℝ).add (Point.scale 10
        ((Point.scale (2 * Point.dot (⟨0, 0, 1⟩ : Point ℝ) ⟨3/5, 0, 4/5⟩) ⟨0, 0, 1⟩).sub
          ⟨3/5, 0, 4/5⟩))).sub ⟨3, 0, 1⟩ = ⟨-6, 0, 8⟩ := by
      simp only [Point.add, Point.scale, Point.sub, Point.dot]
      ext <;> norm_num
    simp only [reflectedRay, Line.toRay, Line.direction, h1, h3, h2]
  · have : (Point.scale (2 * Point.dot (⟨0, 0, 1⟩ : Point ℝ) (Point.scale (-1) ⟨0, 0, -1⟩))
        ⟨0, 0, 1⟩).sub (Point.scale (-1) ⟨0, 0, -1⟩) = (⟨0, 0, 1⟩ : Point ℝ) := by
      simp only [Point.scale, Point.sub, Point.dot]
      ext <;> norm_num
    rw [this]
    simp [Point.unitary, Point.length, Point.dot, Point.divide]
  · intro h
    have := congrArg Point.x h
    norm_num at this

end RayTracer

/-! ## Sphere.intersect: discriminant cases -/

/-- C15: tangency is a miss.  When `|delta| ≤ PRECISION` for
`delta = b² − c + r²`, `Sphere.intersect` returns the no-hit Intersection, whose
length is -1. -/
theorem Sphere.intersect_tangent_miss (sqrt : α → α) (s : Sphere α) (ray : Ray α)
    (hdelta : |s.delta ray| ≤ PRECISION) :
    s.intersect sqrt ray = Probe.real ⟨Point.zero, Point.zero, -1, -1⟩ ∧
    ∃ i : Intersection α, s.intersect sqrt ray = Probe.real i ∧ i.length = -1 := by
  have h : s.intersect sqrt ray = Probe.real ⟨Point.zero, Point.zero, -1, -1⟩ := by
    have hn : ¬ (|Point.dot ray.direction (ray.origin.sub s.position) *
        Point.dot ray.direction (ray.origin.sub s.position) -
        Point.dot (ray.origin.sub s.position) (ray.origin.sub s.position) +
        s.radius * s.radius| > PRECISION) := not_lt.mpr hdelta
    unfold Sphere.intersect
    simp only [hn, if_false, Intersection.new]
  exact ⟨h, _, h, rfl⟩

/-- C15 at a concrete input: the unit sphere at the origin and the tangent ray
from (1,0,-5) along (0,0,1), for which `delta = 0`. -/
theorem Sphere.intersect_tangent_miss_witness :
    (⟨⟨0, 0, 0⟩, ⟨0, 1, 0⟩, 0, 1⟩ : Sphere ℝ).intersect Real.sqrt ⟨⟨1, 0, -5⟩, ⟨0, 0, 1⟩, 100⟩
      = Probe.real ⟨Point.zero, Point.zero, -1, -1⟩ ∧
    ∃ i : Intersection ℝ,
      (⟨⟨0, 0, 0⟩, ⟨0, 1, 0⟩, 0, 1⟩ : Sphere ℝ).intersect Real.sqrt ⟨⟨1, 0, -5⟩, ⟨0, 0, 1⟩, 100⟩
        = Probe.real i ∧ i.length = -1 :=
  Sphere.intersect_tangent_miss Real.sqrt ⟨⟨0, 0, 0⟩, ⟨0, 1, 0⟩, 0, 1⟩ ⟨⟨1, 0, -5⟩, ⟨0, 0, 1⟩, 100⟩
    (by
      have : Sphere.delta (⟨⟨0, 0, 0⟩, ⟨0, 1, 0⟩, 0, 1⟩ : Sphere ℝ)
          ⟨⟨1, 0, -5⟩, ⟨0, 0, 1⟩, 100⟩ = 0 := by
        norm_num [Sphere.delta, Sphere.b, Point.dot, Point.sub]
      rw [this, abs_zero]; exact le_of_lt PRECISION_pos)

/-- C16: normalising a vector of nonzero length gives a vector of length
exactly 1, hence within PRECISION = 1e-7 of 1. -/
theorem Point.length_unitary (v : Point ℝ) (hv : Point.length Real.sqrt v ≠ 0) :
    Point.length Real.sqrt (Point.unitary Real.sqrt v) = 1 ∧
    |Point.length Real.sqrt (Point.unitary Real.sqrt v) - 1| < PRECISION := by
  have hnn : 0 ≤ Point.dot v v := Point.dot_self_nonneg v
  have hsq : Point.length Real.sqrt v * Point.length Real.sqrt v = Point.dot v v := by
    unfold Point.length; exact Real.mul_self_sqrt hnn
  have h1 : Point.dot (Point.unitary Real.sqrt v) (Point.unitary Real.sqrt v) = 1 := by
    have : Point.dot (Point.unitary Real.sqrt v) (Point.unitary Real.sqrt v)
        = Point.dot v v / (Point.length Real.sqrt v * Point.length Real.sqrt v) := by
      simp only [Point.unitary, Point.divide, Point.dot]
      field_simp
    rw [this, hsq]
    have hne : Point.dot v v ≠ 0 := by
      intro h0; rw [h0] at hsq
      exact hv (mul_self_eq_zero.mp hsq)
    exact div_self hne
  have h : Point.length Real.sqrt (Point.unitary Real.sqrt v) = 1 := by
    show Real.sqrt (Point.dot (Point.unitary Real.sqrt v) (Point.unitary Real.sqrt v)) = 1
    rw [h1, Real.sqrt_one]
  refine ⟨h, ?_⟩
  rw [h, sub_self, abs_zero]
  exact PRECISION_pos

/-- C16 at a concrete input: the vector (3,0,4) of length 5. -/
theorem Point.length_unitary_witness :
    Point.length Real.sqrt (Point.unitary Real.sqrt (⟨3, 0, 4⟩ : Point ℝ)) = 1 ∧
    |Point.length Real.sqrt (Point.unitary Real.sqrt (⟨3, 0, 4⟩ : Point ℝ)) - 1| < PRECISION :=
  Point.length_unitary ⟨3, 0, 4⟩
    (by
      rw [(Point.unitary_of_length (⟨3, 0, 4⟩ : Point ℝ) 5 (by norm_num)
        (by norm_num [Point.dot])).1]
      norm_num)

/-- C14, evaluated on the code: a ray that starts on the unit sphere at
(0,0,-1) and travels inward along (0,0,1) has roots 2 and 0.  Only `roots[0]`
is tested against PRECISION; `roots[1] = 0` wins the length comparison and
`Sphere::intersect` reports a hit at the ray's own origin with length 0,
instead of the point (0,0,1) of the other root. -/
theorem Sphere.intersect_picks_zero_root :
    (⟨⟨0, 0, 0⟩, ⟨0, 1, 0⟩, 0, 1⟩ : Sphere ℝ).intersect Real.sqrt ⟨⟨0, 0, -1⟩, ⟨0, 0, 1⟩, 100⟩
      = Probe.real ⟨⟨0, 0, -1⟩, ⟨0, 0, -1⟩, 0, -1⟩ ∧
    -(Sphere.b (⟨⟨0, 0, 0⟩, ⟨0, 1, 0⟩, 0, 1⟩ : Sphere ℝ) ⟨⟨0, 0, -1⟩, ⟨0, 0, 1⟩, 100⟩) +
      Real.sqrt (Sphere.delta (⟨⟨0, 0, 0⟩, ⟨0, 1, 0⟩, 0, 1⟩ : Sphere ℝ)
        ⟨⟨0, 0, -1⟩, ⟨0, 0, 1⟩, 100⟩) = 2 ∧
    -(Sphere.b (⟨⟨0, 0, 0⟩, ⟨0, 1, 0⟩, 0, 1⟩ : Sphere ℝ) ⟨⟨0, 0, -1⟩, ⟨0, 0, 1⟩, 100⟩) -
      Real.sqrt (Sphere.delta (⟨⟨0, 0, 0⟩, ⟨0, 1, 0⟩, 0, 1⟩ : Sphere ℝ)
        ⟨⟨0, 0, -1⟩, ⟨0, 0, 1⟩, 100⟩) = 0 ∧
    (0 : ℝ) < PRECISION := by
  have hb : Sphere.b (⟨⟨0, 0, 0⟩, ⟨0, 1, 0⟩, 0, 1⟩ : Sphere ℝ)
      ⟨⟨0, 0, -1⟩, ⟨0, 0, 1⟩, 100⟩ = -1 := by
    norm_num [Sphere.b, Point.dot, Point.sub]
  have hdelta : Sphere.delta (⟨⟨0, 0, 0⟩, ⟨0, 1, 0⟩, 0, 1⟩ : Sphere ℝ)
      ⟨⟨0, 0, -1⟩, ⟨0, 0, 1⟩, 100⟩ = 1 := by
    norm_num [Sphere.delta, Sphere.b, Point.dot, Point.sub]
  refine ⟨?_, ?_, ?_, PRECISION_pos⟩
  · rw [Sphere.intersect_of_delta_pos _ _ (by norm_num [Point.dot])
      (by rw [hdelta]; unfold PRECISION; norm_num), hb, hdelta, Real.sqrt_one]
    have e0 : |-(-1 : ℝ) + 1| = 2 := by norm_num
    have e1 : |-(-1 : ℝ) - 1| = 0 := by norm_num
    rw [e0, e1, if_neg (by unfold PRECISION; norm_num), if_pos (by norm_num)]
    simp only [Sphere.hitAt, Point.add, Point.scale, Point.sub, Point.divide]
    norm_num
  · rw [hb, hdelta, Real.sqrt_one]; norm_num
  · rw [hb, hdelta, Real.sqrt_one]; norm_num

/-- C18, evaluated on the code: the ray from (0,2,0) along (0,0,1) misses the
unit sphere at the origin, with `delta = -3 < -PRECISION`.  The source passes
the test `fabs(delta) > PRECISION`, takes `sqrt` of the negative `delta` and
returns an Intersection whose length is NaN, not -1.  `World::intersect` on the
scene of that sphere alone skips it and returns index -1. -/
theorem Sphere.intersect_negative_delta_nan :
    Sphere.delta (⟨⟨0, 0, 0⟩, ⟨0, 1, 0⟩, 0, 1⟩ : Sphere ℝ) ⟨⟨0, 2, 0⟩, ⟨0, 0, 1⟩, 100⟩ = -3 ∧
    (⟨⟨0, 0, 0⟩, ⟨0, 1, 0⟩, 0, 1⟩ : Sphere ℝ).intersect Real.sqrt ⟨⟨0, 2, 0⟩, ⟨0, 0, 1⟩, 100⟩
      = Probe.nan ∧
    (¬ ∃ i : Intersection ℝ,
      (⟨⟨0, 0, 0⟩, ⟨0, 1, 0⟩, 0, 1⟩ : Sphere ℝ).intersect Real.sqrt ⟨⟨0, 2, 0⟩, ⟨0, 0, 1⟩, 100⟩
        = Probe.real i ∧ i.length = -1) ∧
    ((⟨[Object.sphere ⟨⟨0, 0, 0⟩, ⟨0, 1, 0⟩, 0, 1⟩], [Scene.blockMaterial], [], 1⟩ : World ℝ).intersect
      Real.sqrt ⟨⟨0, 2, 0⟩, ⟨0, 0, 1⟩, 100⟩).index = -1 := by
  have hdelta : Sphere.delta (⟨⟨0, 0, 0⟩, ⟨0, 1, 0⟩, 0, 1⟩ : Sphere ℝ)
      ⟨⟨0, 2, 0⟩, ⟨0, 0, 1⟩, 100⟩ = -3 := by
    norm_num [Sphere.delta, Sphere.b, Point.dot, Point.sub]
  have hnan : (⟨⟨0, 0, 0⟩, ⟨0, 1, 0⟩, 0, 1⟩ : Sphere ℝ).intersect Real.sqrt
      ⟨⟨0, 2, 0⟩, ⟨0, 0, 1⟩, 100⟩ = Probe.nan := by
    have h1 : |Sphere.delta (⟨⟨0, 0, 0⟩, ⟨0, 1, 0⟩, 0, 1⟩ : Sphere ℝ)
        ⟨⟨0, 2, 0⟩, ⟨0, 0, 1⟩, 100⟩| > PRECISION := by
      rw [hdelta]; unfold PRECISION; norm_num
    have h2 : Sphere.delta (⟨⟨0, 0, 0⟩, ⟨0, 1, 0⟩, 0, 1⟩ : Sphere ℝ)
        ⟨⟨0, 2, 0⟩, ⟨0, 0, 1⟩, 100⟩ < 0 := by rw [hdelta]; norm_num
    unfold Sphere.delta Sphere.b at h1 h2
    unfold Sphere.intersect
    simp only [h1, h2, if_true]
  refine ⟨hdelta, hnan, ?_, ?_⟩
  · rintro ⟨i, hi, _⟩
    rw [hnan] at hi
    exact absurd hi (by simp)
  · unfold World.intersect
    simp only [World.intersectLoop, Object.intersect, hnan, Intersection.new]

/-- The Intersection stored for a root `t` of the quadratic of
`Sphere::intersect` (unit direction, radius `r > 0`): the point lies on the
sphere, the stored length `|t|` is its distance from the ray origin, and the
normal has length 1. -/
theorem Sphere.hitAt_on_sphere (s : Sphere ℝ) (ray : Ray ℝ) (hr : 0 < s.radius)
    (hdir : Point.dot ray.direction ray.direction = 1) (t : ℝ)
    (ht : t * t + 2 * s.b ray * t +
      (Point.dot (ray.origin.sub s.position) (ray.origin.sub s.position)
        - s.radius * s.radius) = 0) :
    Line.length Real.sqrt ⟨(s.hitAt ray t |t|).where_, s.position⟩ = s.radius ∧
    (s.hitAt ray t |t|).length = Line.length Real.sqrt ⟨(s.hitAt ray t |t|).where_, ray.origin⟩ ∧
    (s.hitAt ray t |t|).normal = ((s.hitAt ray t |t|).where_.sub s.position).divide s.radius ∧
    Point.length Real.sqrt (s.hitAt ray t |t|).normal = 1 := by
  have hne : s.radius ≠ 0 := ne_of_gt hr
  have hdot : Point.dot ((ray.origin.add (Point.scale t ray.direction)).sub s.position)
      ((ray.origin.add (Point.scale t ray.direction)).sub s.position)
      = s.radius * s.radius := by
    have e : Point.dot ((ray.origin.add (Point.scale t ray.direction)).sub s.position)
        ((ray.origin.add (Point.scale t ray.direction)).sub s.position)
        = Point.dot (ray.origin.sub s.position) (ray.origin.sub s.position)
          + 2 * s.b ray * t + t * t * Point.dot ray.direction ray.direction := by
      simp only [Sphere.b, Point.dot, Point.sub, Point.add, Point.scale]; ring
    rw [e, hdir]; linarith
  have hlen : Point.length Real.sqrt ray.direction = 1 := by
    unfold Point.length; rw [hdir, Real.sqrt_one]
  refine ⟨?_, ?_, rfl, ?_⟩
  · show Real.sqrt (Point.dot ((ray.origin.add (Point.scale t ray.direction)).sub s.position)
      ((ray.origin.add (Point.scale t ray.direction)).sub s.position)) = s.radius
    rw [hdot, Real.sqrt_mul_self hr.le]
  · show |t| = Line.length Real.sqrt ⟨ray.origin.add (Point.scale t ray.direction), ray.origin⟩
    rw [Line_length_along_rev, hlen, mul_one]
  · show Real.sqrt (Point.dot
      (((ray.origin.add (Point.scale t ray.direction)).sub s.position).divide s.radius)
      (((ray.origin.add (Point.scale t ray.direction)).sub s.position).divide s.radius)) = 1
    have e : Point.dot
        (((ray.origin.add (Point.scale t ray.direction)).sub s.position).divide s.radius)
        (((ray.origin.add (Point.scale t ray.direction)).sub s.position).divide s.radius)
        = Point.dot ((ray.origin.add (Point.scale t ray.direction)).sub s.position)
            ((ray.origin.add (Point.scale t ray.direction)).sub s.position)
          / (s.radius * s.radius) := by
      simp only [Point.dot, Point.divide]
      field_simp
    rw [e, hdot, div_self (mul_ne_zero hne hne), Real.sqrt_one]

/-- C20: for a sphere of radius `r > 0` and a ray with unit direction and
`delta > PRECISION`, `Sphere.intersect` reports a hit; the hit point is at
distance `r` from the centre, the length is the distance of the hit point from
the ray origin, and the normal `(where − center)/r` has length exactly 1. -/
theorem Sphere.intersect_hit_on_sphere (s : Sphere ℝ) (ray : Ray ℝ) (hr : 0 < s.radius)
    (hdir : Point.dot ray.direction ray.direction = 1) (hdelta : PRECISION < s.delta ray) :
    ∃ i : Intersection ℝ, s.intersect Real.sqrt ray = Probe.real i ∧ i.length ≠ -1 ∧
      Line.length Real.sqrt ⟨i.where_, s.position⟩ = s.radius ∧
      i.length = Line.length Real.sqrt ⟨i.where_, ray.origin⟩ ∧
      i.normal = (i.where_.sub s.position).divide s.radius ∧
      Point.length Real.sqrt i.normal = 1 := by
  have hP := PRECISION_pos
  have hpos : 0 < s.delta ray := lt_trans hP hdelta
  have hsq : Real.sqrt (s.delta ray) * Real.sqrt (s.delta ray) = s.delta ray :=
    Real.mul_self_sqrt hpos.le
  have hroot0 := Sphere.hitAt_on_sphere s ray hr hdir (-(s.b ray) + Real.sqrt (s.delta ray))
    (by unfold Sphere.delta at hsq ⊢; nlinarith [hsq])
  have hroot1 := Sphere.hitAt_on_sphere s ray hr hdir (-(s.b ray) - Real.sqrt (s.delta ray))
    (by unfold Sphere.delta at hsq ⊢; nlinarith [hsq])
  -- the two roots are more than 2 * PRECISION apart
  have hsP : PRECISION < Real.sqrt (s.delta ray) := by
    by_contra h
    have h1 : Real.sqrt (s.delta ray) ≤ PRECISION := not_lt.mp h
    have h0 : 0 ≤ Real.sqrt (s.delta ray) := Real.sqrt_nonneg _
    have h2 : (PRECISION : ℝ) < 1 := by unfold PRECISION; norm_num
    nlinarith
  rw [Sphere.intersect_of_delta_pos s ray hdir hdelta]
  have hl0 : (s.hitAt ray (-(s.b ray) + Real.sqrt (s.delta ray))
      |-(s.b ray) + Real.sqrt (s.delta ray)|).length ≠ -1 := by
    show |-(s.b ray) + Real.sqrt (s.delta ray)| ≠ -1
    have := abs_nonneg (-(s.b ray) + Real.sqrt (s.delta ray)); linarith
  have hl1 : (s.hitAt ray (-(s.b ray) - Real.sqrt (s.delta ray))
      |-(s.b ray) - Real.sqrt (s.delta ray)|).length ≠ -1 := by
    show |-(s.b ray) - Real.sqrt (s.delta ray)| ≠ -1
    have := abs_nonneg (-(s.b ray) - Real.sqrt (s.delta ray)); linarith
  by_cases h0 : |-(s.b ray) + Real.sqrt (s.delta ray)| < PRECISION
  · have h1 : ¬ |-(s.b ray) - Real.sqrt (s.delta ray)| < PRECISION := by
      intro h1
      have a0 := abs_lt.mp h0
      have a1 := abs_lt.mp h1
      linarith [a0.2, a1.1]
    rw [if_pos h0, if_neg h1]
    exact ⟨_, rfl, hl1, hroot1⟩
  · rw [if_neg h0]
    by_cases h2 : |-(s.b ray) - Real.sqrt (s.delta ray)| < |-(s.b ray) + Real.sqrt (s.delta ray)|
    · rw [if_pos h2]; exact ⟨_, rfl, hl1, hroot1⟩
    · rw [if_neg h2]; exact ⟨_, rfl, hl0, hroot0⟩

/-- C20 at a concrete input: the unit sphere at the origin probed from (0,0,5)
along (0,0,-1), where `delta = 1`. -/
theorem Sphere.intersect_hit_on_sphere_witness :
    ∃ i : Intersection ℝ,
      (⟨⟨0, 0, 0⟩, ⟨0, 1, 0⟩, 0, 1⟩ : Sphere ℝ).intersect Real.sqrt ⟨⟨0, 0, 5⟩, ⟨0, 0, -1⟩, 100⟩
        = Probe.real i ∧ i.length ≠ -1 ∧
      Line.length Real.sqrt ⟨i.where_, (⟨0, 0, 0⟩ : Point ℝ)⟩ = 1 ∧
      i.length = Line.length Real.sqrt ⟨i.where_, (⟨0, 0, 5⟩ : Point ℝ)⟩ ∧
      i.normal = (i.where_.sub (⟨0, 0, 0⟩ : Point ℝ)).divide 1 ∧
      Point.length Real.sqrt i.normal = 1 :=
  Sphere.intersect_hit_on_sphere ⟨⟨0, 0, 0⟩, ⟨0, 1, 0⟩, 0, 1⟩ ⟨⟨0, 0, 5⟩, ⟨0, 0, -1⟩, 100⟩
    (by norm_num) (by norm_num [Point.dot])
    (by
      have : Sphere.delta (⟨⟨0, 0, 0⟩, ⟨0, 1, 0⟩, 0, 1⟩ : Sphere ℝ)
          ⟨⟨0, 0, 5⟩, ⟨0, 0, -1⟩, 100⟩ = 1 := by
        norm_num [Sphere.delta, Sphere.b, Point.dot, Point.sub]
      rw [this]; unfold PRECISION; norm_num)

/-! ## Consequences of the nearest-hit search for `shade` -/

/-- The result of `World::intersect` is either the untouched `Intersection()`
(index -1, where = (0,0,0)) or the Intersection of an object, with its index,
whose length is in `[0, ray.strength)`. -/
theorem World.intersect_cases (sqrt : α → α) (w : World α) (ray : Ray α) :
    w.intersect sqrt ray = ⟨Point.zero, Point.zero, -1, -1⟩ ∨
    ∃ (i : Nat) (o : Object α) (tmp : Intersection α), w.objects[i]? = some o ∧
      o.intersect sqrt ray = Probe.real tmp ∧ 0 ≤ tmp.length ∧ tmp.length < ray.strength ∧
      w.intersect sqrt ray = { tmp with index := (i : Int) } := by
  rcases World.intersectLoop_spec sqrt ray w.objects 0 ray.strength
    { (Intersection.new : Intersection α) with index := -1 } with ⟨hr, _⟩ | ⟨j, o, tmp, hj, hq, hr, _⟩
  · left; exact hr
  · right
    refine ⟨j, o, tmp, hj, hq.1, hq.2.1, hq.2.2, ?_⟩
    have : w.intersect sqrt ray = { tmp with index := ((0 + j : Nat) : Int) } := hr
    rw [this, Nat.zero_add]

/-- A hit of `World::intersect` (index ≥ 0) has a length in `[0, ray.strength)`. -/
theorem World.intersect_hit_length (sqrt : α → α) (w : World α) (ray : Ray α)
    (hidx : (w.intersect sqrt ray).index ≥ 0) :
    0 ≤ (w.intersect sqrt ray).length ∧ (w.intersect sqrt ray).length < ray.strength := by
  rcases World.intersect_cases sqrt w ray with h | ⟨i, o, tmp, _, _, h0, hd, h⟩
  · rw [h] at hidx; simp at hidx
  · rw [h]; exact ⟨h0, hd⟩

namespace RayTracer

/-- C11: when `shade` on a material with reflection coefficient `c` in (0,1)
recurses into a reflection, the ray of the recursive call has strength
`(parent strength − distance to the reflection hit) × c`, which is positive and
at most `parent strength × c`. -/
theorem bounce_strength_bound (sqrt : α → α) (pow : α → α → α) (w : World α) (ray : Ray α)
    (result : Intersection α) (M : Material α) (hM : materialOf w result = some M)
    (hc0 : 0 < M.reflection) (_hc1 : M.reflection < 1)
    (hidx : (w.intersect sqrt (reflectedRay sqrt ray result)).index ≥ 0)
    (hne : ¬ Point.eq (w.intersect sqrt (reflectedRay sqrt ray result)).where_ result.where_)
    (fuel : Nat) :
    shade sqrt pow w (fuel + 1) ray result =
      (match shade sqrt pow w fuel (bounce sqrt w ray result M)
          (w.intersect sqrt (reflectedRay sqrt ray result)) with
        | Except.ok v =>
          Except.ok (addLights sqrt pow w ray result M w.lights
            ((((M.color.times w.ambientIntensity).times M.ambient).times
              (1 - M.reflection)).add (Color.scale M.reflection v)))
        | Except.error e => Except.error e) ∧
    (bounce sqrt w ray result M).strength =
      (ray.strength - (w.intersect sqrt (reflectedRay sqrt ray result)).length) * M.reflection ∧
    0 < (bounce sqrt w ray result M).strength ∧
    (bounce sqrt w ray result M).strength ≤ ray.strength * M.reflection := by
  have hlen := World.intersect_hit_length sqrt w (reflectedRay sqrt ray result) hidx
  have hS : (reflectedRay sqrt ray result).strength = ray.strength := rfl
  rw [hS] at hlen
  have hb : (bounce sqrt w ray result M).strength =
      (ray.strength - (w.intersect sqrt (reflectedRay sqrt ray result)).length) * M.reflection :=
    rfl
  refine ⟨?_, hb, ?_, ?_⟩
  · rw [shade, hM]
    have hc : M.reflection > 0 := hc0
    simp only [hc, hidx, hne, if_true, not_false_eq_true]
    cases shade sqrt pow w fuel (bounce sqrt w ray result M)
      (w.intersect sqrt (reflectedRay sqrt ray result)) <;> rfl
  · rw [hb]; exact mul_pos (by linarith [hlen.2]) hc0
  · rw [hb]; exact mul_le_mul_of_nonneg_right (by linarith [hlen.1]) hc0.le

/-- C11 at a concrete input: the reflective cube of `Scene.lit`, shaded at
(0,0,1) for the ray from (0,0,3) of strength 10; the reflection hit is at
distance 4 and the recursive call gets strength 3. -/
theorem bounce_strength_bound_witness :
    (bounce Real.sqrt (Scene.lit : World ℝ) ⟨⟨0, 0, 3⟩, ⟨0, 0, -1⟩, 10⟩
        ⟨⟨0, 0, 1⟩, ⟨0, 0, 1⟩, 2, 0⟩ Scene.mirrorMaterial).strength =
      (10 - ((Scene.lit : World ℝ).intersect Real.sqrt (reflectedRay Real.sqrt
        ⟨⟨0, 0, 3⟩, ⟨0, 0, -1⟩, 10⟩ ⟨⟨0, 0, 1⟩, ⟨0, 0, 1⟩, 2, 0⟩)).length) *
        (Scene.mirrorMaterial : Material ℝ).reflection ∧
    0 < (bounce Real.sqrt (Scene.lit : World ℝ) ⟨⟨0, 0, 3⟩, ⟨0, 0, -1⟩, 10⟩
        ⟨⟨0, 0, 1⟩, ⟨0, 0, 1⟩, 2, 0⟩ Scene.mirrorMaterial).strength ∧
    (bounce Real.sqrt (Scene.lit : World ℝ) ⟨⟨0, 0, 3⟩, ⟨0, 0, -1⟩, 10⟩
        ⟨⟨0, 0, 1⟩, ⟨0, 0, 1⟩, 2, 0⟩ Scene.mirrorMaterial).strength ≤
      10 * (Scene.mirrorMaterial : Material ℝ).reflection :=
  (bounce_strength_bound Real.sqrt Real.rpow Scene.lit ⟨⟨0, 0, 3⟩, ⟨0, 0, -1⟩, 10⟩
    ⟨⟨0, 0, 1⟩, ⟨0, 0, 1⟩, 2, 0⟩ Scene.mirrorMaterial
    (by simp [materialOf, Scene.lit, Object.material, Scene.mirror])
    (by norm_num [Scene.mirrorMaterial]) (by norm_num [Scene.mirrorMaterial])
    (by rw [Scene.reflectedRay_at_P, Scene.intersect_reflected Scene.lit rfl]; norm_num)
    (by rw [Scene.reflectedRay_at_P, Scene.intersect_reflected Scene.lit rfl]
        norm_num [Point.eq, PRECISION])
    0).2

end RayTracer

namespace Scene

theorem farShadow_slab :
    ((slab : Cube ℝ).intersect Real.sqrt ⟨⟨0, 0, 10⟩, ⟨0, 0, -1⟩, 5⟩).where_ = ⟨0, 0, 0⟩ ∧
    ((slab : Cube ℝ).intersect Real.sqrt ⟨⟨0, 0, 10⟩, ⟨0, 0, -1⟩, 5⟩).normal = ⟨0, 0, 1⟩ ∧
    ((slab : Cube ℝ).intersect Real.sqrt ⟨⟨0, 0, 10⟩, ⟨0, 0, -1⟩, 5⟩).length = 10 := by
  have h := Cube.intersect_hit (slab : Cube ℝ) (by norm_num [slab])
    ⟨⟨0, 0, 10⟩, ⟨0, 0, -1⟩, 5⟩ (by norm_num [Point.dot]) Face.front
    (by
      norm_num [Cube.Accepted, Cube.planeParam, Cube.candidate, Cube.pivot, Cube.vertices,
        Face.normal, Point.dot, Point.sub, Point.add, Point.scale, PRECISION, abs_le, slab])
    (by
      intro g hg
      cases g <;> first
        | (left; rfl)
        | (right
           norm_num [Cube.planeParam, Cube.pivot, Cube.vertices, Face.normal, Point.dot,
             Point.sub, Point.add, slab]
           done)
        | (exfalso
           norm_num [Cube.Accepted, Cube.planeParam, Cube.candidate, Cube.pivot, Cube.vertices,
             Face.normal, Point.dot, Point.sub, Point.add, Point.scale, PRECISION, abs_le,
             slab] at hg))
  refine ⟨?_, ?_, ?_⟩
  · rw [h.1]
    norm_num [Cube.planeParam, Cube.candidate, Cube.pivot, Cube.vertices,
        Face.normal, Point.dot, Point.sub, Point.add, Point.scale, slab]
  · rw [h.2.1]; rfl
  · rw [h.2.2]
    norm_num [Cube.planeParam, Cube.candidate, Cube.pivot, Cube.vertices,
        Face.normal, Point.dot, Point.sub, Point.add, Point.scale, slab]

theorem primary_slab :
    ((slab : Cube ℝ).intersect Real.sqrt ⟨⟨0, 0, 3⟩, ⟨0, 0, -1⟩, 10⟩).where_ = ⟨0, 0, 0⟩ ∧
    ((slab : Cube ℝ).intersect Real.sqrt ⟨⟨0, 0, 3⟩, ⟨0, 0, -1⟩, 10⟩).normal = ⟨0, 0, 1⟩ ∧
    ((slab : Cube ℝ).intersect Real.sqrt ⟨⟨0, 0, 3⟩, ⟨0, 0, -1⟩, 10⟩).length = 3 := by
  have h := Cube.intersect_hit (slab : Cube ℝ) (by norm_num [slab])
    ⟨⟨0, 0, 3⟩, ⟨0, 0, -1⟩, 10⟩ (by norm_num [Point.dot]) Face.front
    (by
      norm_num [Cube.Accepted, Cube.planeParam, Cube.candidate, Cube.pivot, Cube.vertices,
        Face.normal, Point.dot, Point.sub, Point.add, Point.scale, PRECISION, abs_le, slab])
    (by
      intro g hg
      cases g <;> first
        | (left; rfl)
        | (right
           norm_num [Cube.planeParam, Cube.pivot, Cube.vertices, Face.normal, Point.dot,
             Point.sub, Point.add, slab]
           done)
        | (exfalso
           norm_num [Cube.Accepted, Cube.planeParam, Cube.candidate, Cube.pivot, Cube.vertices,
             Face.normal, Point.dot, Point.sub, Point.add, Point.scale, PRECISION, abs_le,
             slab] at hg))
  refine ⟨?_, ?_, ?_⟩
  · rw [h.1]
    norm_num [Cube.planeParam, Cube.candidate, Cube.pivot, Cube.vertices,
        Face.normal, Point.dot, Point.sub, Point.add, Point.scale, slab]
  · rw [h.2.1]; rfl
  · rw [h.2.2]
    norm_num [Cube.planeParam, Cube.candidate, Cube.pivot, Cube.vertices,
        Face.normal, Point.dot, Point.sub, Point.add, Point.scale, slab]

/-- The nearest hit of the ray from (0,0,3) along (0,0,-1) in `faint`: the
world origin, on the front face of the slab. -/
theorem intersect_primary_slab :
    (faint : World ℝ).intersect Real.sqrt ⟨⟨0, 0, 3⟩, ⟨0, 0, -1⟩, 10⟩
      = ⟨⟨0, 0, 0⟩, ⟨0, 0, 1⟩, 3, 0⟩ := by
  obtain ⟨h1, h2, h3⟩ := primary_slab
  unfold World.intersect
  simp only [faint, World.intersectLoop, Object.intersect, h1, h2, h3]
  norm_num

/-- The shadow ray from `farLamp` to the world origin. -/
theorem farShadowRay :
    (Line.mk (farLamp : Light ℝ).position ⟨0, 0, 0⟩).toRay Real.sqrt (farLamp : Light ℝ).intensity
      = ⟨⟨0, 0, 10⟩, ⟨0, 0, -1⟩, 5⟩ := by
  have h1 := (Point.unitary_of_length (⟨0, 0, -10⟩ : Point ℝ) 10 (by norm_num)
    (by norm_num [Point.dot])).2
  have h2 : (⟨0, 0, 0⟩ : Point ℝ).sub ⟨0, 0, 10⟩ = ⟨0, 0, -10⟩ := by
    simp only [Point.sub]; ext <;> norm_num
  simp only [Line.toRay, Line.direction, farLamp, h2, h1]
  norm_num [Point.divide]

/-- The shadow ray of `farLamp` toward the world origin finds no primitive: the
slab is at distance 10, beyond the strength 5 of the ray. -/
theorem intersect_farShadow :
    (faint : World ℝ).intersect Real.sqrt ⟨⟨0, 0, 10⟩, ⟨0, 0, -1⟩, 5⟩
      = ⟨⟨0, 0, 0⟩, ⟨0, 0, 0⟩, -1, -1⟩ := by
  obtain ⟨h1, h2, h3⟩ := farShadow_slab
  unfold World.intersect
  simp only [faint, World.intersectLoop, Object.intersect, h1, h2, h3, Intersection.new,
    Point.zero]
  norm_num

end Scene

namespace RayTracer

/-- C19, evaluated on the code: in `Scene.faint` the ray from (0,0,3) along
(0,0,-1) hits the front face of the slab at P, the world origin, and the light
is at distance 10 from P with intensity 5.  The shadow ray finds no primitive (index -1), and the
untouched `Intersection()` it returns has where = (0,0,0), which `shade`
compares with P: the test `isShadow.where == result.where` holds and the light
adds its diffuse term 1/20 per channel. -/
theorem lightTerm_of_missed_shadow_ray :
    (Scene.faint : World ℝ).intersect Real.sqrt ⟨⟨0, 0, 3⟩, ⟨0, 0, -1⟩, 10⟩
      = ⟨⟨0, 0, 0⟩, ⟨0, 0, 1⟩, 3, 0⟩ ∧
    ((Scene.faint : World ℝ).intersect Real.sqrt
      ((Line.mk (Scene.farLamp : Light ℝ).position ⟨0, 0, 0⟩).toRay Real.sqrt
        (Scene.farLamp : Light ℝ).intensity)).index = -1 ∧
    lightTerm Real.sqrt Real.rpow (Scene.faint : World ℝ) ⟨⟨0, 0, 3⟩, ⟨0, 0, -1⟩, 10⟩
      ⟨⟨0, 0, 0⟩, ⟨0, 0, 1⟩, 3, 0⟩ Scene.blockMaterial Scene.farLamp = ⟨1/20, 1/20, 1/20⟩ ∧
    shade Real.sqrt Real.rpow (Scene.faint : World ℝ) 1 ⟨⟨0, 0, 3⟩, ⟨0, 0, -1⟩, 10⟩
      ⟨⟨0, 0, 0⟩, ⟨0, 0, 1⟩, 3, 0⟩ = Except.ok ⟨21/20, 21/20, 21/20⟩ := by
  have hterm : lightTerm Real.sqrt Real.rpow (Scene.faint : World ℝ) ⟨⟨0, 0, 3⟩, ⟨0, 0, -1⟩, 10⟩
      ⟨⟨0, 0, 0⟩, ⟨0, 0, 1⟩, 3, 0⟩ Scene.blockMaterial Scene.farLamp = ⟨1/20, 1/20, 1/20⟩ := by
    have hsub : (Scene.farLamp : Light ℝ).position.sub ⟨0, 0, 0⟩ = ⟨0, 0, 10⟩ := by
      simp only [Point.sub, Scene.farLamp]; ext <;> norm_num
    obtain ⟨hlen, huni⟩ := Point.unitary_of_length (⟨0, 0, 10⟩ : Point ℝ) 10 (by norm_num)
      (by norm_num [Point.dot])
    have hrl : (Point.scale (2 * Point.dot (⟨0, 0, 1⟩ : Point ℝ) ((⟨0, 0, 10⟩ : Point ℝ).divide 10))
        ⟨0, 0, 1⟩).sub ((⟨0, 0, 10⟩ : Point ℝ).divide 10) = ⟨0, 0, 1⟩ := by
      simp only [Point.scale, Point.sub, Point.dot, Point.divide]
      ext <;> norm_num
    have hrlen := (Point.unitary_of_length (⟨0, 0, 1⟩ : Point ℝ) 1 (by norm_num)
      (by norm_num [Point.dot])).1
    have holen := (Point.unitary_of_length (⟨0, 0, 3⟩ : Point ℝ) 3 (by norm_num)
      (by norm_num [Point.dot])).1
    unfold lightTerm
    simp only [Scene.farShadowRay, Scene.intersect_farShadow, hsub, hlen, huni, hrl, hrlen, holen]
    rw [if_pos (by norm_num [Point.eq, PRECISION])]
    norm_num [Point.dot, Point.divide, Scene.blockMaterial, Scene.farLamp, black, Color.add,
      Color.mul, Color.scale]
  refine ⟨Scene.intersect_primary_slab, ?_, hterm, ?_⟩
  · rw [Scene.farShadowRay, Scene.intersect_farShadow]
  · have hM : materialOf (Scene.faint : World ℝ) ⟨⟨0, 0, 0⟩, ⟨0, 0, 1⟩, 3, 0⟩
        = some Scene.blockMaterial := by
      simp [materialOf, Scene.faint, Object.material, Scene.slab]
    rw [shade, hM]
    have hlights : (Scene.faint : World ℝ).lights = [Scene.farLamp] := rfl
    simp only [hlights, addLights, hterm]
    norm_num [Scene.blockMaterial, Scene.faint, Color.times, Color.add]

end RayTracer

/-! ## Termination of `shade` -/

theorem Line_length_comm (sqrt : α → α) (a b : Point α) :
    Line.length sqrt ⟨a, b⟩ = Line.length sqrt ⟨b, a⟩ := by
  unfold Line.length Line.toPoint Point.length
  congr 1
  simp only [Point.dot, Point.sub]; ring

/-- What `Cube::intersectPlane` keeps true of its in/out parameter: the length
is the sentinel -1 or the distance of the stored point from the ray origin. -/
theorem Cube.intersectPlane_length (sqrt : α → α) (c : Cube α) (pivot a b : Point α)
    (ray : Ray α) (i : Intersection α)
    (hi : i.length = -1 ∨ i.length = Line.length sqrt ⟨i.where_, ray.origin⟩) :
    (c.intersectPlane sqrt pivot a b ray i).length = -1 ∨
    (c.intersectPlane sqrt pivot a b ray i).length =
      Line.length sqrt ⟨(c.intersectPlane sqrt pivot a b ray i).where_, ray.origin⟩ := by
  unfold Cube.intersectPlane
  simp only
  split_ifs
  all_goals first
    | exact hi
    | (right; rfl)

theorem Cube.intersect_stores_distance (sqrt : α → α) (c : Cube α) (ray : Ray α) :
    (c.intersect sqrt ray).length = -1 ∨
    (c.intersect sqrt ray).length = Line.length sqrt ⟨(c.intersect sqrt ray).where_, ray.origin⟩ := by
  unfold Cube.intersect
  simp only
  repeat apply Cube.intersectPlane_length
  left; rfl

theorem Sphere.intersect_returns_distance (sqrt : α → α) (s : Sphere α) (ray : Ray α)
    (i : Intersection α) (h : s.intersect sqrt ray = Probe.real i) :
    i.length = -1 ∨ i.length = Line.length sqrt ⟨i.where_, ray.origin⟩ := by
  unfold Sphere.intersect at h
  simp only at h
  split_ifs at h
  all_goals
    cases h
    all_goals first
      | (left; rfl)
      | (right
         simp only [Fin.isValue, one_ne_zero, if_false, if_true]
         exact Line_length_comm sqrt _ _)

theorem Object.intersect_gives_distance (sqrt : α → α) (o : Object α) (ray : Ray α)
    (i : Intersection α) (h : o.intersect sqrt ray = Probe.real i) :
    i.length = -1 ∨ i.length = Line.length sqrt ⟨i.where_, ray.origin⟩ := by
  cases o with
  | cube c =>
    simp only [Object.intersect] at h
    injection h with h; subst h
    exact Cube.intersect_stores_distance sqrt c ray
  | sphere s => exact Sphere.intersect_returns_distance sqrt s ray i h

/-- The length of a hit of `World::intersect` is the distance of the hit point
from the ray origin. -/
theorem World.intersect_hit_distance (sqrt : α → α) (w : World α) (ray : Ray α)
    (hidx : (w.intersect sqrt ray).index ≥ 0) :
    (w.intersect sqrt ray).length =
      Line.length sqrt ⟨(w.intersect sqrt ray).where_, ray.origin⟩ := by
  rcases World.intersect_cases sqrt w ray with h | ⟨i, o, tmp, _, ho, h0, _, h⟩
  · rw [h] at hidx; simp at hidx
  · rw [h]
    rcases Object.intersect_gives_distance sqrt o ray tmp ho with hl | hl
    · rw [hl] at h0; norm_num at h0
    · exact hl

/-- Two points that `operator==` tells apart are at least PRECISION apart. -/
theorem Line_length_ge_of_not_eq (a b : Point ℝ) (h : ¬ Point.eq a b) :
    PRECISION ≤ Line.length Real.sqrt ⟨a, b⟩ := by
  unfold Line.length Line.toPoint Point.length
  have hx : |a.x - b.x| ≤ Real.sqrt (Point.dot (a.sub b) (a.sub b)) := by
    apply Real.abs_le_sqrt
    simp only [Point.dot, Point.sub]
    nlinarith [mul_self_nonneg (a.y - b.y), mul_self_nonneg (a.z - b.z)]
  have hy : |a.y - b.y| ≤ Real.sqrt (Point.dot (a.sub b) (a.sub b)) := by
    apply Real.abs_le_sqrt
    simp only [Point.dot, Point.sub]
    nlinarith [mul_self_nonneg (a.x - b.x), mul_self_nonneg (a.z - b.z)]
  have hz : |a.z - b.z| ≤ Real.sqrt (Point.dot (a.sub b) (a.sub b)) := by
    apply Real.abs_le_sqrt
    simp only [Point.dot, Point.sub]
    nlinarith [mul_self_nonneg (a.x - b.x), mul_self_nonneg (a.y - b.y)]
  by_contra hlt
  have hlt' := not_le.mp hlt
  exact h ⟨lt_of_le_of_lt hx hlt', lt_of_le_of_lt hy hlt', lt_of_le_of_lt hz hlt'⟩

namespace RayTracer

omit [LinearOrderedField α] in
theorem materialOf_mem (w : World α) (result : Intersection α) (M : Material α)
    (h : materialOf w result = some M) : M ∈ w.materials := by
  unfold materialOf at h
  split_ifs at h
  split at h
  · exact absurd h (by simp)
  · split_ifs at h
    exact List.getElem?_mem h

/-- The conditions under which `shade` recurses, for a reflection coefficient
in (0,1]: the reflection hit is at a distance `L` with `PRECISION ≤ L < S`, and
the recursive call gets a strength of at most `S − PRECISION`. -/
theorem recursion_step (w : World ℝ) (ray : Ray ℝ) (result : Intersection ℝ) (M : Material ℝ)
    (hc0 : M.reflection > 0) (hc1 : M.reflection ≤ 1)
    (hidx : (w.intersect Real.sqrt (reflectedRay Real.sqrt ray result)).index ≥ 0)
    (hne : ¬ Point.eq (w.intersect Real.sqrt (reflectedRay Real.sqrt ray result)).where_
      result.where_) :
    PRECISION ≤ (w.intersect Real.sqrt (reflectedRay Real.sqrt ray result)).length ∧
    (w.intersect Real.sqrt (reflectedRay Real.sqrt ray result)).length < ray.strength ∧
    (bounce Real.sqrt w ray result M).strength =
      (ray.strength - (w.intersect Real.sqrt (reflectedRay Real.sqrt ray result)).length)
        * M.reflection ∧
    0 < (bounce Real.sqrt w ray result M).strength ∧
    (bounce Real.sqrt w ray result M).strength ≤ ray.strength - PRECISION := by
  have hlen := World.intersect_hit_length Real.sqrt w (reflectedRay Real.sqrt ray result) hidx
  have hS : (reflectedRay Real.sqrt ray result).strength = ray.strength := rfl
  have hO : (reflectedRay Real.sqrt ray result).origin = result.where_ := rfl
  rw [hS] at hlen
  have hdist := World.intersect_hit_distance Real.sqrt w (reflectedRay Real.sqrt ray result) hidx
  rw [hO] at hdist
  have hL : PRECISION ≤ (w.intersect Real.sqrt (reflectedRay Real.sqrt ray result)).length := by
    rw [hdist]; exact Line_length_ge_of_not_eq _ _ hne
  have hb : (bounce Real.sqrt w ray result M).strength =
      (ray.strength - (w.intersect Real.sqrt (reflectedRay Real.sqrt ray result)).length)
        * M.reflection := rfl
  refine ⟨hL, hlen.2, hb, ?_, ?_⟩
  · rw [hb]; exact mul_pos (by linarith [hlen.2]) hc0
  · rw [hb]
    have : (ray.strength - (w.intersect Real.sqrt (reflectedRay Real.sqrt ray result)).length)
        * M.reflection ≤
        (ray.strength - (w.intersect Real.sqrt (reflectedRay Real.sqrt ray result)).length) * 1 :=
      mul_le_mul_of_nonneg_left hc1 (by linarith [hlen.2])
    linarith

theorem shade_succ (sqrt : α → α) (pow : α → α → α) (w : World α) (fuel : Nat)
    (ray : Ray α) (result : Intersection α) :
    shade sqrt pow w (fuel + 1) ray result =
      shadeStep sqrt pow w (shade sqrt pow w fuel) ray result := by
  rw [shade]; rfl

/-- The body of `shade` looks at its recursive call only when it recurses, and
passes an error of the recursive call on unchanged. -/
theorem shadeStep_congr (sqrt : α → α) (pow : α → α → α) (w : World α)
    (r1 r2 : Ray α → Intersection α → Except ShadeError (Color α))
    (ray : Ray α) (result : Intersection α)
    (h : ∀ M, materialOf w result = some M → M.reflection > 0 →
      (w.intersect sqrt (reflectedRay sqrt ray result)).index ≥ 0 →
      ¬ Point.eq (w.intersect sqrt (reflectedRay sqrt ray result)).where_ result.where_ →
      r2 (bounce sqrt w ray result M) (w.intersect sqrt (reflectedRay sqrt ray result)) =
        r1 (bounce sqrt w ray result M) (w.intersect sqrt (reflectedRay sqrt ray result))) :
    shadeStep sqrt pow w r2 ray result = shadeStep sqrt pow w r1 ray result := by
  unfold shadeStep
  cases hM : materialOf w result with
  | none => rfl
  | some M =>
    simp only
    by_cases hc : M.reflection > 0
    · by_cases hi : (w.intersect sqrt (reflectedRay sqrt ray result)).index ≥ 0
      · by_cases he : Point.eq (w.intersect sqrt (reflectedRay sqrt ray result)).where_
            result.where_
        · simp only [hc, hi, he, if_true, not_true_eq_false, if_false]
        · simp only [hc, hi, he, if_true, not_false_eq_true]
          rw [h M hM hc hi he]
      · simp only [hc, hi, if_true, if_false]
    · simp only [hc, if_false]

theorem shadeStep_outOfFuel (sqrt : α → α) (pow : α → α → α) (w : World α)
    (r : Ray α → Intersection α → Except ShadeError (Color α))
    (ray : Ray α) (result : Intersection α)
    (h : shadeStep sqrt pow w r ray result = Except.error ShadeError.outOfFuel) :
    ∃ M, materialOf w result = some M ∧ M.reflection > 0 ∧
      (w.intersect sqrt (reflectedRay sqrt ray result)).index ≥ 0 ∧
      ¬ Point.eq (w.intersect sqrt (reflectedRay sqrt ray result)).where_ result.where_ ∧
      r (bounce sqrt w ray result M) (w.intersect sqrt (reflectedRay sqrt ray result)) =
        Except.error ShadeError.outOfFuel := by
  unfold shadeStep at h
  cases hM : materialOf w result with
  | none => rw [hM] at h; simp at h
  | some M =>
    rw [hM] at h
    simp only at h
    by_cases hc : M.reflection > 0
    · by_cases hi : (w.intersect sqrt (reflectedRay sqrt ray result)).index ≥ 0
      · by_cases he : Point.eq (w.intersect sqrt (reflectedRay sqrt ray result)).where_
            result.where_
        · simp [hc, hi, he] at h
        · refine ⟨M, rfl, hc, hi, he, ?_⟩
          simp only [hc, hi, he, if_true, not_false_eq_true] at h
          cases hr : r (bounce sqrt w ray result M)
              (w.intersect sqrt (reflectedRay sqrt ray result)) with
          | ok v => rw [hr] at h; simp at h
          | error e =>
            rw [hr] at h
            simp only at h
            injection h with h
            rw [h]
      · simp [hc, hi] at h
    · simp [hc] at h

/-- More budget does not change a result of `shade` that is not `outOfFuel`. -/
theorem shade_fuel_succ (sqrt : α → α) (pow : α → α → α) (w : World α) :
    ∀ (fuel : Nat) (ray : Ray α) (result : Intersection α),
      shade sqrt pow w fuel ray result ≠ Except.error ShadeError.outOfFuel →
      shade sqrt pow w (fuel + 1) ray result = shade sqrt pow w fuel ray result := by
  intro fuel
  induction fuel with
  | zero => intro ray result h; exact absurd (by rw [shade]) h
  | succ f ih =>
    intro ray result h
    rw [shade_succ sqrt pow w (f + 1), shade_succ sqrt pow w f] at *
    apply shadeStep_congr
    intro M hM hc hi he
    apply ih
    intro hout
    apply h
    unfold shadeStep
    simp only [hM, hc, hi, he, if_true, not_false_eq_true, hout]

theorem shade_fuel_le (sqrt : α → α) (pow : α → α → α) (w : World α) (n : Nat)
    (ray : Ray α) (result : Intersection α)
    (h : shade sqrt pow w n ray result ≠ Except.error ShadeError.outOfFuel) :
    ∀ fuel, n ≤ fuel → shade sqrt pow w fuel ray result = shade sqrt pow w n ray result := by
  intro fuel hle
  induction fuel with
  | zero =>
    have : n = 0 := Nat.le_zero.mp hle
    subst this; rfl
  | succ f ih =>
    by_cases hn : n = f + 1
    · subst hn; rfl
    · have hle' : n ≤ f := by omega
      have := ih hle'
      rw [shade_fuel_succ sqrt pow w f ray result (by rw [this]; exact h), this]

/-- A ray of strength below `PRECISION × (n+1)` is shaded within the budget
`n+1`, when no reflection coefficient exceeds 1. -/
theorem shade_within_budget (pow : ℝ → ℝ → ℝ) (w : World ℝ)
    (hrefl : ∀ m ∈ w.materials, m.reflection ≤ 1) :
    ∀ (n : Nat) (ray : Ray ℝ) (result : Intersection ℝ),
      ray.strength < PRECISION * (n + 1) →
      shade Real.sqrt pow w (n + 1) ray result ≠ Except.error ShadeError.outOfFuel := by
  intro n
  induction n with
  | zero =>
    intro ray result hS hout
    rw [shade_succ] at hout
    obtain ⟨M, hM, hc, hi, he, _⟩ := shadeStep_outOfFuel _ _ _ _ _ _ hout
    have hstep := recursion_step w ray result M hc (hrefl M (materialOf_mem w result M hM)) hi he
    simp only [Nat.cast_zero, zero_add, mul_one] at hS
    linarith [hstep.1, hstep.2.1]
  | succ k ih =>
    intro ray result hS hout
    rw [shade_succ] at hout
    obtain ⟨M, hM, hc, hi, he, hrec⟩ := shadeStep_outOfFuel _ _ _ _ _ _ hout
    have hstep := recursion_step w ray result M hc (hrefl M (materialOf_mem w result M hM)) hi he
    refine ih (bounce Real.sqrt w ray result M)
      (w.intersect Real.sqrt (reflectedRay Real.sqrt ray result)) ?_ hrec
    have h5 := hstep.2.2.2.2
    push_cast at hS ⊢
    linarith

/-- C17: `shade` terminates without a depth counter.  In a scene of spheres and
cubes whose reflection coefficients are at most 1, for a ray of strength `S`:
with any budget of at least `⌊S / PRECISION⌋ + 1` nested calls `shade` does not
run out of budget and returns what it returns with exactly that budget.  A
recursive call is made only for a reflection hit at a distance `L` with
`PRECISION ≤ L < S`, and its ray has strength `(S − L) × c ≤ S − PRECISION`. -/
theorem shade_terminates (pow : ℝ → ℝ → ℝ) (w : World ℝ)
    (hrefl : ∀ m ∈ w.materials, m.reflection ≤ 1) (ray : Ray ℝ) (result : Intersection ℝ) :
    (∀ fuel : Nat, Nat.floor (ray.strength / PRECISION) + 1 ≤ fuel →
      shade Real.sqrt pow w fuel ray result ≠ Except.error ShadeError.outOfFuel ∧
      shade Real.sqrt pow w fuel ray result =
        shade Real.sqrt pow w (Nat.floor (ray.strength / PRECISION) + 1) ray result) ∧
    (∀ M : Material ℝ, materialOf w result = some M → M.reflection > 0 →
      (w.intersect Real.sqrt (reflectedRay Real.sqrt ray result)).index ≥ 0 →
      ¬ Point.eq (w.intersect Real.sqrt (reflectedRay Real.sqrt ray result)).where_
        result.where_ →
      PRECISION ≤ (w.intersect Real.sqrt (reflectedRay Real.sqrt ray result)).length ∧
      (w.intersect Real.sqrt (reflectedRay Real.sqrt ray result)).length < ray.strength ∧
      (bounce Real.sqrt w ray result M).strength =
        (ray.strength - (w.intersect Real.sqrt (reflectedRay Real.sqrt ray result)).length)
          * M.reflection ∧
      (bounce Real.sqrt w ray result M).strength ≤ ray.strength - PRECISION) := by
  have hP := PRECISION_pos
  have hS : ray.strength < PRECISION * ((Nat.floor (ray.strength / PRECISION) : ℝ) + 1) := by
    have h1 := Nat.lt_floor_add_one (ray.strength / PRECISION)
    have h2 := (div_lt_iff₀ hP).mp h1
    linarith
  have hbase := shade_within_budget pow w hrefl (Nat.floor (ray.strength / PRECISION)) ray result hS
  constructor
  · intro fuel hle
    have heq := shade_fuel_le Real.sqrt pow w _ ray result hbase fuel hle
    exact ⟨by rw [heq]; exact hbase, heq⟩
  · intro M hM hc hi he
    have hstep := recursion_step w ray result M hc (hrefl M (materialOf_mem w result M hM)) hi he
    exact ⟨hstep.1, hstep.2.1, hstep.2.2.1, hstep.2.2.2.2⟩

/-- C17 at a concrete input: the scene `Scene.lit` (reflection coefficients 1/2
and 0), the ray from (0,0,3) of strength 10 and its hit at (0,0,1). -/
theorem shade_terminates_witness :
    shade Real.sqrt Real.rpow (Scene.lit : World ℝ)
        (Nat.floor ((⟨⟨0, 0, 3⟩, ⟨0, 0, -1⟩, 10⟩ : Ray ℝ).strength / PRECISION) + 1 + 5)
        ⟨⟨0, 0, 3⟩, ⟨0, 0, -1⟩, 10⟩ ⟨⟨0, 0, 1⟩, ⟨0, 0, 1⟩, 2, 0⟩
      ≠ Except.error ShadeError.outOfFuel ∧
    shade Real.sqrt Real.rpow (Scene.lit : World ℝ)
        (Nat.floor ((⟨⟨0, 0, 3⟩, ⟨0, 0, -1⟩, 10⟩ : Ray ℝ).strength / PRECISION) + 1 + 5)
        ⟨⟨0, 0, 3⟩, ⟨0, 0, -1⟩, 10⟩ ⟨⟨0, 0, 1⟩, ⟨0, 0, 1⟩, 2, 0⟩ =
      shade Real.sqrt Real.rpow (Scene.lit : World ℝ)
        (Nat.floor ((⟨⟨0, 0, 3⟩, ⟨0, 0, -1⟩, 10⟩ : Ray ℝ).strength / PRECISION) + 1)
        ⟨⟨0, 0, 3⟩, ⟨0, 0, -1⟩, 10⟩ ⟨⟨0, 0, 1⟩, ⟨0, 0, 1⟩, 2, 0⟩ :=
  (shade_terminates Real.rpow (Scene.lit : World ℝ)
    (by
      intro m hm
      simp only [Scene.lit, List.mem_cons, List.mem_singleton, List.not_mem_nil, or_false] at hm
      rcases hm with h | h <;> rw [h] <;> norm_num [Scene.mirrorMaterial, Scene.blockMaterial])
    ⟨⟨0, 0, 3⟩, ⟨0, 0, -1⟩, 10⟩ ⟨⟨0, 0, 1⟩, ⟨0, 0, 1⟩, 2, 0⟩).1 _ (Nat.le_add_right _ 5)

end RayTracer

/-! ## The renderer: `prerender` and `render` -/

theorem map_range_getElem {β : Type} (g : Nat → β) :
    ∀ (n s k : Nat), k < n → ((List.range' s n).map g)[k]? = some (g (s + k)) := by
  intro n
  induction n with
  | zero => intro s k hk; exact absurd hk (Nat.not_lt_zero k)
  | succ n ih =>
    intro s k hk
    cases k with
    | zero => simp [List.range']
    | succ k =>
      have := ih (s + 1) k (Nat.lt_of_succ_lt_succ hk)
      rw [show s + 1 + k = s + (k + 1) by omega] at this
      simpa [List.range'] using this

theorem forEach_ok {ε β : Type} (f : Nat → Except ε β) (g : Nat → β) :
    ∀ (count start : Nat), (∀ k, k < count → f (start + k) = Except.ok (g (start + k))) →
      forEach f count start = Except.ok ((List.range' start count).map g) := by
  intro count
  induction count with
  | zero => intro start _; rfl
  | succ n ih =>
    intro start h
    have hbs := ih (start + 1) (fun k hk => by
      have := h (k + 1) (Nat.succ_lt_succ hk)
      rw [show start + 1 + k = start + (k + 1) by omega]; exact this)
    have h0 := h 0 (Nat.succ_pos n)
    rw [Nat.add_zero] at h0
    rw [forEach, h0, hbs]
    simp [List.range']

namespace RayTracer

/-- The sample loop adds the sample colours `c_k, c_{k+1}, ...` to `acc`, as long
as the offsets are in the tables and the calls of `shade` return. -/
theorem sampleLoop_sum (sqrt : α → α) (pow : α → α → α) (fuel : Nat) (rt : RayTracer α)
    (world : World α) (xs ys : List α) (i j : Nat) :
    ∀ (count k : Nat) (acc : Color α), k + count ≤ xs.length → k + count ≤ ys.length →
      (∀ m, m < count →
        (world.intersect sqrt (getRay sqrt rt ((i : α) + xs.getD (k + m) 0)
          ((j : α) + ys.getD (k + m) 0))).index ≥ 0 →
        ∃ c, shade sqrt pow world fuel
          (getRay sqrt rt ((i : α) + xs.getD (k + m) 0) ((j : α) + ys.getD (k + m) 0))
          (world.intersect sqrt (getRay sqrt rt ((i : α) + xs.getD (k + m) 0)
            ((j : α) + ys.getD (k + m) 0))) = Except.ok c) →
      sampleLoop sqrt pow fuel rt world xs ys i j count k acc =
        Except.ok
          ⟨acc.red + Finset.sum (Finset.range count)
              (fun m => (sampleColor sqrt pow fuel rt world xs ys i j (k + m)).red),
           acc.green + Finset.sum (Finset.range count)
              (fun m => (sampleColor sqrt pow fuel rt world xs ys i j (k + m)).green),
           acc.blue + Finset.sum (Finset.range count)
              (fun m => (sampleColor sqrt pow fuel rt world xs ys i j (k + m)).blue)⟩ := by
  intro count
  induction count with
  | zero => intro k acc _ _ _; simp [sampleLoop]
  | succ n ih =>
    intro k acc hx hy hs
    have hkx : k < xs.length := by omega
    have hky : k < ys.length := by omega
    have hgx : xs[k]? = some (xs.getD k 0) := by
      rw [List.getD_eq_getElem?_getD, List.getElem?_eq_getElem hkx]; rfl
    have hgy : ys[k]? = some (ys.getD k 0) := by
      rw [List.getD_eq_getElem?_getD, List.getElem?_eq_getElem hky]; rfl
    have hrest := fun acc' => ih (k + 1) acc' (by omega) (by omega) (fun m hm => by
      have := hs (m + 1) (Nat.succ_lt_succ hm)
      rw [show k + 1 + m = k + (m + 1) by omega]; exact this)
    have hshift : ∀ f : Nat → α, Finset.sum (Finset.range (n + 1)) (fun m => f (k + m))
        = f k + Finset.sum (Finset.range n) (fun m => f (k + 1 + m)) := by
      intro f
      rw [Finset.sum_range_succ' (fun m => f (k + m)) n, add_comm]
      simp only [Nat.add_zero]
      congr 1
      apply Finset.sum_congr rfl
      intro m _
      rw [show k + (m + 1) = k + 1 + m by omega]
    rw [sampleLoop, hgx, hgy]
    simp only
    have h0 := hs 0 (Nat.succ_pos n)
    simp only [Nat.add_zero] at h0
    by_cases hidx : (world.intersect sqrt (getRay sqrt rt ((i : α) + xs.getD k 0)
        ((j : α) + ys.getD k 0))).index ≥ 0
    · obtain ⟨c, hc⟩ := h0 hidx
      have hcol : sampleColor sqrt pow fuel rt world xs ys i j k = c := by
        unfold sampleColor
        simp only [hidx, if_true, hc]
      rw [if_pos hidx, hc]
      simp only
      rw [hrest (acc.add c)]
      simp only [hshift (fun m => (sampleColor sqrt pow fuel rt world xs ys i j m).red),
        hshift (fun m => (sampleColor sqrt pow fuel rt world xs ys i j m).green),
        hshift (fun m => (sampleColor sqrt pow fuel rt world xs ys i j m).blue), hcol,
        Color.add, add_assoc]
    · have hcol : sampleColor sqrt pow fuel rt world xs ys i j k = black := by
        unfold sampleColor
        simp only [hidx, if_false]
      rw [if_neg hidx, hrest acc]
      simp only [hshift (fun m => (sampleColor sqrt pow fuel rt world xs ys i j m).red),
        hshift (fun m => (sampleColor sqrt pow fuel rt world xs ys i j m).green),
        hshift (fun m => (sampleColor sqrt pow fuel rt world xs ys i j m).blue), hcol,
        black, zero_add]

theorem Sampling_ys_length (f : Sampling.format) :
    (Sampling.ys f : List α).length = (Sampling.xs f : List α).length := by
  cases f <;> rfl

theorem prerender_eq_prerenderWith (sqrt : α → α) (pow : α → α → α) (fuel : Nat)
    (rt : RayTracer α) (world : World α) :
    prerender sqrt pow fuel rt world =
      prerenderWith sqrt pow fuel rt world (Sampling.xs rt.format) (Sampling.ys rt.format) := by
  unfold prerender
  cases rt.format <;> rfl

/-- The cells computed by `prerender`: for a sample count `n` with
`1 ≤ n ≤` the length of the pattern's table, when the calls of `shade` for the
samples that hit return, `prerender` returns with the dirty flag cleared and
every buffer cell `(i, j)` equal to `sampleMean`, the mean of the sample
colours; a pixel all of whose samples miss is black; every offset index used
is within the table. -/
theorem prerender_cells (sqrt : α → α) (pow : α → α → α) (fuel : Nat) (rt : RayTracer α)
    (world : World α) (n : Nat) (hn1 : 1 ≤ n)
    (hn2 : n ≤ (Sampling.xs rt.format : List α).length) (hs : rt.sampling = (n : Int))
    (hshade : ∀ i j k : Nat, i < rt.width → j < rt.height → k < n →
      (world.intersect sqrt (getRay sqrt rt
        ((i : α) + (Sampling.xs rt.format : List α).getD k 0)
        ((j : α) + (Sampling.ys rt.format : List α).getD k 0))).index ≥ 0 →
      ∃ c, shade sqrt pow world fuel
        (getRay sqrt rt ((i : α) + (Sampling.xs rt.format : List α).getD k 0)
          ((j : α) + (Sampling.ys rt.format : List α).getD k 0))
        (world.intersect sqrt (getRay sqrt rt
          ((i : α) + (Sampling.xs rt.format : List α).getD k 0)
          ((j : α) + (Sampling.ys rt.format : List α).getD k 0))) = Except.ok c) :
    ∃ rt' : RayTracer α, prerender sqrt pow fuel rt world = Except.ok rt' ∧
      rt'.changed = false ∧
      (∀ i j : Nat, i < rt.width → j < rt.height →
        ∃ row, rt'.buffer[i]? = some row ∧
          row[j]? = some (sampleMean sqrt pow fuel rt world (Sampling.xs rt.format)
            (Sampling.ys rt.format) n i j)) ∧
      (∀ i j : Nat, i < rt.width → j < rt.height →
        (∀ k : Nat, k < n →
          (world.intersect sqrt (getRay sqrt rt
            ((i : α) + (Sampling.xs rt.format : List α).getD k 0)
            ((j : α) + (Sampling.ys rt.format : List α).getD k 0))).index < 0) →
        ∃ row, rt'.buffer[i]? = some row ∧ row[j]? = some black) ∧
      (∀ k : Nat, k < n → ∃ dx dy : α,
        (Sampling.xs rt.format : List α)[k]? = some dx ∧
        (Sampling.ys rt.format : List α)[k]? = some dy) := by
  have hn0 : (n : α) ≠ 0 := by
    have : (0 : α) < (n : α) := by exact_mod_cast hn1
    exact ne_of_gt this
  have hylen := Sampling_ys_length (α := α) rt.format
  have hpix : ∀ i j : Nat, i < rt.width → j < rt.height →
      pixel sqrt pow fuel rt world (Sampling.xs rt.format) (Sampling.ys rt.format) i j =
        Except.ok (sampleMean sqrt pow fuel rt world (Sampling.xs rt.format)
          (Sampling.ys rt.format) n i j) := by
    intro i j hi hj
    have hloop := sampleLoop_sum sqrt pow fuel rt world (Sampling.xs rt.format)
      (Sampling.ys rt.format) i j n 0 black (by omega) (by omega)
      (fun m hm => by
        simp only [Nat.zero_add]
        exact hshade i j m hi hj hm)
    unfold pixel
    have htoNat : rt.sampling.toNat = n := by rw [hs]; exact Int.toNat_natCast n
    have hcast : (rt.sampling : α) = (n : α) := by rw [hs]; exact Int.cast_natCast n
    rw [htoNat, hloop, hcast]
    simp only [Nat.zero_add, black, zero_add, Color.times, sampleMean]
    congr 1
    ext <;> simp only <;> ring
  have hrow : ∀ i : Nat, i < rt.width →
      forEach (fun j => pixel sqrt pow fuel rt world (Sampling.xs rt.format)
        (Sampling.ys rt.format) i j) rt.height 0 =
      Except.ok ((List.range' 0 rt.height).map (fun j =>
        sampleMean sqrt pow fuel rt world (Sampling.xs rt.format)
          (Sampling.ys rt.format) n i j)) := by
    intro i hi
    apply forEach_ok
    intro k hk
    simp only [Nat.zero_add]
    exact hpix i k hi hk
  have hrows := forEach_ok
    (fun i => forEach (fun j => pixel sqrt pow fuel rt world (Sampling.xs rt.format)
      (Sampling.ys rt.format) i j) rt.height 0)
    (fun i => (List.range' 0 rt.height).map (fun j =>
        sampleMean sqrt pow fuel rt world (Sampling.xs rt.format)
          (Sampling.ys rt.format) n i j))
    rt.width 0 (fun k hk => by
      simp only [Nat.zero_add]
      exact hrow k hk)
  have hcell : ∀ i j : Nat, i < rt.width → j < rt.height →
      ∃ row, ((List.range' 0 rt.width).map (fun i => (List.range' 0 rt.height).map (fun j =>
        sampleMean sqrt pow fuel rt world (Sampling.xs rt.format)
          (Sampling.ys rt.format) n i j)))[i]? = some row ∧
        row[j]? = some (sampleMean sqrt pow fuel rt world (Sampling.xs rt.format)
            (Sampling.ys rt.format) n i j) := by
    intro i j hi hj
    refine ⟨(List.range' 0 rt.height).map (fun j =>
        sampleMean sqrt pow fuel rt world (Sampling.xs rt.format)
          (Sampling.ys rt.format) n i j), ?_, ?_⟩
    · have := map_range_getElem (fun i => (List.range' 0 rt.height).map (fun j =>
        sampleMean sqrt pow fuel rt world (Sampling.xs rt.format)
          (Sampling.ys rt.format) n i j)) rt.width 0 i hi
      rw [Nat.zero_add] at this
      exact this
    · have := map_range_getElem (fun j =>
        sampleMean sqrt pow fuel rt world (Sampling.xs rt.format)
          (Sampling.ys rt.format) n i j) rt.height 0 j hj
      rw [Nat.zero_add] at this
      exact this
  refine ⟨{ rt with
      buffer := (List.range' 0 rt.width).map (fun i => (List.range' 0 rt.height).map (fun j =>
        sampleMean sqrt pow fuel rt world (Sampling.xs rt.format)
          (Sampling.ys rt.format) n i j)),
      changed := false }, ?_, ?_, ?_, ?_, ?_⟩
  · rw [prerender_eq_prerenderWith]
    unfold prerenderWith
    rw [hrows]
  · rfl
  · intro i j hi hj
    exact hcell i j hi hj
  · intro i j hi hj hmiss
    obtain ⟨row, h1, h2⟩ := hcell i j hi hj
    refine ⟨row, h1, ?_⟩
    rw [h2]
    have hzero : ∀ k ∈ Finset.range n, sampleColor sqrt pow fuel rt world
        (Sampling.xs rt.format) (Sampling.ys rt.format) i j k = black := by
      intro k hk
      have hlt := hmiss k (Finset.mem_range.mp hk)
      unfold sampleColor
      simp only [not_le.mpr hlt, if_false]
    unfold sampleMean
    rw [Finset.sum_eq_zero (fun k hk => by rw [hzero k hk]; rfl),
      Finset.sum_eq_zero (fun k hk => by rw [hzero k hk]; rfl),
      Finset.sum_eq_zero (fun k hk => by rw [hzero k hk]; rfl)]
    simp [black]
  · intro k hk
    have hkx : k < (Sampling.xs rt.format : List α).length := by omega
    have hky : k < (Sampling.ys rt.format : List α).length := by omega
    exact ⟨_, _, List.getElem?_eq_getElem hkx, List.getElem?_eq_getElem hky⟩

theorem prerender_clears_flag (sqrt : α → α) (pow : α → α → α) (fuel : Nat)
    (rt rt1 : RayTracer α) (world : World α)
    (h : prerender sqrt pow fuel rt world = Except.ok rt1) : rt1.changed = false := by
  rw [prerender_eq_prerenderWith] at h
  unfold prerenderWith at h
  split at h
  · injection h with h; rw [← h]
  · exact absurd h (by simp)

/-- C13: `render` recomputes the buffer only when the dirty flag is set (it is
then the result of `prerender`), and after a `render` that returned the flag is
clear: a second `render`, for any scene and any budget, returns the same state,
buffer included, without recomputing.  `changeCamera` and `refresh` set the
flag again. -/
theorem render_twice (sqrt : α → α) (pow : α → α → α) (fuel : Nat) (rt rt1 : RayTracer α)
    (world : World α) (h : render sqrt pow fuel rt world = Except.ok rt1) :
    rt1.changed = false ∧
    (∀ (fuel' : Nat) (world' : World α),
      render sqrt pow fuel' rt1 world' = Except.ok rt1) ∧
    (∀ rt2 : RayTracer α, render sqrt pow fuel rt1 world = Except.ok rt2 →
      rt2.buffer = rt1.buffer) ∧
    (rt.changed = false → rt1 = rt) ∧
    (rt.changed = true → prerender sqrt pow fuel rt world = Except.ok rt1) ∧
    (∀ (c : Camera α) (u : α → α → α → Point α), (changeCamera c u rt1).changed = true) ∧
    (∀ (width height : Nat) (u : α → α → α → Point α),
      (refresh width height u rt1).changed = true) := by
  have hflag : rt1.changed = false := by
    unfold render at h
    by_cases hc : rt.changed = true
    · rw [if_pos hc] at h
      exact prerender_clears_flag sqrt pow fuel rt rt1 world h
    · rw [if_neg hc] at h
      injection h with h
      rw [← h]
      simpa using hc
  have hsecond : ∀ (fuel' : Nat) (world' : World α),
      render sqrt pow fuel' rt1 world' = Except.ok rt1 := by
    intro fuel' world'
    unfold render
    simp [hflag]
  refine ⟨hflag, hsecond, ?_, ?_, ?_, ?_, ?_⟩
  · intro rt2 h2
    rw [hsecond fuel world] at h2
    injection h2 with h2
    rw [h2]
  · intro hc
    unfold render at h
    simp only [hc, Bool.false_eq_true, if_false] at h
    injection h with h
    exact h.symm
  · intro hc
    unfold render at h
    rw [if_pos hc] at h
    exact h
  · intro c u; rfl
  · intro width height u; rfl

/-- C13 at a concrete input: the renderer `Scene.tracer`, whose flag is set, on
the empty scene. -/
theorem render_twice_witness :
    render Real.sqrt Real.rpow 0 (Scene.tracer : RayTracer ℝ) (World.new 1) =
      Except.ok { (Scene.tracer : RayTracer ℝ) with buffer := [[⟨0, 0, 0⟩]], changed := false } ∧
    ∀ (fuel' : Nat) (world' : World ℝ),
      render Real.sqrt Real.rpow fuel'
        { (Scene.tracer : RayTracer ℝ) with buffer := [[⟨0, 0, 0⟩]], changed := false } world' =
      Except.ok { (Scene.tracer : RayTracer ℝ) with buffer := [[⟨0, 0, 0⟩]], changed := false } := by
  have hmiss : ∀ ray : Ray ℝ, ((World.new 1 : World ℝ).intersect Real.sqrt ray).index = -1 := by
    intro ray
    simp [World.intersect, World.intersectLoop, World.new]
  have h : render Real.sqrt Real.rpow 0 (Scene.tracer : RayTracer ℝ) (World.new 1) =
      Except.ok { (Scene.tracer : RayTracer ℝ) with buffer := [[⟨0, 0, 0⟩]], changed := false } := by
    simp [render, prerender, prerenderWith, forEach, pixel, sampleLoop, hmiss, Scene.tracer,
      Sampling.square_x, Sampling.square_y, black, Color.times]
  exact ⟨h, (render_twice Real.sqrt Real.rpow 0 _ _ _ h).2.1⟩

end RayTracer

/-! ## The normal of a cube hit -/

/-- The candidate point of a face the ray is not parallel to lies on the plane
of that face: `(p − center)·n = side/2`. -/
theorem Cube.candidate_on_face (c : Cube ℝ) (ray : Ray ℝ) (f : Face)
    (h : Point.dot ray.direction (Face.normal f) ≠ 0) :
    Point.dot ((c.candidate ray f).sub c.position) (Face.normal f) = c.side / 2 := by
  have e : Point.dot ((c.candidate ray f).sub c.position) (Face.normal f) =
      Point.dot (ray.origin.sub c.position) (Face.normal f) +
        c.planeParam ray f * Point.dot ray.direction (Face.normal f) := by
    simp only [Cube.candidate, Point.dot, Point.sub, Point.add, Point.scale]; ring
  have ht : c.planeParam ray f * Point.dot ray.direction (Face.normal f) =
      Point.dot ((c.pivot f).sub ray.origin) (Face.normal f) := by
    unfold Cube.planeParam
    exact div_mul_cancel₀ _ h
  rw [e, ht]
  cases f <;>
    simp only [Cube.pivot, Cube.vertices, Face.normal, Point.dot, Point.sub, Point.add] <;>
    ring

/-- C21: on a cube with positive side, a hit reported by `Cube.intersect`
carries the outward unit normal of one of the six faces, which is one of the
six axis unit vectors, and the hit point lies on the plane of that face:
`(where − center)·normal = side/2`. -/
theorem Cube.intersect_normal_outward (c : Cube ℝ) (hside : 0 < c.side) (ray : Ray ℝ)
    (hhit : (c.intersect Real.sqrt ray).length ≠ -1) :
    (∃ f : Face, (c.intersect Real.sqrt ray).normal = Face.normal f ∧
      (c.intersect Real.sqrt ray).where_ = c.candidate ray f ∧ c.Accepted ray f) ∧
    ((c.intersect Real.sqrt ray).normal = ⟨1, 0, 0⟩ ∨
      (c.intersect Real.sqrt ray).normal = ⟨-1, 0, 0⟩ ∨
      (c.intersect Real.sqrt ray).normal = ⟨0, 1, 0⟩ ∨
      (c.intersect Real.sqrt ray).normal = ⟨0, -1, 0⟩ ∨
      (c.intersect Real.sqrt ray).normal = ⟨0, 0, 1⟩ ∨
      (c.intersect Real.sqrt ray).normal = ⟨0, 0, -1⟩) ∧
    Point.dot ((c.intersect Real.sqrt ray).where_.sub c.position)
      (c.intersect Real.sqrt ray).normal = c.side / 2 := by
  rcases c.intersect_nearest_all hside ray with ⟨hlen, _⟩ | ⟨f, _, ha, hw, hn, _, _⟩
  · exact absurd hlen hhit
  · refine ⟨⟨f, hn, hw, ha⟩, ?_, ?_⟩
    · rw [hn]
      cases f <;> simp [Face.normal]
    · rw [hn, hw]
      exact c.candidate_on_face ray f ha.1

/-- C21 at a concrete input: the cube of side 2 at the origin, hit on its front
face by the ray from (0,0,3) along (0,0,-1). -/
theorem Cube.intersect_normal_outward_witness :
    (∃ f : Face, ((Scene.mirror : Cube ℝ).intersect Real.sqrt
        ⟨⟨0, 0, 3⟩, ⟨0, 0, -1⟩, 10⟩).normal = Face.normal f ∧
      ((Scene.mirror : Cube ℝ).intersect Real.sqrt ⟨⟨0, 0, 3⟩, ⟨0, 0, -1⟩, 10⟩).where_ =
        (Scene.mirror : Cube ℝ).candidate ⟨⟨0, 0, 3⟩, ⟨0, 0, -1⟩, 10⟩ f ∧
      (Scene.mirror : Cube ℝ).Accepted ⟨⟨0, 0, 3⟩, ⟨0, 0, -1⟩, 10⟩ f) ∧
    (((Scene.mirror : Cube ℝ).intersect Real.sqrt ⟨⟨0, 0, 3⟩, ⟨0, 0, -1⟩, 10⟩).normal
        = ⟨1, 0, 0⟩ ∨
      ((Scene.mirror : Cube ℝ).intersect Real.sqrt ⟨⟨0, 0, 3⟩, ⟨0, 0, -1⟩, 10⟩).normal
        = ⟨-1, 0, 0⟩ ∨
      ((Scene.mirror : Cube ℝ).intersect Real.sqrt ⟨⟨0, 0, 3⟩, ⟨0, 0, -1⟩, 10⟩).normal
        = ⟨0, 1, 0⟩ ∨
      ((Scene.mirror : Cube ℝ).intersect Real.sqrt ⟨⟨0, 0, 3⟩, ⟨0, 0, -1⟩, 10⟩).normal
        = ⟨0, -1, 0⟩ ∨
      ((Scene.mirror : Cube ℝ).intersect Real.sqrt ⟨⟨0, 0, 3⟩, ⟨0, 0, -1⟩, 10⟩).normal
        = ⟨0, 0, 1⟩ ∨
      ((Scene.mirror : Cube ℝ).intersect Real.sqrt ⟨⟨0, 0, 3⟩, ⟨0, 0, -1⟩, 10⟩).normal
        = ⟨0, 0, -1⟩) ∧
    Point.dot (((Scene.mirror : Cube ℝ).intersect Real.sqrt
        ⟨⟨0, 0, 3⟩, ⟨0, 0, -1⟩, 10⟩).where_.sub (Scene.mirror : Cube ℝ).position)
      ((Scene.mirror : Cube ℝ).intersect Real.sqrt ⟨⟨0, 0, 3⟩, ⟨0, 0, -1⟩, 10⟩).normal
      = (Scene.mirror : Cube ℝ).side / 2 :=
  Cube.intersect_normal_outward Scene.mirror (by norm_num [Scene.mirror])
    ⟨⟨0, 0, 3⟩, ⟨0, 0, -1⟩, 10⟩ (by rw [Scene.primary_mirror.2.2]; norm_num)

/-! ## Scene well-formedness is an invariant of construction -/

omit [LinearOrderedField α] in
theorem Material_eq_symm (a b : Material α) (h : Material.eq a b) : Material.eq b a := by
  obtain ⟨h1, h2, h3, h4, h5, h6, h7⟩ := h
  exact ⟨h1.symm, h2.symm, h3.symm, h4.symm, h5.symm, h6.symm, h7.symm⟩

omit [LinearOrderedField α] in
theorem Object.material_setMaterial (o : Object α) (k : Int) :
    (o.setMaterial k).material = k := by
  cases o <;> rfl

/-- When the loop of `World::add` finds nothing, no stored material compares
equal to `m`. -/
theorem World.scan_none (m : Material α) (xs : List (Material α)) :
    ∀ (i : Nat), World.scan m xs i = none → ∀ x ∈ xs, ¬ Material.eq x m := by
  induction xs with
  | nil => intro i _ x hx; simp at hx
  | cons y ys ih =>
    intro i h x hx
    by_cases hy : Material.eq y m
    · simp [World.scan, hy] at h
    · simp [World.scan, hy] at h
      rcases List.mem_cons.1 hx with rfl | hx
      · exact hy
      · exact ih (i + 1) h x hx

omit [LinearOrderedField α] in
theorem World.new_wellFormed (light : α) : (World.new light).WellFormed := by
  refine ⟨?_, ?_⟩
  · intro o ho; simp [World.new] at ho
  · simp [World.new]

omit [LinearOrderedField α] in
theorem World.addLight_wellFormed (w : World α) (l : Light α) (h : w.WellFormed) :
    (w.addLight l).WellFormed := h

theorem World.add_wellFormed (w : World α) (obj : Object α) (m : Material α)
    (h : w.WellFormed) : (w.add obj m).WellFormed := by
  obtain ⟨hobj, hpw⟩ := h
  cases hs : World.scan m w.materials 0 with
  | some k =>
    have hk := World.scan_bounds m w.materials 0 k hs
    refine ⟨?_, ?_⟩
    · intro o ho
      simp only [World.add, hs] at ho ⊢
      rcases List.mem_append.1 ho with ho | ho
      · exact hobj o ho
      · rw [List.mem_singleton] at ho
        subst ho
        rw [Object.material_setMaterial]
        constructor <;> omega
    · simp only [World.add, hs]; exact hpw
  | none =>
    refine ⟨?_, ?_⟩
    · intro o ho
      simp only [World.add, hs] at ho ⊢
      rcases List.mem_append.1 ho with ho | ho
      · have := hobj o ho
        rw [List.length_append, List.length_singleton]
        constructor
        · exact this.1
        · have := this.2; push_cast; omega
      · rw [List.mem_singleton] at ho
        subst ho
        rw [Object.material_setMaterial, List.length_append, List.length_singleton]
        constructor
        · exact Int.natCast_nonneg _
        · push_cast; omega
    · simp only [World.add, hs]
      rw [List.pairwise_append]
      refine ⟨hpw, List.pairwise_singleton _ _, ?_⟩
      intro a ha b hb
      rw [List.mem_singleton] at hb
      subst hb
      exact World.scan_none b w.materials 0 hs a ha

theorem World.apply_wellFormed (w : World α) (op : Op α) (h : w.WellFormed) :
    (w.apply op).WellFormed := by
  cases op with
  | light l => exact World.addLight_wellFormed w l h
  | object obj m => exact World.add_wellFormed w obj m h

theorem World.foldl_wellFormed (ops : List (Op α)) :
    ∀ (w : World α), w.WellFormed → (ops.foldl World.apply w).WellFormed := by
  induction ops with
  | nil => intro w h; exact h
  | cons op ops ih => intro w h; exact ih (w.apply op) (World.apply_wellFormed w op h)

theorem World.build_wellFormed (light : α) (ops : List (Op α)) :
    (World.build light ops).WellFormed :=
  World.foldl_wellFormed ops _ (World.new_wellFormed light)

theorem World.build_append (light : α) (ops : List (Op α)) (op : Op α) :
    World.build light (ops ++ [op]) = (World.build light ops).apply op := by
  simp [World.build, List.foldl_append]

/-- One construction call only appends: the primitives and the materials
already stored keep their places. -/
theorem World.apply_appends (w : World α) (op : Op α) :
    (∃ os, (w.apply op).objects = w.objects ++ os) ∧
    (∃ ms, (w.apply op).materials = w.materials ++ ms) := by
  cases op with
  | light l => exact ⟨⟨[], by simp [World.apply, World.addLight]⟩,
      ⟨[], by simp [World.apply, World.addLight]⟩⟩
  | object obj m =>
    cases hs : World.scan m w.materials 0 with
    | some k =>
      exact ⟨⟨[obj.setMaterial k], by simp [World.apply, World.add, hs]⟩,
        ⟨[], by simp [World.apply, World.add, hs]⟩⟩
    | none =>
      exact ⟨⟨[obj.setMaterial ((w.materials ++ [m]).length - 1 : Nat)],
          by simp [World.apply, World.add, hs]⟩,
        ⟨[m], by simp [World.apply, World.add, hs]⟩⟩

/-- The scene `Scene.lit` is the one built by adding the two cubes with their
materials and then the light; a third cube added with the first material gets
index 0 and stores nothing new. -/
theorem World.build_lit :
    (World.build 1 [Op.object (Object.cube Scene.mirror) Scene.mirrorMaterial,
      Op.object (Object.cube Scene.block) Scene.blockMaterial,
      Op.light Scene.lamp] : World ℝ) = Scene.lit ∧
    ((Scene.lit : World ℝ).apply (Op.object (Object.cube Scene.block) Scene.mirrorMaterial)) =
      ⟨[Object.cube Scene.mirror, Object.cube Scene.block,
        Object.cube { (Scene.block : Cube ℝ) with material := 0 }],
       [Scene.mirrorMaterial, Scene.blockMaterial], [Scene.lamp], 1⟩ := by
  constructor
  · norm_num [World.build, World.apply, World.add, World.addLight, World.new, World.scan,
      Material.eq, Object.setMaterial, Scene.lit, Scene.mirror, Scene.block,
      Scene.mirrorMaterial, Scene.blockMaterial]
  · norm_num [World.apply, World.add, World.scan, Material.eq, Object.setMaterial,
      Scene.lit, Scene.mirrorMaterial, Scene.blockMaterial]

/-- In a well-formed scene the lookup
`world.materials[world.objects[result.index]->material]` of `shade` is in range
for every hit returned by `World::intersect`. -/
theorem RayTracer.materialOf_in_range (sqrt : α → α) (w : World α) (hw : w.WellFormed)
    (ray : Ray α) (hidx : 0 ≤ (w.intersect sqrt ray).index) :
    ∃ (o : Object α) (M : Material α),
      w.objects[(w.intersect sqrt ray).index.toNat]? = some o ∧
      0 ≤ o.material ∧ o.material < (w.materials.length : Int) ∧
      w.materials[o.material.toNat]? = some M ∧
      RayTracer.materialOf w (w.intersect sqrt ray) = some M := by
  rcases World.intersect_cases sqrt w ray with h | ⟨i, o, tmp, hi, _, _, _, h⟩
  · rw [h] at hidx; simp at hidx
  · have ho : o ∈ w.objects := List.getElem?_mem hi
    obtain ⟨h0, h1⟩ := hw.1 o ho
    have hlt : o.material.toNat < w.materials.length := by omega
    refine ⟨o, w.materials[o.material.toNat], ?_, h0, h1, ?_, ?_⟩
    · rw [h]; simpa using hi
    · exact List.getElem?_eq_getElem hlt
    · rw [h]
      simp only [RayTracer.materialOf]
      rw [if_neg (by simp)]
      simp only [Int.toNat_ofNat, hi]
      rw [if_neg (by omega)]
      exact List.getElem?_eq_getElem hlt

/-- C22: every scene built from the empty scene by a sequence of `add(light)`
and `add(primitive, material)` calls is well formed.  Every primitive carries a
material index `i` with `0 ≤ i < materials.size`; no two stored materials
(at different positions) compare equal under `Material::operator==`; one more
call of either kind leaves every primitive already added, with its index, and
every material already stored at its position; and for every ray,
`World::intersect` either reports no hit (index -1, on which `shade` is not
called) or returns an index for which the object index is in range, the
material index of that object is in range, and the material lookup of `shade`
succeeds. -/
theorem World.build_keeps_scene_well_formed (sqrt : α → α) (light : α) (ops : List (Op α)) :
    (∀ o ∈ (World.build light ops).objects,
      0 ≤ o.material ∧ o.material < ((World.build light ops).materials.length : Int)) ∧
    (∀ (i j : Nat) (x y : Material α), i ≠ j →
      (World.build light ops).materials[i]? = some x →
      (World.build light ops).materials[j]? = some y → ¬ Material.eq x y) ∧
    (∀ (op : Op α),
      World.build light (ops ++ [op]) = (World.build light ops).apply op ∧
      (∀ (j : Nat) (o : Object α), (World.build light ops).objects[j]? = some o →
        ((World.build light ops).apply op).objects[j]? = some o) ∧
      (∀ (j : Nat) (x : Material α), (World.build light ops).materials[j]? = some x →
        ((World.build light ops).apply op).materials[j]? = some x)) ∧
    (∀ (ray : Ray α), ((World.build light ops).intersect sqrt ray).index = -1 ∨
      ∃ (o : Object α) (M : Material α),
        (World.build light ops).objects[
          ((World.build light ops).intersect sqrt ray).index.toNat]? = some o ∧
        0 ≤ o.material ∧ o.material < ((World.build light ops).materials.length : Int) ∧
        (World.build light ops).materials[o.material.toNat]? = some M ∧
        RayTracer.materialOf (World.build light ops)
          ((World.build light ops).intersect sqrt ray) = some M) := by
  have hw := World.build_wellFormed light ops
  refine ⟨hw.1, ?_, ?_, ?_⟩
  · intro i j x y hij hx hy
    have hpw := List.pairwise_iff_getElem.1 hw.2
    obtain ⟨hi, rfl⟩ := List.getElem?_eq_some.1 hx
    obtain ⟨hj, rfl⟩ := List.getElem?_eq_some.1 hy
    rcases Nat.lt_or_gt_of_ne hij with hlt | hgt
    · exact hpw i j hi hj hlt
    · exact fun he => hpw j i hj hi hgt (Material_eq_symm _ _ he)
  · intro op
    obtain ⟨⟨os, hos⟩, ⟨ms, hms⟩⟩ := World.apply_appends (World.build light ops) op
    refine ⟨World.build_append light ops op, ?_, ?_⟩
    · intro j o hj
      rw [hos]
      obtain ⟨hlt, _⟩ := List.getElem?_eq_some.1 hj
      rw [List.getElem?_append_left hlt]; exact hj
    · intro j x hj
      rw [hms]
      obtain ⟨hlt, _⟩ := List.getElem?_eq_some.1 hj
      rw [List.getElem?_append_left hlt]; exact hj
  · intro ray
    rcases World.intersect_cases sqrt (World.build light ops) ray with h | ⟨i, _, _, _, _, _, _, h⟩
    · left; rw [h]
    · right
      exact RayTracer.materialOf_in_range sqrt _ hw ray (by rw [h]; exact Int.natCast_nonneg i)

/-! ## Two adds with the same material -/

/-- The index found by the loop of `World::add` holds a material that compares
equal to `m`. -/
theorem World.scan_some (m : Material α) (xs : List (Material α)) :
    ∀ (i k : Nat), World.scan m xs i = some k → ∀ x, xs[k - i]? = some x → Material.eq x m := by
  induction xs with
  | nil => intro i k h; simp [World.scan] at h
  | cons y ys ih =>
    intro i k h x hx
    by_cases hy : Material.eq y m
    · simp [World.scan, hy] at h
      subst h
      simp at hx
      rw [← hx]; exact hy
    · simp [World.scan, hy] at h
      have hb := World.scan_bounds m ys (i + 1) k h
      have hki : k - i = (k - (i + 1)) + 1 := by omega
      rw [hki, List.getElem?_cons_succ] at hx
      exact ih (i + 1) k h x hx

namespace World

/-- Setting the material index of a primitive leaves its geometry as it is. -/
theorem intersect_setMaterial (sqrt : α → α) (o : Object α) (k : Int) (ray : Ray α) :
    (o.setMaterial k).intersect sqrt ray = o.intersect sqrt ray := by
  cases o <;> rfl

/-- C6: adding two primitives `p1`, `p2` with the same material `m` to any
scene appends two primitives `q1`, `q2` (the same geometry as `p1` and `p2`)
whose material fields hold the same index `k`; `k` is a valid index of the
material list and the material stored there compares equal to `m`; the second
add leaves the material list unchanged; the list keeps its earlier entries
and grows by at most one entry over the two adds; and from an empty scene
exactly the material `m` is stored and both material fields hold 0. -/
theorem add_same_material (w : World α) (p1 p2 : Object α) (m : Material α) :
    (∃ (k : Nat) (q1 q2 : Object α) (m0 : Material α),
      (w.add p1 m).objects = w.objects ++ [q1] ∧
      ((w.add p1 m).add p2 m).objects = w.objects ++ [q1, q2] ∧
      q1.material = (k : Int) ∧ q2.material = (k : Int) ∧
      ((w.add p1 m).add p2 m).materials[k]? = some m0 ∧ Material.eq m0 m ∧
      (∀ (sqrt : α → α) (ray : Ray α),
        q1.intersect sqrt ray = p1.intersect sqrt ray ∧
        q2.intersect sqrt ray = p2.intersect sqrt ray)) ∧
    ((w.add p1 m).add p2 m).materials = (w.add p1 m).materials ∧
    (((w.add p1 m).add p2 m).materials = w.materials ∨
      ((w.add p1 m).add p2 m).materials = w.materials ++ [m]) ∧
    ((w.add p1 m).add p2 m).materials.length ≤ w.materials.length + 1 ∧
    (∀ a : α, ∃ q1 q2 : Object α,
      ((World.new a).add p1 m).add p2 m = ⟨[q1, q2], [m], [], a⟩ ∧
      q1.material = 0 ∧ q2.material = 0 ∧
      (∀ (sqrt : α → α) (ray : Ray α),
        q1.intersect sqrt ray = p1.intersect sqrt ray ∧
        q2.intersect sqrt ray = p2.intersect sqrt ray)) := by
  refine ⟨?_, ?_, ?_, ?_, ?_⟩
  · cases h : scan m w.materials 0 with
    | some k =>
      have hb := scan_bounds m w.materials 0 k h
      have hk : k < w.materials.length := by omega
      refine ⟨k, p1.setMaterial k, p2.setMaterial k, w.materials[k], ?_, ?_,
        Object.material_setMaterial _ _, Object.material_setMaterial _ _, ?_, ?_,
        fun sqrt ray => ⟨intersect_setMaterial sqrt p1 _ ray, intersect_setMaterial sqrt p2 _ ray⟩⟩
      · simp [add, h]
      · simp [add, h]
      · simp only [add, h]; exact List.getElem?_eq_getElem hk
      · exact scan_some m w.materials 0 k h w.materials[k] (by simp [List.getElem?_eq_getElem hk])
    | none =>
      have h2 := scan_append_self m w.materials 0 h
      simp only [Nat.zero_add] at h2
      refine ⟨w.materials.length, p1.setMaterial (w.materials.length : Nat),
        p2.setMaterial (w.materials.length : Nat), m, ?_, ?_,
        Object.material_setMaterial _ _, Object.material_setMaterial _ _, ?_,
        Material_eq_refl m,
        fun sqrt ray => ⟨intersect_setMaterial sqrt p1 _ ray, intersect_setMaterial sqrt p2 _ ray⟩⟩
      · simp [add, h]
      · simp [add, h, h2]
      · simp [add, h, h2]
  · cases h : scan m w.materials 0 with
    | some k => simp [add, h]
    | none =>
      have h2 := scan_append_self m w.materials 0 h
      simp [add, h, h2]
  · cases h : scan m w.materials 0 with
    | some k => left; simp [add, h]
    | none =>
      have h2 := scan_append_self m w.materials 0 h
      right; simp [add, h, h2]
  · cases h : scan m w.materials 0 with
    | some k => simp [add, h]
    | none =>
      have h2 := scan_append_self m w.materials 0 h
      simp [add, h, h2]
  · intro a
    refine ⟨p1.setMaterial 0, p2.setMaterial 0, ?_, Object.material_setMaterial _ _,
      Object.material_setMaterial _ _,
      fun sqrt ray => ⟨intersect_setMaterial sqrt p1 _ ray, intersect_setMaterial sqrt p2 _ ray⟩⟩
    simp [add, World.new, scan, Material_eq_refl]

end World

/-! ## `shade` returns a colour -/

namespace RayTracer

/-- When every primitive carries a valid material index, the lookup
`world.materials[world.objects[result.index]->material]` of `shade` succeeds
for every hit of `World::intersect`. -/
theorem materialOf_hit (sqrt : α → α) (w : World α)
    (hobj : ∀ o ∈ w.objects, 0 ≤ o.material ∧ o.material < (w.materials.length : Int))
    (ray : Ray α) (hidx : 0 ≤ (w.intersect sqrt ray).index) :
    ∃ M : Material α, materialOf w (w.intersect sqrt ray) = some M := by
  rcases World.intersect_cases sqrt w ray with h | ⟨i, o, tmp, hi, _, _, _, h⟩
  · rw [h] at hidx; simp at hidx
  · have ho : o ∈ w.objects := List.getElem?_mem hi
    obtain ⟨h0, h1⟩ := hobj o ho
    have hlt : o.material.toNat < w.materials.length := by omega
    refine ⟨w.materials[o.material.toNat], ?_⟩
    rw [h]
    simp only [materialOf]
    rw [if_neg (by simp)]
    simp only [Int.toNat_ofNat, hi]
    rw [if_neg (by omega)]
    exact List.getElem?_eq_getElem hlt

/-- The body of `shade` fails with `badIndex` only when its own material lookup
fails or its recursive call does. -/
theorem shadeStep_badIndex (sqrt : α → α) (pow : α → α → α) (w : World α)
    (r : Ray α → Intersection α → Except ShadeError (Color α))
    (ray : Ray α) (result : Intersection α)
    (h : shadeStep sqrt pow w r ray result = Except.error ShadeError.badIndex) :
    materialOf w result = none ∨
    ∃ M, materialOf w result = some M ∧ M.reflection > 0 ∧
      (w.intersect sqrt (reflectedRay sqrt ray result)).index ≥ 0 ∧
      ¬ Point.eq (w.intersect sqrt (reflectedRay sqrt ray result)).where_ result.where_ ∧
      r (bounce sqrt w ray result M) (w.intersect sqrt (reflectedRay sqrt ray result)) =
        Except.error ShadeError.badIndex := by
  unfold shadeStep at h
  cases hM : materialOf w result with
  | none => left; rfl
  | some M =>
    right
    rw [hM] at h
    simp only at h
    by_cases hc : M.reflection > 0
    · by_cases hi : (w.intersect sqrt (reflectedRay sqrt ray result)).index ≥ 0
      · by_cases he : Point.eq (w.intersect sqrt (reflectedRay sqrt ray result)).where_
            result.where_
        · simp [hc, hi, he] at h
        · refine ⟨M, rfl, hc, hi, he, ?_⟩
          simp only [hc, hi, he, if_true, not_false_eq_true] at h
          cases hr : r (bounce sqrt w ray result M)
              (w.intersect sqrt (reflectedRay sqrt ray result)) with
          | ok v => rw [hr] at h; simp at h
          | error e =>
            rw [hr] at h
            simp only at h
            injection h with h
            rw [h]
      · simp [hc, hi] at h
    · simp [hc] at h

/-- In a scene whose primitives carry valid material indices, `shade` called on
a hit with a valid lookup never fails on an index. -/
theorem shade_not_badIndex (sqrt : α → α) (pow : α → α → α) (w : World α)
    (hobj : ∀ o ∈ w.objects, 0 ≤ o.material ∧ o.material < (w.materials.length : Int)) :
    ∀ (fuel : Nat) (ray : Ray α) (result : Intersection α), materialOf w result ≠ none →
      shade sqrt pow w fuel ray result ≠ Except.error ShadeError.badIndex := by
  intro fuel
  induction fuel with
  | zero => intro ray result _ h; rw [shade] at h; simp at h
  | succ f ih =>
    intro ray result hM h
    rw [shade_succ] at h
    rcases shadeStep_badIndex _ _ _ _ _ _ h with hn | ⟨M, _, _, hi, _, hr⟩
    · exact hM hn
    · obtain ⟨M2, hM2⟩ := materialOf_hit sqrt w hobj (reflectedRay sqrt ray result) hi
      exact ih _ _ (by rw [hM2]; simp) hr

/-- In a scene whose primitives carry valid material indices and whose
reflection coefficients are at most 1, `shade` returns a colour for a ray of
strength `S` on a hit with a valid lookup, with any budget of at least
`⌊S / PRECISION⌋ + 1` nested calls. -/
theorem shade_returns (pow : ℝ → ℝ → ℝ) (w : World ℝ)
    (hobj : ∀ o ∈ w.objects, 0 ≤ o.material ∧ o.material < (w.materials.length : Int))
    (hrefl : ∀ m ∈ w.materials, m.reflection ≤ 1)
    (ray : Ray ℝ) (result : Intersection ℝ) (hM : materialOf w result ≠ none)
    (fuel : Nat) (hfuel : Nat.floor (ray.strength / PRECISION) + 1 ≤ fuel) :
    ∃ v : Color ℝ, shade Real.sqrt pow w fuel ray result = Except.ok v := by
  have hP : (0 : ℝ) < PRECISION := PRECISION_pos
  have hS : ray.strength < PRECISION * ((Nat.floor (ray.strength / PRECISION) : ℝ) + 1) := by
    have h1 := Nat.lt_floor_add_one (ray.strength / PRECISION)
    have h2 := (div_lt_iff₀ hP).mp h1
    linarith
  have hbase := shade_within_budget pow w hrefl (Nat.floor (ray.strength / PRECISION)) ray result hS
  have heq := shade_fuel_le Real.sqrt pow w _ ray result hbase fuel hfuel
  have hbad := shade_not_badIndex Real.sqrt pow w hobj fuel ray result hM
  cases hr : shade Real.sqrt pow w fuel ray result with
  | ok v => exact ⟨v, rfl⟩
  | error e =>
    cases e with
    | outOfFuel => rw [heq] at hr; exact absurd hr hbase
    | badIndex => exact absurd hr hbad

end RayTracer

/-! ## The ambient and reflection blend of `shade` -/

namespace RayTracer

/-- C8: in a scene with no lights, for every ray and every hit with material
`M`, reflection coefficient `c = M.reflection` and
`base = M.color × ambientIntensity × M.ambient` (channel by channel), `shade`
called with a budget of `fuel + 1` nested calls returns `base` when `c ≤ 0`;
when `c > 0` and the nearest intersection of the reflected ray does not exist
(index < 0) or lies at the hit point (equal within PRECISION per coordinate),
it returns `base × (1 − c)`; when `c > 0` and that intersection exists at a
different point, it returns `base × (1 − c) + c × v` for the colour `v` that the
recursive `shade` of the reflected ray returns, and that recursive call does
return a colour when the primitives carry valid material indices, no
reflection coefficient exceeds 1 and the budget is at least
`⌊strength / PRECISION⌋`. -/
theorem shade_no_lights (pow : ℝ → ℝ → ℝ) (w : World ℝ) (hl : w.lights = [])
    (ray : Ray ℝ) (result : Intersection ℝ) (M : Material ℝ)
    (hM : materialOf w result = some M) (fuel : Nat) :
    (M.reflection ≤ 0 →
      shade Real.sqrt pow w (fuel + 1) ray result =
        Except.ok ⟨M.color.red * w.ambientIntensity * M.ambient,
          M.color.green * w.ambientIntensity * M.ambient,
          M.color.blue * w.ambientIntensity * M.ambient⟩) ∧
    (0 < M.reflection →
      ¬ (0 ≤ (w.intersect Real.sqrt (reflectedRay Real.sqrt ray result)).index ∧
        ¬ Point.eq (w.intersect Real.sqrt (reflectedRay Real.sqrt ray result)).where_
          result.where_) →
      shade Real.sqrt pow w (fuel + 1) ray result =
        Except.ok ⟨M.color.red * w.ambientIntensity * M.ambient * (1 - M.reflection),
          M.color.green * w.ambientIntensity * M.ambient * (1 - M.reflection),
          M.color.blue * w.ambientIntensity * M.ambient * (1 - M.reflection)⟩) ∧
    (0 < M.reflection →
      0 ≤ (w.intersect Real.sqrt (reflectedRay Real.sqrt ray result)).index →
      ¬ Point.eq (w.intersect Real.sqrt (reflectedRay Real.sqrt ray result)).where_
        result.where_ →
      (∀ v : Color ℝ,
        shade Real.sqrt pow w fuel (bounce Real.sqrt w ray result M)
          (w.intersect Real.sqrt (reflectedRay Real.sqrt ray result)) = Except.ok v →
        shade Real.sqrt pow w (fuel + 1) ray result =
          Except.ok ⟨M.color.red * w.ambientIntensity * M.ambient * (1 - M.reflection)
              + M.reflection * v.red,
            M.color.green * w.ambientIntensity * M.ambient * (1 - M.reflection)
              + M.reflection * v.green,
            M.color.blue * w.ambientIntensity * M.ambient * (1 - M.reflection)
              + M.reflection * v.blue⟩) ∧
      ((∀ o ∈ w.objects, 0 ≤ o.material ∧ o.material < (w.materials.length : Int)) →
        (∀ m ∈ w.materials, m.reflection ≤ 1) →
        Nat.floor (ray.strength / PRECISION) ≤ fuel →
        ∃ v : Color ℝ,
          shade Real.sqrt pow w fuel (bounce Real.sqrt w ray result M)
            (w.intersect Real.sqrt (reflectedRay Real.sqrt ray result)) = Except.ok v)) := by
  refine ⟨?_, ?_, ?_⟩
  · intro hc
    rw [shade, hM]
    simp only [hl, addLights, not_lt.mpr hc, gt_iff_lt, if_false, Color.times]
  · intro hc hno
    rw [shade, hM]
    simp only [hl, addLights, gt_iff_lt, hc, if_true, ge_iff_le]
    by_cases hi : 0 ≤ (w.intersect Real.sqrt (reflectedRay Real.sqrt ray result)).index
    · have he : Point.eq (w.intersect Real.sqrt (reflectedRay Real.sqrt ray result)).where_
          result.where_ := by
        by_contra he
        exact hno ⟨hi, he⟩
      simp only [hi, he, if_true, not_true_eq_false, if_false, Color.times]
    · simp only [hi, if_false, Color.times]
  · intro hc hi he
    constructor
    · intro v hv
      rw [shade, hM]
      simp only [hl, addLights, gt_iff_lt, hc, if_true, ge_iff_le, hi, he, not_false_eq_true, hv,
        Color.times, Color.add, Color.scale]
      congr 1
      ext <;> simp only <;> ring
    · intro hobj hrefl hfuel
      have hstep := recursion_step w ray result M hc
        (hrefl M (materialOf_mem w result M hM)) hi he
      have hP : (0 : ℝ) < PRECISION := PRECISION_pos
      obtain ⟨M2, hM2⟩ := materialOf_hit Real.sqrt w hobj (reflectedRay Real.sqrt ray result) hi
      apply shade_returns pow w hobj hrefl _ _ (by rw [hM2]; simp) fuel
      have h5 := hstep.2.2.2.2
      have h4 := hstep.2.2.2.1
      have hlt : Nat.floor ((bounce Real.sqrt w ray result M).strength / PRECISION)
          < Nat.floor (ray.strength / PRECISION) := by
        have h6 : (bounce Real.sqrt w ray result M).strength / PRECISION + 1
            ≤ ray.strength / PRECISION := by
          rw [div_add_one (ne_of_gt hP)]
          exact div_le_div_of_nonneg_right (by linarith) (le_of_lt hP)
        have h7 : Nat.floor ((bounce Real.sqrt w ray result M).strength / PRECISION) + 1
            ≤ Nat.floor (ray.strength / PRECISION) := by
          rw [← Nat.floor_add_one (div_nonneg (le_of_lt h4) (le_of_lt hP))]
          exact Nat.floor_le_floor h6
        omega
      omega

/-- C8 at a concrete input: the scene `Scene.tinted` without lights, the ray
from (0,0,3) along (0,0,-1) and its hit P = (0,0,1) on the reflective cube
(base (1,1,1), c = 1/2).  The reflected ray hits the second cube, whose shade
is (1/2, 1/4, 0), and `shade` returns (1,1,1)×(1/2) + (1/2)×(1/2, 1/4, 0). -/
theorem shade_no_lights_witness :
    shade Real.sqrt Real.rpow (Scene.tinted : World ℝ) (1 + 1) ⟨⟨0, 0, 3⟩, ⟨0, 0, -1⟩, 10⟩
      ⟨⟨0, 0, 1⟩, ⟨0, 0, 1⟩, 2, 0⟩ = Except.ok ⟨3 / 4, 5 / 8, 1 / 2⟩ := by
  have hM : materialOf (Scene.tinted : World ℝ) ⟨⟨0, 0, 1⟩, ⟨0, 0, 1⟩, 2, 0⟩
      = some Scene.mirrorMaterial := by
    simp [materialOf, Scene.tinted, Object.material, Scene.mirror]
  have hM2 : materialOf (Scene.tinted : World ℝ) ⟨⟨0, 0, 5⟩, ⟨0, 0, -1⟩, 4, 1⟩
      = some Scene.tint := by
    simp [materialOf, Scene.tinted, Object.material, Scene.block]
  have hQ : shade Real.sqrt Real.rpow (Scene.tinted : World ℝ) 1
      (bounce Real.sqrt Scene.tinted ⟨⟨0, 0, 3⟩, ⟨0, 0, -1⟩, 10⟩ ⟨⟨0, 0, 1⟩, ⟨0, 0, 1⟩, 2, 0⟩
        Scene.mirrorMaterial)
      ((Scene.tinted : World ℝ).intersect Real.sqrt
        (reflectedRay Real.sqrt ⟨⟨0, 0, 3⟩, ⟨0, 0, -1⟩, 10⟩ ⟨⟨0, 0, 1⟩, ⟨0, 0, 1⟩, 2, 0⟩))
      = Except.ok ⟨1 / 2, 1 / 4, 0⟩ := by
    rw [Scene.reflectedRay_at_P, Scene.intersect_reflected Scene.tinted rfl, shade, hM2]
    have hlights : (Scene.tinted : World ℝ).lights = [] := rfl
    simp only [hlights, addLights]
    norm_num [Scene.tint, Scene.tinted, Color.times]
  have h := (shade_no_lights Real.rpow (Scene.tinted : World ℝ) rfl
    ⟨⟨0, 0, 3⟩, ⟨0, 0, -1⟩, 10⟩ ⟨⟨0, 0, 1⟩, ⟨0, 0, 1⟩, 2, 0⟩ Scene.mirrorMaterial hM 1).2.2
    (by norm_num [Scene.mirrorMaterial])
    (by rw [Scene.reflectedRay_at_P, Scene.intersect_reflected Scene.tinted rfl]; norm_num)
    (by
      rw [Scene.reflectedRay_at_P, Scene.intersect_reflected Scene.tinted rfl]
      norm_num [Point.eq, PRECISION])
  rw [h.1 _ hQ]
  norm_num [Scene.mirrorMaterial, Scene.tinted]

end RayTracer

/-! ## The anti-aliasing mean of `prerender` -/

/-- When a loop of `prerender` completes, each of its steps returned. -/
theorem forEach_ok_inv {ε β : Type} (f : Nat → Except ε β) :
    ∀ (count start : Nat) (bs : List β), forEach f count start = Except.ok bs →
      ∀ k, k < count → ∃ b, f (start + k) = Except.ok b := by
  intro count
  induction count with
  | zero => intro start bs _ k hk; exact absurd hk (Nat.not_lt_zero k)
  | succ n ih =>
    intro start bs h k hk
    rw [forEach] at h
    cases h0 : f start with
    | error e => rw [h0] at h; simp at h
    | ok b =>
      rw [h0] at h
      simp only at h
      cases hr : forEach f n (start + 1) with
      | error e => rw [hr] at h; simp at h
      | ok rest =>
        cases k with
        | zero => exact ⟨b, by rw [Nat.add_zero]; exact h0⟩
        | succ k =>
          obtain ⟨b2, hb2⟩ := ih (start + 1) rest hr k (Nat.lt_of_succ_lt_succ hk)
          exact ⟨b2, by rw [show start + (k + 1) = start + 1 + k by omega]; exact hb2⟩

namespace RayTracer

/-- When the sample loop of a pixel completes, the call of `shade` of every
sample that hit returned a colour. -/
theorem sampleLoop_ok_inv (sqrt : α → α) (pow : α → α → α) (fuel : Nat) (rt : RayTracer α)
    (world : World α) (xs ys : List α) (i j : Nat) :
    ∀ (count k : Nat) (acc out : Color α), k + count ≤ xs.length → k + count ≤ ys.length →
      sampleLoop sqrt pow fuel rt world xs ys i j count k acc = Except.ok out →
      ∀ m, m < count →
        (world.intersect sqrt (getRay sqrt rt ((i : α) + xs.getD (k + m) 0)
          ((j : α) + ys.getD (k + m) 0))).index ≥ 0 →
        ∃ c, shade sqrt pow world fuel
          (getRay sqrt rt ((i : α) + xs.getD (k + m) 0) ((j : α) + ys.getD (k + m) 0))
          (world.intersect sqrt (getRay sqrt rt ((i : α) + xs.getD (k + m) 0)
            ((j : α) + ys.getD (k + m) 0))) = Except.ok c := by
  intro count
  induction count with
  | zero => intro k acc out _ _ _ m hm; exact absurd hm (Nat.not_lt_zero m)
  | succ n ih =>
    intro k acc out hx hy h m hm
    have hkx : k < xs.length := by omega
    have hky : k < ys.length := by omega
    have hgx : xs[k]? = some (xs.getD k 0) := by
      rw [List.getD_eq_getElem?_getD, List.getElem?_eq_getElem hkx]; rfl
    have hgy : ys[k]? = some (ys.getD k 0) := by
      rw [List.getD_eq_getElem?_getD, List.getElem?_eq_getElem hky]; rfl
    rw [sampleLoop, hgx, hgy] at h
    simp only at h
    by_cases hidx : (world.intersect sqrt (getRay sqrt rt ((i : α) + xs.getD k 0)
        ((j : α) + ys.getD k 0))).index ≥ 0
    · rw [if_pos hidx] at h
      cases hc : shade sqrt pow world fuel
          (getRay sqrt rt ((i : α) + xs.getD k 0) ((j : α) + ys.getD k 0))
          (world.intersect sqrt (getRay sqrt rt ((i : α) + xs.getD k 0)
            ((j : α) + ys.getD k 0))) with
      | error e => rw [hc] at h; simp at h
      | ok c =>
        rw [hc] at h
        simp only at h
        cases m with
        | zero => intro _; exact ⟨c, by rw [Nat.add_zero]; exact hc⟩
        | succ m =>
          have := ih (k + 1) _ out (by omega) (by omega) h m (Nat.lt_of_succ_lt_succ hm)
          rw [show k + 1 + m = k + (m + 1) by omega] at this
          exact this
    · rw [if_neg hidx] at h
      cases m with
      | zero => intro h0; rw [Nat.add_zero] at h0; exact absurd h0 hidx
      | succ m =>
        have := ih (k + 1) _ out (by omega) (by omega) h m (Nat.lt_of_succ_lt_succ hm)
        rw [show k + 1 + m = k + (m + 1) by omega] at this
        exact this

/-- When `prerender` returns, the call of `shade` of every sample that hit
returned a colour. -/
theorem prerender_ok_inv (sqrt : α → α) (pow : α → α → α) (fuel : Nat) (rt rt1 : RayTracer α)
    (world : World α) (n : Nat)
    (hn2 : n ≤ (Sampling.xs rt.format : List α).length) (hs : rt.sampling = (n : Int))
    (h : prerender sqrt pow fuel rt world = Except.ok rt1) :
    ∀ i j k : Nat, i < rt.width → j < rt.height → k < n →
      (world.intersect sqrt (getRay sqrt rt
        ((i : α) + (Sampling.xs rt.format : List α).getD k 0)
        ((j : α) + (Sampling.ys rt.format : List α).getD k 0))).index ≥ 0 →
      ∃ c, shade sqrt pow world fuel
        (getRay sqrt rt ((i : α) + (Sampling.xs rt.format : List α).getD k 0)
          ((j : α) + (Sampling.ys rt.format : List α).getD k 0))
        (world.intersect sqrt (getRay sqrt rt
          ((i : α) + (Sampling.xs rt.format : List α).getD k 0)
          ((j : α) + (Sampling.ys rt.format : List α).getD k 0))) = Except.ok c := by
  intro i j k hi hj hk
  have hylen : (Sampling.ys rt.format : List α).length = (Sampling.xs rt.format : List α).length :=
    Sampling_ys_length rt.format
  rw [prerender_eq_prerenderWith] at h
  unfold prerenderWith at h
  cases hrows : forEach (fun i => forEach (fun j => pixel sqrt pow fuel rt world
      (Sampling.xs rt.format) (Sampling.ys rt.format) i j) rt.height 0) rt.width 0 with
  | error e => rw [hrows] at h; simp at h
  | ok rows =>
    obtain ⟨row, hrow⟩ := forEach_ok_inv _ _ _ _ hrows i hi
    simp only [Nat.zero_add] at hrow
    obtain ⟨b, hb⟩ := forEach_ok_inv _ _ _ _ hrow j hj
    simp only [Nat.zero_add] at hb
    unfold pixel at hb
    have htoNat : rt.sampling.toNat = n := by rw [hs]; exact Int.toNat_natCast n
    rw [htoNat] at hb
    cases hloop : sampleLoop sqrt pow fuel rt world (Sampling.xs rt.format)
        (Sampling.ys rt.format) i j n 0 black with
    | error e => rw [hloop] at hb; simp at hb
    | ok out =>
      have := sampleLoop_ok_inv sqrt pow fuel rt world (Sampling.xs rt.format)
        (Sampling.ys rt.format) i j n 0 black out (by omega) (by omega) hloop k hk
      simp only [Nat.zero_add] at this
      exact this

end RayTracer

/-! ## A pixel of two samples -/

namespace Scene

/-- The ray of sample 0 of the pixel (0,0) of `eye`. -/
theorem eye_ray0 :
    RayTracer.getRay Real.sqrt (eye : RayTracer ℝ) (((0 : Nat) : ℝ) + -(1 / 2))
      (((0 : Nat) : ℝ) + 1 / 2) = ⟨⟨0, 0, 5 / 4⟩, ⟨-(2 / 3), -(2 / 3), -(1 / 3)⟩, 10⟩ := by
  have hsub : (⟨-(1 / 2), -(1 / 2), 1⟩ : Point ℝ).sub ⟨0, 0, 5 / 4⟩
      = ⟨-(1 / 2), -(1 / 2), -(1 / 4)⟩ := by
    simp only [Point.sub]; ext <;> norm_num
  have h1 := (Point.unitary_of_length (⟨-(1 / 2), -(1 / 2), -(1 / 4)⟩ : Point ℝ) (3 / 4)
    (by norm_num) (by norm_num [Point.dot])).2
  simp only [RayTracer.getRay, Line.toRayLength, Line.direction, eye]
  norm_num
  rw [hsub, h1]
  simp only [Point.divide]; ext <;> norm_num

/-- The ray of sample 1 of the pixel (0,0) of `eye`. -/
theorem eye_ray1 :
    RayTracer.getRay Real.sqrt (eye : RayTracer ℝ) (((0 : Nat) : ℝ) + 1 / 2)
      (((0 : Nat) : ℝ) + 1 / 2) = ⟨⟨0, 0, 5 / 4⟩, ⟨2 / 3, -(2 / 3), -(1 / 3)⟩, 10⟩ := by
  have hsub : (⟨1 / 2, -(1 / 2), 1⟩ : Point ℝ).sub ⟨0, 0, 5 / 4⟩
      = ⟨1 / 2, -(1 / 2), -(1 / 4)⟩ := by
    simp only [Point.sub]; ext <;> norm_num
  have h1 := (Point.unitary_of_length (⟨1 / 2, -(1 / 2), -(1 / 4)⟩ : Point ℝ) (3 / 4)
    (by norm_num) (by norm_num [Point.dot])).2
  simp only [RayTracer.getRay, Line.toRayLength, Line.direction, eye]
  norm_num
  rw [hsub, h1]
  simp only [Point.divide]; ext <;> norm_num

end Scene

namespace Scene

/-- Sample 0 hits the front face of `aside` at (-1/2,-1/2,1), at distance 3/4. -/
theorem half_hit0 :
    (half : World ℝ).intersect Real.sqrt ⟨⟨0, 0, 5 / 4⟩, ⟨-(2 / 3), -(2 / 3), -(1 / 3)⟩, 10⟩
      = ⟨⟨-(1 / 2), -(1 / 2), 1⟩, ⟨0, 0, 1⟩, 3 / 4, 0⟩ := by
  have h := Cube.intersect_hit (aside : Cube ℝ) (by norm_num [aside])
    ⟨⟨0, 0, 5 / 4⟩, ⟨-(2 / 3), -(2 / 3), -(1 / 3)⟩, 10⟩ (by norm_num [Point.dot]) Face.front
    (by
      norm_num [Cube.Accepted, Cube.planeParam, Cube.candidate, Cube.pivot, Cube.vertices,
        Face.normal, Point.dot, Point.sub, Point.add, Point.scale, PRECISION, abs_le, aside])
    (by
      intro g hg
      cases g <;> first
        | (left; rfl)
        | (right
           norm_num [Cube.planeParam, Cube.pivot, Cube.vertices, Face.normal, Point.dot,
             Point.sub, Point.add, aside]
           done)
        | (exfalso
           norm_num [Cube.Accepted, Cube.planeParam, Cube.candidate, Cube.pivot, Cube.vertices,
             Face.normal, Point.dot, Point.sub, Point.add, Point.scale, PRECISION, abs_le,
             aside] at hg))
  have hw : ((aside : Cube ℝ).intersect Real.sqrt
      ⟨⟨0, 0, 5 / 4⟩, ⟨-(2 / 3), -(2 / 3), -(1 / 3)⟩, 10⟩).where_ = ⟨-(1 / 2), -(1 / 2), 1⟩ := by
    rw [h.1]
    norm_num [Cube.planeParam, Cube.candidate, Cube.pivot, Cube.vertices,
        Face.normal, Point.dot, Point.sub, Point.add, Point.scale, aside]
  have hn : ((aside : Cube ℝ).intersect Real.sqrt
      ⟨⟨0, 0, 5 / 4⟩, ⟨-(2 / 3), -(2 / 3), -(1 / 3)⟩, 10⟩).normal = ⟨0, 0, 1⟩ := by
    rw [h.2.1]; rfl
  have hlen : ((aside : Cube ℝ).intersect Real.sqrt
      ⟨⟨0, 0, 5 / 4⟩, ⟨-(2 / 3), -(2 / 3), -(1 / 3)⟩, 10⟩).length = 3 / 4 := by
    rw [h.2.2]
    norm_num [Cube.planeParam, Cube.candidate, Cube.pivot, Cube.vertices,
        Face.normal, Point.dot, Point.sub, Point.add, Point.scale, aside]
  unfold World.intersect
  simp only [half, World.intersectLoop, Object.intersect, hw, hn, hlen]
  norm_num

/-- Sample 1 misses `aside`. -/
theorem half_miss1 :
    ((half : World ℝ).intersect Real.sqrt
      ⟨⟨0, 0, 5 / 4⟩, ⟨2 / 3, -(2 / 3), -(1 / 3)⟩, 10⟩).index = -1 := by
  have hlen : ((aside : Cube ℝ).intersect Real.sqrt
      ⟨⟨0, 0, 5 / 4⟩, ⟨2 / 3, -(2 / 3), -(1 / 3)⟩, 10⟩).length = -1 := by
    apply Cube.intersect_miss _ (by norm_num [aside])
    intro g
    cases g <;>
      norm_num [Cube.Accepted, Cube.planeParam, Cube.candidate, Cube.pivot, Cube.vertices,
        Face.normal, Point.dot, Point.sub, Point.add, Point.scale, PRECISION, abs_le, aside]
  unfold World.intersect
  simp only [half, World.intersectLoop, Object.intersect, hlen]
  norm_num

/-- The shade of the hit of sample 0: the ambient term (1/2, 1/4, 0) of `tint`. -/
theorem shade_half (fuel : Nat) (ray : Ray ℝ) (p n : Point ℝ) (l : ℝ) :
    RayTracer.shade Real.sqrt Real.rpow (half : World ℝ) (fuel + 1) ray ⟨p, n, l, 0⟩
      = Except.ok ⟨1 / 2, 1 / 4, 0⟩ := by
  have hM : RayTracer.materialOf (half : World ℝ) ⟨p, n, l, 0⟩ = some tint := by
    simp [RayTracer.materialOf, half, Object.material, aside]
  rw [RayTracer.shade, hM]
  have hlights : (half : World ℝ).lights = [] := rfl
  simp only [hlights, RayTracer.addLights]
  norm_num [tint, half, Color.times]

end Scene

namespace RayTracer

/-- C12: for each of the three patterns and every sample count `n` with
`1 ≤ n ≤` the length of the pattern's table: whenever `prerender` returns, the
dirty flag is cleared and for every pixel `(i, j)` there are colours
`c_0, ..., c_{n-1}` such that every offset index `k < n` is within the tables,
`shade(ray_k, hit_k)` returned `c_k` when the ray through
`(i + dx_k, j + dy_k)` has a scene intersection and `c_k` is black otherwise,
and the buffer cell is `(1/n) × Σ_{k<n} c_k` channel by channel (misses count
in the denominator); a pixel all of whose sample rays miss is black.  And
`prerender` does return, in a scene whose primitives carry valid material
indices and whose reflection coefficients are at most 1, when each call of
`shade` has a budget of at least `⌊far / PRECISION⌋ + 1` nested calls. -/
theorem prerender_mean (pow : ℝ → ℝ → ℝ) (rt : RayTracer ℝ) (world : World ℝ) (n : Nat)
    (hn1 : 1 ≤ n) (hn2 : n ≤ (Sampling.xs rt.format : List ℝ).length)
    (hs : rt.sampling = (n : Int)) :
    (∀ (fuel : Nat) (rt' : RayTracer ℝ),
      prerender Real.sqrt pow fuel rt world = Except.ok rt' →
      rt'.changed = false ∧
      (∀ i j : Nat, i < rt.width → j < rt.height →
        ∃ (row : List (Color ℝ)) (c : Nat → Color ℝ),
          rt'.buffer[i]? = some row ∧
          (∀ k : Nat, k < n → ∃ dx dy : ℝ,
            (Sampling.xs rt.format : List ℝ)[k]? = some dx ∧
            (Sampling.ys rt.format : List ℝ)[k]? = some dy ∧
            (0 ≤ (world.intersect Real.sqrt
                (getRay Real.sqrt rt ((i : ℝ) + dx) ((j : ℝ) + dy))).index →
              shade Real.sqrt pow world fuel (getRay Real.sqrt rt ((i : ℝ) + dx) ((j : ℝ) + dy))
                (world.intersect Real.sqrt (getRay Real.sqrt rt ((i : ℝ) + dx) ((j : ℝ) + dy)))
                = Except.ok (c k)) ∧
            ((world.intersect Real.sqrt
                (getRay Real.sqrt rt ((i : ℝ) + dx) ((j : ℝ) + dy))).index < 0 →
              c k = black)) ∧
          row[j]? = some
            ⟨1 / (n : ℝ) * Finset.sum (Finset.range n) (fun k => (c k).red),
             1 / (n : ℝ) * Finset.sum (Finset.range n) (fun k => (c k).green),
             1 / (n : ℝ) * Finset.sum (Finset.range n) (fun k => (c k).blue)⟩ ∧
          ((∀ (k : Nat) (dx dy : ℝ), k < n →
              (Sampling.xs rt.format : List ℝ)[k]? = some dx →
              (Sampling.ys rt.format : List ℝ)[k]? = some dy →
              (world.intersect Real.sqrt
                (getRay Real.sqrt rt ((i : ℝ) + dx) ((j : ℝ) + dy))).index < 0) →
            row[j]? = some black))) ∧
    ((∀ o ∈ world.objects, 0 ≤ o.material ∧ o.material < (world.materials.length : Int)) →
      (∀ m ∈ world.materials, m.reflection ≤ 1) →
      ∀ fuel : Nat, Nat.floor (rt.camera.far / PRECISION) + 1 ≤ fuel →
        ∃ rt' : RayTracer ℝ, prerender Real.sqrt pow fuel rt world = Except.ok rt') := by
  have hylen : (Sampling.ys rt.format : List ℝ).length = (Sampling.xs rt.format : List ℝ).length :=
    Sampling_ys_length rt.format
  constructor
  · intro fuel rt' hret
    have hshade := prerender_ok_inv Real.sqrt pow fuel rt rt' world n hn2 hs hret
    obtain ⟨rt2, hok, hflag, hcells, _, _⟩ :=
      prerender_cells Real.sqrt pow fuel rt world n hn1 hn2 hs hshade
    have hrt : rt2 = rt' := by
      rw [hok] at hret
      injection hret
    subst hrt
    refine ⟨hflag, ?_⟩
    intro i j hi hj
    obtain ⟨row, hrow, hcell⟩ := hcells i j hi hj
    have hck : ∀ k : Nat, k < n → ∃ dx dy : ℝ,
        (Sampling.xs rt.format : List ℝ)[k]? = some dx ∧
        (Sampling.ys rt.format : List ℝ)[k]? = some dy ∧
        (0 ≤ (world.intersect Real.sqrt
            (getRay Real.sqrt rt ((i : ℝ) + dx) ((j : ℝ) + dy))).index →
          shade Real.sqrt pow world fuel (getRay Real.sqrt rt ((i : ℝ) + dx) ((j : ℝ) + dy))
            (world.intersect Real.sqrt (getRay Real.sqrt rt ((i : ℝ) + dx) ((j : ℝ) + dy)))
            = Except.ok (sampleColor Real.sqrt pow fuel rt world (Sampling.xs rt.format)
                (Sampling.ys rt.format) i j k)) ∧
        ((world.intersect Real.sqrt
            (getRay Real.sqrt rt ((i : ℝ) + dx) ((j : ℝ) + dy))).index < 0 →
          sampleColor Real.sqrt pow fuel rt world (Sampling.xs rt.format)
            (Sampling.ys rt.format) i j k = black) := by
      intro k hk
      have hkx : k < (Sampling.xs rt.format : List ℝ).length := by omega
      have hky : k < (Sampling.ys rt.format : List ℝ).length := by omega
      have hgx : (Sampling.xs rt.format : List ℝ).getD k 0
          = (Sampling.xs rt.format : List ℝ)[k] := by
        rw [List.getD_eq_getElem?_getD, List.getElem?_eq_getElem hkx]; rfl
      have hgy : (Sampling.ys rt.format : List ℝ).getD k 0
          = (Sampling.ys rt.format : List ℝ)[k] := by
        rw [List.getD_eq_getElem?_getD, List.getElem?_eq_getElem hky]; rfl
      refine ⟨_, _, List.getElem?_eq_getElem hkx, List.getElem?_eq_getElem hky, ?_, ?_⟩
      · intro hidx
        have hs2 := hshade i j k hi hj hk
        rw [hgx, hgy] at hs2
        obtain ⟨c, hc⟩ := hs2 hidx
        rw [hc]
        unfold sampleColor
        simp only [hgx, hgy, ge_iff_le, hidx, if_true, hc]
      · intro hidx
        unfold sampleColor
        simp only [hgx, hgy, ge_iff_le, not_le.mpr hidx, if_false]
    refine ⟨row, fun k => sampleColor Real.sqrt pow fuel rt world (Sampling.xs rt.format)
      (Sampling.ys rt.format) i j k, hrow, hck, ?_, ?_⟩
    · rw [hcell]; rfl
    · intro hmiss
      have hblack : ∀ k : Nat, k < n → sampleColor Real.sqrt pow fuel rt world
          (Sampling.xs rt.format) (Sampling.ys rt.format) i j k = black := by
        intro k hk
        obtain ⟨dx, dy, hx, hy, _, hb⟩ := hck k hk
        exact hb (hmiss k dx dy hk hx hy)
      rw [hcell]
      unfold sampleMean
      rw [Finset.sum_eq_zero (fun k hk => by rw [hblack k (Finset.mem_range.mp hk)]; rfl),
        Finset.sum_eq_zero (fun k hk => by rw [hblack k (Finset.mem_range.mp hk)]; rfl),
        Finset.sum_eq_zero (fun k hk => by rw [hblack k (Finset.mem_range.mp hk)]; rfl)]
      simp [black]
  · intro hobj hrefl fuel hfuel
    have hshade : ∀ (x y : ℝ),
        (world.intersect Real.sqrt (getRay Real.sqrt rt x y)).index ≥ 0 →
        ∃ c, shade Real.sqrt pow world fuel (getRay Real.sqrt rt x y)
          (world.intersect Real.sqrt (getRay Real.sqrt rt x y)) = Except.ok c := by
      intro x y hidx
      obtain ⟨M, hM⟩ := materialOf_hit Real.sqrt world hobj (getRay Real.sqrt rt x y) hidx
      exact shade_returns pow world hobj hrefl _ _ (by rw [hM]; simp) fuel hfuel
    obtain ⟨rt', hok, _⟩ := prerender_cells Real.sqrt pow fuel rt world n hn1 hn2 hs
      (fun i j k _ _ _ hidx => hshade _ _ hidx)
    exact ⟨rt', hok⟩

/-- C12 at a concrete input: the one-pixel renderer `Scene.eye` (2 samples of
the square pattern) on the scene `Scene.half`.  Sample 0 hits the cube, whose
shade is (1/2, 1/4, 0); sample 1 misses; `prerender` returns and the pixel is
their mean (1/4, 1/8, 0). -/
theorem prerender_mean_witness :
    ∃ rt' : RayTracer ℝ,
      prerender Real.sqrt Real.rpow
        (Nat.floor ((Scene.eye : RayTracer ℝ).camera.far / PRECISION) + 1)
        (Scene.eye : RayTracer ℝ) Scene.half = Except.ok rt' ∧
      rt'.changed = false ∧
      ∃ row, rt'.buffer[0]? = some row ∧ row[0]? = some ⟨1 / 4, 1 / 8, 0⟩ := by
  obtain ⟨hA, hB⟩ := prerender_mean Real.rpow (Scene.eye : RayTracer ℝ) Scene.half 2
    (by norm_num) (by simp [Scene.eye, Sampling.xs, Sampling.square_x]) rfl
  obtain ⟨rt', h1⟩ := hB
    (by
      intro o ho
      simp only [Scene.half, List.mem_singleton] at ho
      subst ho
      simp [Object.material, Scene.aside, Scene.half])
    (by
      intro m hm
      simp only [Scene.half, List.mem_singleton] at hm
      subst hm
      norm_num [Scene.tint])
    _ (le_refl _)
  obtain ⟨h2, h3⟩ := hA _ rt' h1
  obtain ⟨row, c, hrow, hc, hcell, _⟩ := h3 0 0 (by simp [Scene.eye]) (by simp [Scene.eye])
  refine ⟨rt', h1, h2, row, hrow, ?_⟩
  have hc0 : c 0 = ⟨1 / 2, 1 / 4, 0⟩ := by
    obtain ⟨dx, dy, hx, hy, hhit, _⟩ := hc 0 (by norm_num)
    have hdx : dx = -(1 / 2) := by
      simp [Scene.eye, Sampling.xs, Sampling.square_x] at hx; linarith
    have hdy : dy = 1 / 2 := by
      simp [Scene.eye, Sampling.ys, Sampling.square_y] at hy; linarith
    subst hdx; subst hdy
    rw [Scene.eye_ray0, Scene.half_hit0, Scene.shade_half] at hhit
    have := hhit (by norm_num)
    injection this with this
    exact this.symm
  have hc1 : c 1 = black := by
    obtain ⟨dx, dy, hx, hy, _, hmiss⟩ := hc 1 (by norm_num)
    have hdx : dx = 1 / 2 := by
      simp [Scene.eye, Sampling.xs, Sampling.square_x] at hx; linarith
    have hdy : dy = 1 / 2 := by
      simp [Scene.eye, Sampling.ys, Sampling.square_y] at hy; linarith
    subst hdx; subst hdy
    rw [Scene.eye_ray1, Scene.half_miss1] at hmiss
    exact hmiss (by norm_num)
  rw [hcell]
  simp only [Finset.sum_range_succ, Finset.sum_range_zero, hc0, hc1, black]
  norm_num

end RayTracer

end RayTrace
